import Mathlib

/-!
# Meeting lifecycle, registration and attendance

A shallow embedding of the meeting subsystem of the financial-advisor server:
`server/models/Meeting.js`, `server/models/Attendance.js`,
`server/middlewares/AuthMiddleware.js` (`requireAuth`) and the handlers of
`server/controllers/meetingController.js`.

Modelling conventions.

* A handler `async (req, res)` becomes a function from the store, the parts of
  the request it reads and the current instant to the new store and the HTTP
  response. One request runs at one instant `now` (milliseconds since the epoch).
* The two Mongo collections are lists of documents; `findById`, `findOne`,
  `save`, `deleteMany`, `findByIdAndDelete` and `findByIdAndUpdate` work on these
  lists as Mongoose does on the collections. An `ObjectId` is written as its 24
  lower-case hexadecimal digits; a string is cast to an `ObjectId` where the schema
  or a query by `_id` asks for one (`castObjectId`), and a failed cast is the
  `CastError` that the `catch` of a handler answers with 500. `save` validates the
  document with the validators the schemas declare (`validMeeting`,
  `validRegistration`), `findByIdAndUpdate` runs the setters and, with
  `runValidators`, the validators of the paths it sets (`validPatch`), and a failed
  validation stores nothing.
* JavaScript strings are `String`; a value that may be `undefined` is an
  `Option`; `a || b` on such values is `jsOr`, truthiness is `truthy`.
* A JavaScript number is a rational; `maxAttendees` is a `Number` path, which
  `createMeeting` sets to the integer `parseInt(maxAttendees)` and an update to any
  number.
* `dayjs` and `Date` come from outside the repository: the parser of
  date-time strings and the formatter of the current UTC day are the two fields
  of `DateLib`, and every definition that needs them takes a `DateLib`.
-/

namespace MeetingService

/-! ## JavaScript values -/

/-- Truthiness of a string-or-undefined value: `undefined` and `''` are falsy. -/
def truthy : Option String → Bool
  | some s => s != ""
  | none => false

/-- The expression `a || b` on string-or-undefined values. -/
def jsOr (a b : Option String) : Option String :=
  if truthy a then a else b

/-- White space and line terminators removed by `String.prototype.trim`. -/
def isJsSpace (c : Char) : Bool :=
  c.val == 0x09 || c.val == 0x0A || c.val == 0x0B || c.val == 0x0C || c.val == 0x0D ||
  c.val == 0x20 || c.val == 0xA0 || c.val == 0x1680 ||
  (0x2000 ≤ c.val && c.val ≤ 0x200A) ||
  c.val == 0x2028 || c.val == 0x2029 || c.val == 0x202F || c.val == 0x205F ||
  c.val == 0x3000 || c.val == 0xFEFF

/-- Drops the leading white space of a list of characters. -/
def trimStart : List Char → List Char
  | [] => []
  | c :: cs => if isJsSpace c then trimStart cs else c :: cs

/-- The method `String.prototype.trim`. -/
def jsTrim (s : String) : String :=
  ⟨(trimStart (trimStart s.data).reverse).reverse⟩

/-! ## Object identifiers -/

/-- A hexadecimal digit. -/
def isHexDigit (c : Char) : Bool :=
  (0x30 ≤ c.val && c.val ≤ 0x39) || (0x41 ≤ c.val && c.val ≤ 0x46) ||
  (0x61 ≤ c.val && c.val ≤ 0x66)

/-- The cast of a string to an `ObjectId`: a string of 24 hexadecimal digits is the
identifier with these digits, written here in lower case; for another string the
cast throws a `CastError` (`none`). The 12-byte form of an identifier, which some
versions of the driver also accept as a string, is not modelled. -/
def castObjectId (s : String) : Option String :=
  if s.data.length = 24 ∧ s.data.all isHexDigit = true then some ⟨s.data.map Char.toLower⟩
  else none

/-- The cast of the value a query gives for an `ObjectId` path: `undefined` is
left as it is, a string is cast. -/
def castQueryId : Option String → Option (Option String)
  | none => some none
  | some s => (castObjectId s).map some

/-! ## Documents (`models/Meeting.js`, `models/Attendance.js`) -/

/-- An embedded registration (`RegistrationSchema`); `userId` is an `ObjectId`. -/
structure Registration where
  userId : String
  name : String
  email : String
  phone : String
  organization : String
  experience : String
  questions : String
  registrationDate : Int
  deriving DecidableEq, Repr

/-- A meeting document (`MeetingSchema`); `_id` is an `ObjectId`, `maxAttendees`
a number. -/
structure Meeting where
  _id : String
  title : String
  description : String
  type : String
  date : String
  time : String
  duration : String
  language : String
  topics : List String
  expert : String
  joinUrl : String
  recordingUrl : Option String
  maxAttendees : ℚ
  registrations : List Registration
  creator : String
  status : String
  isPublic : Bool
  createdAt : Int
  updatedAt : Int
  deriving DecidableEq, Repr

/-- An attendance document (`AttendanceSchema`); `userId` and `meetingId` are
`ObjectId`s, `duration` is in minutes. -/
structure Attendance where
  userId : String
  meetingId : String
  joinTime : Int
  leaveTime : Option Int
  duration : Int
  status : String
  ipAddress : Option String
  userAgent : Option String
  deriving DecidableEq, Repr

/-- The virtual `registrationCount`. -/
def Meeting.registrationCount (m : Meeting) : Nat :=
  m.registrations.length

/-- The virtual `availableSpots`. -/
def Meeting.availableSpots (m : Meeting) : ℚ :=
  m.maxAttendees - m.registrationCount

/-- The method `isFull`: `registrationCount >= maxAttendees`. -/
def Meeting.isFull (m : Meeting) : Bool :=
  decide (m.maxAttendees ≤ (m.registrationCount : ℚ))

/-- The length of a JavaScript string, in UTF-16 code units. -/
def jsLength (s : String) : Nat :=
  (s.data.map (fun c => if c.val ≤ 0xFFFF then 1 else 2)).sum

/-- The validators `MeetingSchema` declares on the paths of a meeting, which
`meeting.save()` runs: `required` (a non-empty string) for title, date, time,
language, expert and creator, `maxlength` 200 for title and 1000 for description,
the `enum` of type and of status, `min` 1 for maxAttendees. -/
def validMeeting (m : Meeting) : Bool :=
  m.title != "" && decide (jsLength m.title ≤ 200) &&
  decide (jsLength m.description ≤ 1000) &&
  (m.type == "webinar" || m.type == "qna" || m.type == "workshop" || m.type == "other") &&
  m.date != "" && m.time != "" && m.language != "" && m.expert != "" &&
  decide (1 ≤ m.maxAttendees) && m.creator != "" &&
  (m.status == "scheduled" || m.status == "live" || m.status == "completed" ||
    m.status == "cancelled")

/-- The validators of `RegistrationSchema`: `userId` is a required `ObjectId` (a
value that cannot be cast is invalid), `name`, `email` and `phone` are required,
`experience` is one of four levels. -/
def validRegistration (r : Registration) : Bool :=
  (castObjectId r.userId).isSome && r.name != "" && r.email != "" && r.phone != "" &&
  (r.experience == "beginner" || r.experience == "intermediate" ||
    r.experience == "advanced" || r.experience == "expert")

/-- The embedded document made of a registration object: `userId` is cast. -/
def castRegistration (r : Registration) : Registration :=
  { r with userId := (castObjectId r.userId).getD r.userId }

/-- What `meeting.save()` validates on a loaded document: the paths of the meeting
and every embedded registration. -/
def validDocument (m : Meeting) : Bool :=
  validMeeting m && m.registrations.all validRegistration

/-! ## The store -/

/-- The two collections. -/
structure Store where
  meetings : List Meeting
  attendance : List Attendance
  deriving DecidableEq, Repr

/-- The query `Meeting.findById(id)` for an `id` already cast. -/
def findById (ms : List Meeting) (id : String) : Option Meeting :=
  ms.find? (fun m => m._id == id)

/-- Writes a loaded document back: the stored document with the same `_id` is
replaced. -/
def replaceMeeting : List Meeting → Meeting → List Meeting
  | [], _ => []
  | x :: xs, m => if x._id == m._id then m :: xs else x :: replaceMeeting xs m

/-- The pre-save hook of `MeetingSchema`: `this.updatedAt = new Date()`. -/
def preSave (m : Meeting) (now : Int) : Meeting :=
  { m with updatedAt := now }

/-- The call `meeting.save()` on a loaded document: the pre-save hook runs, then
the document is written back. -/
def saveMeeting (ms : List Meeting) (m : Meeting) (now : Int) : List Meeting :=
  replaceMeeting ms (preSave m now)

/-- The call `Meeting.findByIdAndDelete(id)`: removes the document with this `_id`. -/
def deleteById : List Meeting → String → List Meeting
  | [], _ => []
  | x :: xs, id => if x._id == id then xs else x :: deleteById xs id

/-- The primary-key property of the meetings collection: `_id` values are
pairwise distinct. -/
def UniqueIds (ms : List Meeting) : Prop :=
  (ms.map (fun m => m._id)).Nodup

/-- The query `Attendance.findOne({ userId, meetingId })` for values already cast;
no row matches an `undefined` user. -/
def findAttendance (as : List Attendance) (userId : Option String) (meetingId : String) :
    Option Attendance :=
  as.find? (fun a => some a.userId == userId && a.meetingId == meetingId)

/-- The call `Attendance.deleteMany({ meetingId })`. -/
def deleteAttendanceOf (as : List Attendance) (meetingId : String) : List Attendance :=
  as.filter (fun a => !(a.meetingId == meetingId))

/-- The pair the unique index of `AttendanceSchema` is declared on. -/
def Attendance.key (a : Attendance) : String × String :=
  (a.userId, a.meetingId)

/-- At most one attendance row for each pair of user and meeting. -/
def UniqueAttendance (as : List Attendance) : Prop :=
  (as.map Attendance.key).Nodup

/-! ## Requests and responses -/

/-- The authenticated user document put on the request by `ensureAuthenticated`. -/
structure User where
  _id : String
  email : Option String
  id : Option String
  deriving DecidableEq, Repr

/-- An element of the arrays sent by the list handlers:
`{ ...meeting.toJSON(), registrationCount, availableSpots }`; the archive sends
no `availableSpots`. -/
structure MeetingView where
  meeting : Meeting
  registrationCount : Nat
  availableSpots : Option ℚ
  deriving DecidableEq, Repr

/-- The object `{ joinTime, leaveTime, duration, status }` that
`getMeetingAttendees` copies from an attendance row. -/
structure AttendanceInfo where
  joinTime : Int
  leaveTime : Option Int
  duration : Int
  status : String
  deriving DecidableEq, Repr

/-- An element of the array sent by `getMeetingAttendees`:
`{ ...registration.toJSON(), attendance }`, `attendance` being `null` or the
copied fields. -/
structure AttendeeView where
  registration : Registration
  attendance : Option AttendanceInfo
  deriving DecidableEq, Repr

/-- An element of the array sent by `getUserRegistrations`:
`{ sessionId, meetingTitle, registrationDate }`, `registrationDate` being absent
when no registration was found. -/
structure UserRegistration where
  sessionId : String
  meetingTitle : String
  registrationDate : Option Int
  deriving DecidableEq, Repr

/-- The JSON body of a response. -/
inductive Body where
  | error (msg : String)
  | message (msg : String)
  | registered (msg : String) (registration : Registration)
  | joined (msg : String) (joinUrl : String) (attendance : Attendance)
  | left (msg : String) (attendance : Attendance)
  | meeting (msg : String) (m : Meeting)
  | liveMeeting (m : Meeting) (registrationCount : Nat)
  | empty
  | meetings (items : List MeetingView)
  | attendees (items : List AttendeeView)
  | userRegistrations (items : List UserRegistration)
  deriving DecidableEq, Repr

/-- An HTTP response: status code and JSON body. -/
structure Response where
  status : Nat
  body : Body
  deriving DecidableEq, Repr

/-- The fields `registerForMeeting` reads from `req.body`. -/
structure RegisterBody where
  name : Option String
  email : Option String
  phone : Option String
  organization : Option String
  experience : Option String
  questions : Option String
  sessionId : Option String
  userId : Option String
  deriving DecidableEq, Repr

/-! ## Registration (`registerForMeeting`) -/

/-- The registration object built by `registerForMeeting`; `name`, `email` and
`phone` are the body values already known to be truthy. -/
def mkRegistration (user : Option User) (body : RegisterBody) (name email phone : String)
    (now : Int) : Registration :=
  { userId := ((jsOr (jsOr (user.map (fun u => u._id)) body.userId) (some email)).getD email)
    name := jsTrim name
    email := jsTrim email
    phone := jsTrim phone
    organization := jsTrim (body.organization.getD "")
    experience := body.experience.getD "beginner"
    questions := jsTrim (body.questions.getD "")
    registrationDate := now }

/-- The statement `meeting.registrations.push(registration)`. -/
def pushRegistration (meeting : Meeting) (registration : Registration) : Meeting :=
  { meeting with registrations := meeting.registrations ++ [registration] }

/-- The handler `registerForMeeting`. The registration pushed on the meeting is
cast to an embedded document; `meeting.save()` validates the meeting and, when the
validation fails, stores nothing and throws to the `catch`, which answers 500. The
response carries the registration object as the handler built it. -/
def registerForMeeting (s : Store) (user : Option User) (id : String) (body : RegisterBody)
    (now : Int) : Store × Response :=
  match body.name, body.email, body.phone with
  | some name, some email, some phone =>
    if name == "" || email == "" || phone == "" then
      (s, ⟨400, .error "Name, email, and phone are required"⟩)
    else
      match castObjectId id with
      | none => (s, ⟨500, .error "Internal server error"⟩)
      | some oid =>
        match findById s.meetings oid with
        | none => (s, ⟨404, .error "Meeting not found"⟩)
        | some meeting =>
          if meeting.isFull then
            (s, ⟨400, .error "Meeting is full"⟩)
          else
            match meeting.registrations.find? (fun reg => reg.email == email) with
            | some _ => (s, ⟨400, .error "You are already registered for this meeting"⟩)
            | none =>
              let registration := mkRegistration user body name email phone now
              if !validDocument (pushRegistration meeting (castRegistration registration)) then
                (s, ⟨500, .error "Internal server error"⟩)
              else
                ({ s with
                    meetings := saveMeeting s.meetings
                      (pushRegistration meeting (castRegistration registration)) now },
                  ⟨200, .registered "Registration successful" registration⟩)
  | _, _, _ => (s, ⟨400, .error "Name, email, and phone are required"⟩)

/-- The handler `getUserRegistrations`: `userEmail` is `req.user?.email ||
req.query.email`, the query is `Meeting.find({ 'registrations.email': userEmail })`. -/
def getUserRegistrations (s : Store) (user : Option User) (queryEmail : Option String) :
    Response :=
  let userEmail := jsOr (user.bind (fun u => u.email)) queryEmail
  if !truthy userEmail then ⟨200, .userRegistrations []⟩
  else
    let meetings := s.meetings.filter (fun meeting =>
      meeting.registrations.any (fun reg => some reg.email == userEmail))
    ⟨200, .userRegistrations (meetings.map (fun meeting =>
      ⟨meeting._id, meeting.title,
        (meeting.registrations.find? (fun reg => some reg.email == userEmail)).map
          (fun reg => reg.registrationDate)⟩))⟩

/-- The array `getUserRegistrations` sent; empty for another response. -/
def returnedRegistrations (r : Response) : List UserRegistration :=
  match r.body with
  | .userRegistrations items => items
  | _ => []

/-! ## The live window (`dayjs`) -/

/-- The two library calls the handlers make on dates: `parse` is
`dayjs(text).valueOf()` in milliseconds, `none` for an invalid date; `isoDate`
is `new Date(now).toISOString().split('T')[0]`, the UTC day of an instant. -/
structure DateLib where
  parse : String → Option Int
  isoDate : Int → String

/-- The comparison `now.isAfter(that)`; an invalid date compares false. -/
def isAfter (now : Int) (that : Option Int) : Bool :=
  match that with
  | some t => decide (t < now)
  | none => false

/-- The comparison `now.isBefore(that)`; an invalid date compares false. -/
def isBefore (now : Int) (that : Option Int) : Bool :=
  match that with
  | some t => decide (now < t)
  | none => false

/-- The value `dayjs(date + 'T' + time)`. -/
def meetingStart (lib : DateLib) (m : Meeting) : Option Int :=
  lib.parse (m.date ++ "T" ++ m.time)

/-- The value `meetingStart.add(2, 'hour')`. -/
def meetingEnd (lib : DateLib) (m : Meeting) : Option Int :=
  (meetingStart lib m).map (fun t => t + 2 * 3600000)

/-- The test `now.isAfter(meetingStart) && now.isBefore(meetingEnd)` made by
`getLiveMeetings`, whose negation `joinMeeting` tests. -/
def isLive (lib : DateLib) (m : Meeting) (now : Int) : Bool :=
  isAfter now (meetingStart lib m) && isBefore now (meetingEnd lib m)

/-- Binary string order used by the sort `{ time: 1 }`. -/
def charsLe : List Char → List Char → Bool
  | [], _ => true
  | _ :: _, [] => false
  | a :: as, b :: bs =>
    if a.toNat < b.toNat then true
    else if b.toNat < a.toNat then false
    else charsLe as bs

/-- Inserts a meeting into a list sorted by `time`. -/
def insertByTime (m : Meeting) : List Meeting → List Meeting
  | [] => [m]
  | x :: xs =>
    if charsLe m.time.data x.time.data then m :: x :: xs else x :: insertByTime m xs

/-- The sort `.sort({ time: 1 })`. -/
def sortByTime : List Meeting → List Meeting
  | [] => []
  | x :: xs => insertByTime x (sortByTime xs)

/-- The handler `getLiveMeetings`. -/
def getLiveMeetings (lib : DateLib) (s : Store) (now : Int) : Response :=
  let today := lib.isoDate now
  let meetings := sortByTime (s.meetings.filter (fun m =>
    m.date == today && (m.status == "scheduled" || m.status == "live") && m.isPublic))
  let liveMeetings := meetings.filter (fun m => isLive lib m now)
  match liveMeetings with
  | m :: _ => ⟨200, .liveMeeting m m.registrationCount⟩
  | [] => ⟨200, .empty⟩

/-! ## Listing meetings (`getUpcomingMeetings`, `getArchivedMeetings`) -/

/-- The comparison `a <= b` of two strings in a MongoDB query or sort: binary order. -/
def strLe (a b : String) : Bool :=
  charsLe a.data b.data

/-- The comparison `a < b` of two strings in a MongoDB query or sort. -/
def strLt (a b : String) : Bool :=
  !charsLe b.data a.data

/-- The order of the sort `{ date: 1, time: 1 }`: by `date`, equal dates by `time`. -/
def dateTimeLe (a b : Meeting) : Bool :=
  if a.date == b.date then strLe a.time b.time else strLe a.date b.date

/-- Inserts a meeting into a list sorted by `le`. -/
def insertSorted (le : Meeting → Meeting → Bool) (m : Meeting) : List Meeting → List Meeting
  | [] => [m]
  | x :: xs => if le m x then m :: x :: xs else x :: insertSorted le m xs

/-- The sort of a query result by the order `le`. -/
def sortWith (le : Meeting → Meeting → Bool) : List Meeting → List Meeting
  | [] => []
  | x :: xs => insertSorted le x (sortWith le xs)

/-- The query string of the two list handlers; `limit` and `page` are the
integers `parseInt` reads, `none` for an absent parameter. -/
structure ListQuery where
  language : Option String
  type : Option String
  limit : Option Int
  page : Option Int
  deriving DecidableEq, Repr

/-- The value `parseInt(limit)` with the default `limit = 20`. -/
def limitOf (q : ListQuery) : Int :=
  q.limit.getD 20

/-- The value `skip = (parseInt(page) - 1) * parseInt(limit)` with the default
`page = 1`. -/
def skipOf (q : ListQuery) : Int :=
  (q.page.getD 1 - 1) * limitOf q

/-- The cursor modifiers `.skip(skip).limit(limit)` on a sorted result. MongoDB
rejects a negative skip (`none`, which the handler's `catch` answers with 500);
`limit(0)` sets no limit and a negative limit keeps as many documents as its
absolute value. -/
def paginate (skip limit : Int) (l : List Meeting) : Option (List Meeting) :=
  if skip < 0 then none
  else if limit = 0 then some (l.drop skip.toNat)
  else some ((l.drop skip.toNat).take limit.natAbs)

/-- The optional equality filter `if (value) query.field = value`. -/
def matchesFilter (value : Option String) (field : String) : Bool :=
  if truthy value then some field == value else true

/-- The query of `getUpcomingMeetings`: `{ date: { $gte: today }, status: { $in:
['scheduled'] }, isPublic: true }` with the optional `language` and `type`. -/
def isUpcoming (today : String) (q : ListQuery) (m : Meeting) : Bool :=
  strLe today m.date && m.status == "scheduled" && m.isPublic &&
    matchesFilter q.language m.language && matchesFilter q.type m.type

/-- The query of `getArchivedMeetings`: `{ $or: [{ date: { $lt: today } },
{ status: 'completed' }], isPublic: true }` with the optional `language` and
`type`. -/
def isArchived (today : String) (q : ListQuery) (m : Meeting) : Bool :=
  (strLt m.date today || m.status == "completed") && m.isPublic &&
    matchesFilter q.language m.language && matchesFilter q.type m.type

/-- The handler `getUpcomingMeetings`. -/
def getUpcomingMeetings (lib : DateLib) (s : Store) (q : ListQuery) (now : Int) : Response :=
  let today := lib.isoDate now
  let found := sortWith dateTimeLe (s.meetings.filter (isUpcoming today q))
  match paginate (skipOf q) (limitOf q) found with
  | none => ⟨500, .error "Internal server error"⟩
  | some meetings =>
    ⟨200, .meetings (meetings.map (fun meeting =>
      ⟨meeting, meeting.registrationCount, some meeting.availableSpots⟩))⟩

/-- The handler `getArchivedMeetings`; the sort is `{ date: -1, time: -1 }`. -/
def getArchivedMeetings (lib : DateLib) (s : Store) (q : ListQuery) (now : Int) : Response :=
  let today := lib.isoDate now
  let found := sortWith (fun a b => dateTimeLe b a) (s.meetings.filter (isArchived today q))
  match paginate (skipOf q) (limitOf q) found with
  | none => ⟨500, .error "Internal server error"⟩
  | some meetings =>
    ⟨200, .meetings (meetings.map (fun meeting => ⟨meeting, meeting.registrationCount, none⟩))⟩

/-- The meetings in the array a list handler sent; none for another response. -/
def returnedMeetings (r : Response) : List Meeting :=
  match r.body with
  | .meetings items => items.map (fun item => item.meeting)
  | _ => []

/-! ## Attendance (`joinMeeting`, `leaveMeeting`) -/

/-- The identity `req.user?.email || req.body.email`, called `userEmail` in
`joinMeeting`, `leaveMeeting`, `updateMeeting`, `deleteMeeting`, `goLiveMeeting`
and `getMeetingAttendees`. -/
def requesterEmail (user : Option User) (bodyEmail : Option String) : Option String :=
  jsOr (user.bind (fun u => u.email)) bodyEmail

/-- What `joinMeeting` reads from the request besides the user and the id. -/
structure JoinBody where
  email : Option String
  ip : Option String
  userAgent : Option String
  deriving DecidableEq, Repr

/-- The document `new Attendance({ userId: userEmail, meetingId, joinTime: new
Date(), ipAddress, userAgent })` with the schema defaults for `duration` and
`status`; `userId` is the cast `userEmail`, a string here, the requester being
registered. -/
def newAttendance (userId : Option String) (meetingId : String) (body : JoinBody)
    (now : Int) : Attendance where
  userId := userId.getD ""
  meetingId := meetingId
  joinTime := now
  leaveTime := none
  duration := 0
  status := "joined"
  ipAddress := body.ip
  userAgent := body.userAgent

/-- The handler `joinMeeting`. `Meeting.findById` casts `req.params.id` and
`Attendance.findOne` casts `userEmail` to an `ObjectId`; a failed cast throws to
the `catch`, which answers 500. -/
def joinMeeting (lib : DateLib) (s : Store) (user : Option User) (id : String)
    (body : JoinBody) (now : Int) : Store × Response :=
  match castObjectId id with
  | none => (s, ⟨500, .error "Internal server error"⟩)
  | some oid =>
    match findById s.meetings oid with
    | none => (s, ⟨404, .error "Meeting not found"⟩)
    | some meeting =>
      let userEmail := requesterEmail user body.email
      let isRegistered := meeting.registrations.any (fun reg => some reg.email == userEmail)
      if !isRegistered then
        (s, ⟨400, .error "You must register for this meeting before joining"⟩)
      else if !isAfter now (meetingStart lib meeting) ||
          !isBefore now (meetingEnd lib meeting) then
        (s, ⟨400, .error "Meeting is not live yet or has ended"⟩)
      else
        match castQueryId userEmail with
        | none => (s, ⟨500, .error "Internal server error"⟩)
        | some userId =>
          match findAttendance s.attendance userId meeting._id with
          | some _ => (s, ⟨400, .error "You have already joined this meeting"⟩)
          | none =>
            let attendance := newAttendance userId meeting._id body now
            ({ s with attendance := s.attendance ++ [attendance] },
              ⟨200, .joined "Successfully joined the meeting" meeting.joinUrl attendance⟩)

/-- The value `Math.round(durationMs / (1000 * 60))`: the nearest whole minute,
a half rounded up. -/
def roundMinutes (durationMs : Int) : Int :=
  (durationMs + 30000).fdiv 60000

/-- The method `markAsLeft` followed by the pre-save hook of `AttendanceSchema`. -/
def markAsLeft (a : Attendance) (now : Int) : Attendance :=
  { a with leaveTime := some now, status := "left", duration := roundMinutes (now - a.joinTime) }

/-- Writes back the attendance document that `findOne` returned. -/
def replaceAttendance : List Attendance → Option String → String → Attendance → List Attendance
  | [], _, _, _ => []
  | x :: xs, userId, meetingId, a =>
    if some x.userId == userId && x.meetingId == meetingId then a :: xs
    else x :: replaceAttendance xs userId meetingId a

/-- The handler `leaveMeeting`. `Attendance.findOne` casts `userEmail` and
`req.params.id` to `ObjectId`s; a failed cast throws to the `catch`, which answers
500. -/
def leaveMeeting (s : Store) (user : Option User) (id : String) (email : Option String)
    (now : Int) : Store × Response :=
  let userEmail := requesterEmail user email
  match castQueryId userEmail, castObjectId id with
  | some userId, some meetingId =>
    match findAttendance s.attendance userId meetingId with
    | none => (s, ⟨404, .error "Attendance record not found"⟩)
    | some attendance =>
      let attendance1 := markAsLeft attendance now
      ({ s with attendance := replaceAttendance s.attendance userId meetingId attendance1 },
        ⟨200, .left "Successfully left the meeting" attendance1⟩)
  | _, _ => (s, ⟨500, .error "Internal server error"⟩)

/-- The comparison `att.userId === registration.email` of `getMeetingAttendees`:
`att.userId` is an `ObjectId` object and `registration.email` a string, and strict
equality of an object and a string is false. -/
def userIdIsEmail (_userId : String) (_email : String) : Bool :=
  false

/-- The entry `getMeetingAttendees` builds for one registration: the first of the
meeting's attendance records with `att.userId === registration.email`, if any. -/
def attendeeView (attendanceRecords : List Attendance) (registration : Registration) :
    AttendeeView where
  registration := registration
  attendance :=
    (attendanceRecords.find? (fun att => userIdIsEmail att.userId registration.email)).map
      (fun att => ⟨att.joinTime, att.leaveTime, att.duration, att.status⟩)

/-- The handler `getMeetingAttendees`. -/
def getMeetingAttendees (s : Store) (user : Option User) (id : String)
    (email : Option String) : Response :=
  match castObjectId id with
  | none => ⟨500, .error "Internal server error"⟩
  | some oid =>
    match findById s.meetings oid with
    | none => ⟨404, .error "Meeting not found"⟩
    | some meeting =>
      if some meeting.creator != requesterEmail user email then
        ⟨403, .error "Access denied"⟩
      else
        let attendanceRecords := s.attendance.filter (fun att => att.meetingId == meeting._id)
        ⟨200, .attendees (meeting.registrations.map (attendeeView attendanceRecords))⟩

/-! ## Creating and managing meetings -/

/-- The `topics` field of a create request: a comma-separated text or an array. -/
inductive Topics where
  | text (s : String)
  | list (l : List String)
  deriving DecidableEq, Repr

/-- The fields `createMeeting` reads from `req.body`. -/
structure CreateBody where
  title : Option String
  description : Option String
  date : Option String
  time : Option String
  type : Option String
  duration : Option String
  language : Option String
  topics : Option Topics
  expert : Option String
  joinUrl : Option String
  maxAttendees : Option Int
  creator : Option String
  deriving DecidableEq, Repr

/-- The call `text.split(',')` on the characters of `text`. -/
def splitComma : List Char → List (List Char)
  | [] => [[]]
  | c :: cs =>
    if c = ',' then [] :: splitComma cs
    else
      match splitComma cs with
      | [] => [[c]]
      | p :: ps => (c :: p) :: ps

/-- The value `parsedTopics || []`. -/
def parseTopics : Option Topics → List String
  | none => []
  | some (.list l) => l
  | some (.text s) =>
    (((splitComma s.data).map (fun cs => jsTrim ⟨cs⟩)).filter (fun topic => topic != ""))

/-- The pieces joined by commas: `pieces.join(',')` on lists of characters. -/
def joinPieces : List (List Char) → List Char
  | [] => []
  | [p] => p
  | p :: q :: ps => p ++ ',' :: joinPieces (q :: ps)

/-- The call `topics.join(',')`. -/
def joinComma (topics : List String) : String :=
  ⟨joinPieces (topics.map (fun topic => topic.data))⟩

/-- The creator derived by `createMeeting`:
`req.user?.email || req.user?.id || req.body.creator`. -/
def creatorOf (user : Option User) (bodyCreator : Option String) : Option String :=
  jsOr (jsOr (user.bind (fun u => u.email)) (user.bind (fun u => u.id))) bodyCreator

/-- The document `new Meeting(meetingData)`: the values `createMeeting` puts in
`meetingData` after the setters of the schema (`trim` on the topics; the other
trimmed paths are trimmed by the handler), the schema defaults for the other paths,
and `newId` as `_id`. -/
def newMeeting (body : CreateBody) (creator newId : String) (now : Int) : Meeting where
  _id := newId
  title := jsTrim (body.title.getD "")
  description := (body.description.map jsTrim).getD ""
  type := body.type.getD "qna"
  date := body.date.getD ""
  time := body.time.getD ""
  duration := body.duration.getD "1h"
  language := body.language.getD "English"
  topics := (parseTopics body.topics).map jsTrim
  expert := jsTrim (body.expert.getD "")
  joinUrl := (body.joinUrl.map jsTrim).getD ""
  recordingUrl := none
  maxAttendees := ((body.maxAttendees.getD 100 : Int) : ℚ)
  registrations := []
  creator := creator
  status := "scheduled"
  isPublic := true
  createdAt := now
  updatedAt := now

/-- The handler `createMeeting`; `newId` is the `_id` given to the new document.
A `ValidationError` thrown by `meeting.save()` is answered by the handler's
`catch` with 400 'Validation error' (the `details` array is left out). -/
def createMeeting (s : Store) (user : Option User) (body : CreateBody) (newId : String)
    (now : Int) : Store × Response :=
  if !truthy body.title || !truthy body.date || !truthy body.time || !truthy body.expert then
    (s, ⟨400, .error "Missing required fields: title, date, time, expert"⟩)
  else
    match creatorOf user body.creator with
    | none => (s, ⟨400, .error "User not authenticated"⟩)
    | some creator =>
      if creator == "" then (s, ⟨400, .error "User not authenticated"⟩)
      else if !validMeeting (newMeeting body creator newId now) then
        (s, ⟨400, .error "Validation error"⟩)
      else
        ({ s with meetings := s.meetings ++ [newMeeting body creator newId now] },
          ⟨201, .meeting "Meeting created successfully" (newMeeting body creator newId now)⟩)

/-- The schema paths an update request may name in `req.body`; `email` is read by
the creator check and is no schema path. -/
structure UpdateBody where
  email : Option String
  title : Option String
  description : Option String
  type : Option String
  date : Option String
  time : Option String
  duration : Option String
  language : Option String
  topics : Option (List String)
  expert : Option String
  joinUrl : Option String
  recordingUrl : Option String
  maxAttendees : Option ℚ
  registrations : Option (List Registration)
  creator : Option String
  status : Option String
  isPublic : Option Bool
  createdAt : Option Int
  updatedAt : Option Int
  deriving DecidableEq, Repr

/-- The update `{ ...req.body, updatedAt: new Date() }` that `findByIdAndUpdate`
applies to a document: the setters of the schema run on the values (`trim` on
title, description, topics, expert, joinUrl and recordingUrl), embedded
registrations are cast, and `createdAt`, which the `timestamps` option manages, is
taken out of the update. -/
def applyUpdate (m : Meeting) (b : UpdateBody) (now : Int) : Meeting :=
  { _id := m._id
    title := (b.title.map jsTrim).getD m.title
    description := (b.description.map jsTrim).getD m.description
    type := b.type.getD m.type
    date := b.date.getD m.date
    time := b.time.getD m.time
    duration := b.duration.getD m.duration
    language := b.language.getD m.language
    topics := (b.topics.map (fun topics => topics.map jsTrim)).getD m.topics
    expert := (b.expert.map jsTrim).getD m.expert
    joinUrl := (b.joinUrl.map jsTrim).getD m.joinUrl
    recordingUrl := match b.recordingUrl with
      | some u => some (jsTrim u)
      | none => m.recordingUrl
    maxAttendees := b.maxAttendees.getD m.maxAttendees
    registrations :=
      (b.registrations.map (fun registrations => registrations.map castRegistration)).getD
        m.registrations
    creator := b.creator.getD m.creator
    status := b.status.getD m.status
    isPublic := b.isPublic.getD m.isPublic
    createdAt := m.createdAt
    updatedAt := now }

/-- The update validators (`runValidators: true`): the validators of the schema on
the paths the update sets, on the values the setters gave. -/
def validPatch (b : UpdateBody) : Bool :=
  b.title.all (fun v => jsTrim v != "" && decide (jsLength (jsTrim v) ≤ 200)) &&
  b.description.all (fun v => decide (jsLength (jsTrim v) ≤ 1000)) &&
  b.type.all (fun v => v == "webinar" || v == "qna" || v == "workshop" || v == "other") &&
  b.date.all (fun v => v != "") && b.time.all (fun v => v != "") &&
  b.language.all (fun v => v != "") && b.expert.all (fun v => jsTrim v != "") &&
  b.maxAttendees.all (fun v => decide (1 ≤ v)) &&
  b.registrations.all (fun registrations => registrations.all validRegistration) &&
  b.creator.all (fun v => v != "") &&
  b.status.all (fun v =>
    v == "scheduled" || v == "live" || v == "completed" || v == "cancelled")

/-- The handler `updateMeeting`. `Meeting.findById` casts `req.params.id`; an
update that fails its validators changes nothing and throws to the `catch`, which
answers 500, as it does for a failed cast. -/
def updateMeeting (s : Store) (user : Option User) (id : String) (body : UpdateBody)
    (now : Int) : Store × Response :=
  match castObjectId id with
  | none => (s, ⟨500, .error "Internal server error"⟩)
  | some oid =>
    match findById s.meetings oid with
    | none => (s, ⟨404, .error "Meeting not found"⟩)
    | some meeting =>
      if some meeting.creator != requesterEmail user body.email then
        (s, ⟨403, .error "Access denied"⟩)
      else if !validPatch body then
        (s, ⟨500, .error "Internal server error"⟩)
      else
        let updatedMeeting := applyUpdate meeting body now
        ({ s with meetings := replaceMeeting s.meetings updatedMeeting },
          ⟨200, .meeting "Meeting updated successfully" updatedMeeting⟩)

/-- The handler `deleteMeeting`. -/
def deleteMeeting (s : Store) (user : Option User) (id : String) (email : Option String) :
    Store × Response :=
  match castObjectId id with
  | none => (s, ⟨500, .error "Internal server error"⟩)
  | some oid =>
    match findById s.meetings oid with
    | none => (s, ⟨404, .error "Meeting not found"⟩)
    | some meeting =>
      if some meeting.creator != requesterEmail user email then
        (s, ⟨403, .error "Access denied"⟩)
      else
        ({ meetings := deleteById s.meetings oid
           attendance := deleteAttendanceOf s.attendance meeting._id },
          ⟨200, .message "Meeting deleted successfully"⟩)

/-- The assignment `meeting.status = 'live'`. -/
def setLive (meeting : Meeting) : Meeting :=
  { meeting with status := "live" }

/-- The handler `goLiveMeeting`; `meeting.save()` validates the document as in
`registerForMeeting`. -/
def goLiveMeeting (s : Store) (user : Option User) (id : String) (email : Option String)
    (now : Int) : Store × Response :=
  match castObjectId id with
  | none => (s, ⟨500, .error "Internal server error"⟩)
  | some oid =>
    match findById s.meetings oid with
    | none => (s, ⟨404, .error "Meeting not found"⟩)
    | some meeting =>
      if some meeting.creator != requesterEmail user email then
        (s, ⟨403, .error "Access denied"⟩)
      else if !validDocument (setLive meeting) then
        (s, ⟨500, .error "Internal server error"⟩)
      else
        ({ s with meetings := saveMeeting s.meetings (setLive meeting) now },
          ⟨200, .message "Meeting is now live!"⟩)

/-! ## The router (`routes/meetings.js`) -/

/-- The middleware `requireAuth`: without a user the handler is not run. -/
def requireAuth (user : Option User) (s : Store) (next : Store × Response) : Store × Response :=
  match user with
  | none => (s, ⟨401, .error "Authentication required"⟩)
  | some _ => next

/-- The state-changing requests the router accepts. -/
inductive Request where
  | create (user : Option User) (body : CreateBody) (newId : String)
  | update (user : Option User) (id : String) (body : UpdateBody)
  | delete (user : Option User) (id : String) (email : Option String)
  | register (user : Option User) (id : String) (body : RegisterBody)
  | join (user : Option User) (id : String) (body : JoinBody)
  | leave (user : Option User) (id : String) (email : Option String)
  | goLive (user : Option User) (id : String) (email : Option String)
  deriving DecidableEq, Repr

/-- One request served at instant `now`. -/
def handle (lib : DateLib) (s : Store) (now : Int) : Request → Store × Response
  | .create user body newId => requireAuth user s (createMeeting s user body newId now)
  | .update user id body => requireAuth user s (updateMeeting s user id body now)
  | .delete user id email => requireAuth user s (deleteMeeting s user id email)
  | .register user id body => requireAuth user s (registerForMeeting s user id body now)
  | .join user id body => requireAuth user s (joinMeeting lib s user id body now)
  | .leave user id email => requireAuth user s (leaveMeeting s user id email now)
  | .goLive user id email => requireAuth user s (goLiveMeeting s user id email now)

/-- The store after a sequence of requests, each served at its own instant. -/
def run (lib : DateLib) (s : Store) : List (Int × Request) → Store
  | [] => s
  | (now, r) :: rest => run lib (handle lib s now r).1 rest

/-! ## Sample data -/

/-- A date library for the samples: it knows one start, 2024-05-01 10:00 UTC, and
the UTC day 2024-05-01. -/
def sampleLib : DateLib where
  parse := fun text => if text == "2024-05-01T10:00" then some 1714557600000 else none
  isoDate := fun t =>
    if 1714521600000 ≤ t ∧ t < 1714608000000 then "2024-05-01" else "another day"

/-- The `_id` of the sample meeting. -/
def sampleId : String := "665f00000000000000000001"

/-- The `_id` of the second meeting. -/
def otherId : String := "665f00000000000000000002"

/-- The `_id` of the past meeting. -/
def pastId : String := "665f00000000000000000000"

/-- The `_id` of the later meeting. -/
def laterId : String := "665f00000000000000000003"

/-- The `_id` of the early meeting. -/
def earlyId : String := "665f00000000000000000004"

/-- An `_id` for a new meeting. -/
def freshId : String := "665f00000000000000000009"

/-- The `_id` of the user Bob. -/
def bobId : String := "664e0000000000000000000b"

/-- The `_id` of the user Alice. -/
def aliceId : String := "664e0000000000000000000a"

/-- The `_id` of the user Carol. -/
def carolId : String := "664e0000000000000000000c"

/-- The `_id` of a guest account. -/
def guestId : String := "664e000000000000000000f0"

/-- The `_id` and the email of the user Eve: a string of 24 hexadecimal digits. -/
def eveId : String := "664e0000000000000000000e"

/-- A scheduled public meeting on 2024-05-01 at 10:00 with two seats, created by Alice. -/
def sampleMeeting : Meeting where
  _id := sampleId
  title := "Tax planning"
  description := ""
  type := "qna"
  date := "2024-05-01"
  time := "10:00"
  duration := "1h"
  language := "English"
  topics := []
  expert := "Dr. Rao"
  joinUrl := "https://meet.example/m1"
  recordingUrl := none
  maxAttendees := 2
  registrations := []
  creator := "alice@example.com"
  status := "scheduled"
  isPublic := true
  createdAt := 0
  updatedAt := 0

/-- The number 1.5. -/
def oneAndHalf : ℚ := ⟨3, 2, by decide, by decide⟩

/-- A store holding the sample meeting and no attendance. -/
def sampleStore : Store := ⟨[sampleMeeting], []⟩

/-- An authenticated user with an email. -/
def bob : User := ⟨bobId, some "bob@example.com", some bobId⟩

/-- A registration request for the given email. -/
def registerBody (email : String) : RegisterBody where
  name := some "Bob"
  email := some email
  phone := some "555-0100"
  organization := none
  experience := none
  questions := none
  sessionId := none
  userId := none

/-- A stored registration for the given name and email, made by a guest account. -/
def sampleRegistration (name email : String) : Registration where
  userId := guestId
  name := name
  email := email
  phone := "555-0101"
  organization := ""
  experience := "beginner"
  questions := ""
  registrationDate := 3

/-- The sample meeting with the given registrations. -/
def sampleMeetingWith (registrations : List Registration) : Meeting :=
  { sampleMeeting with registrations := registrations }

/-- An authenticated user whose email is a string of 24 hexadecimal digits, which
can be cast to an `ObjectId`. -/
def eve : User := ⟨eveId, some eveId, some eveId⟩

/-- The registration request of Eve, under her email. -/
def eveBody : RegisterBody :=
  { registerBody eveId with name := some "Eve" }

/-- The creator of the sample meeting. -/
def alice : User := ⟨aliceId, some "alice@example.com", some aliceId⟩

/-- An authenticated user without an email, known by an id only. -/
def carol : User := ⟨carolId, none, some carolId⟩

/-- A second meeting, created by Dan. -/
def otherMeeting : Meeting :=
  { sampleMeeting with _id := otherId, title := "Budgeting", creator := "dan@example.com" }

/-- An attendance row of a user who joined a meeting and has not left. -/
def sampleAttendance (userId meetingId : String) : Attendance where
  userId := userId
  meetingId := meetingId
  joinTime := 1714557660000
  leaveTime := none
  duration := 0
  status := "joined"
  ipAddress := none
  userAgent := none

/-- A store with two meetings and one attendance row for each. -/
def busyStore : Store :=
  ⟨[sampleMeeting, otherMeeting],
    [sampleAttendance eveId sampleId, sampleAttendance eveId otherId]⟩

/-- An update request that names no field. -/
def emptyUpdate : UpdateBody where
  email := none
  title := none
  description := none
  type := none
  date := none
  time := none
  duration := none
  language := none
  topics := none
  expert := none
  joinUrl := none
  recordingUrl := none
  maxAttendees := none
  registrations := none
  creator := none
  status := none
  isPublic := none
  createdAt := none
  updatedAt := none

/-- A create request with the four required fields. -/
def createBody : CreateBody where
  title := some "Retirement basics"
  description := none
  date := some "2024-05-01"
  time := some "10:00"
  type := none
  duration := none
  language := none
  topics := none
  expert := some "Dr. Rao"
  joinUrl := none
  maxAttendees := none
  creator := none

/-- A public scheduled meeting held on 2024-04-20, before the sample day. -/
def pastMeeting : Meeting :=
  { sampleMeeting with _id := pastId, title := "Saving habits", date := "2024-04-20",
                       time := "18:00" }

/-- A public scheduled meeting in Hindi on 2024-05-03, after the sample day. -/
def laterMeeting : Meeting :=
  { sampleMeeting with _id := laterId, title := "Mutual funds", date := "2024-05-03",
                       time := "09:00", language := "Hindi" }

/-- A store with a later, a past and the sample meeting, in this order. -/
def listStore : Store := ⟨[laterMeeting, pastMeeting, sampleMeeting], []⟩

/-- A list request without parameters. -/
def noQuery : ListQuery := ⟨none, none, none, none⟩

/-- The invariant of the data model: no meeting holds more registrations than
`maxAttendees`. -/
def WithinCapacity (ms : List Meeting) : Prop :=
  ∀ m ∈ ms, (m.registrations.length : ℚ) ≤ m.maxAttendees

/-- Whether a request is an update whose body names `maxAttendees` or
`registrations`. -/
def namesCapacity : Request → Bool
  | .update _ _ body => body.maxAttendees.isSome || body.registrations.isSome
  | _ => false

/-- Whether a request is an update whose body names `status`. -/
def namesStatus : Request → Bool
  | .update _ _ body => body.status.isSome
  | _ => false

/-- A date library for the sample day that also knows the start 09:30 UTC, written
with a one-digit hour: the pattern of `dayjs` takes one or two digits for the hour. -/
def looseLib : DateLib where
  parse := fun text =>
    if text == "2024-05-01T9:30" then some 1714555800000 else sampleLib.parse text
  isoDate := sampleLib.isoDate

/-- A public scheduled meeting on the sample day whose time is written 9:30. -/
def earlyMeeting : Meeting :=
  { sampleMeeting with _id := earlyId, title := "Morning questions", time := "9:30" }


end MeetingService

/-!
# Voice navigation

A shallow embedding of three pure functions of `server/routes/voiceNavigation.js`:
`sanitizeCommand`, `parseGeminiResponse` and `validateLLMResponse`. JavaScript
numbers are rationals; `JSON.parse` comes from outside the repository and is a
parameter.
-/

namespace VoiceNavigation

open MeetingService (isJsSpace jsTrim truthy)

/-! ## Sanitizing a command -/

/-- The replacement `.replace(/\s+/g, ' ')` on a list of characters: every maximal
run of white space becomes one space. The flag tells whether the character before
was white space. -/
def collapseFrom : Bool → List Char → List Char
  | _, [] => []
  | inRun, c :: cs =>
    if isJsSpace c then
      if inRun then collapseFrom true cs else ' ' :: collapseFrom true cs
    else c :: collapseFrom false cs

/-- The class `\w`: the ASCII letters and digits and the underscore. -/
def isWordChar (c : Char) : Bool :=
  c.isAlphanum || c == '_'

/-- The characters that `.replace(/[^\w\s\-.,!?]/g, '')` keeps. -/
def isKept (c : Char) : Bool :=
  isWordChar c || isJsSpace c || c == '-' || c == '.' || c == ',' || c == '!' || c == '?'

/-- The function `sanitizeCommand`: `trim`, then the two replacements, then
`toLowerCase`, which meets ASCII letters only after the second replacement. -/
def sanitizeCommand (command : String) : String :=
  ⟨(((collapseFrom false (jsTrim command).data).filter isKept).map Char.toLower)⟩

/-! ## The answer of the language model -/

/-- The fields of `action` the two functions read: `type` and `confidence`, each
possibly absent. -/
structure Action where
  type : Option String
  confidence : Option ℚ
  deriving DecidableEq, Repr

/-- The fields of a response object the two functions read; an absent or falsy
`action` is `none`. -/
structure LlmResponse where
  action : Option Action
  response : Option String
  conversationMode : Option Bool
  deriving DecidableEq, Repr

/-- The list `validActionTypes`. -/
def validActionTypes : List String :=
  ["navigate", "greeting", "help", "error", "clarification", "open_chat", "schedule_meeting",
    "open_calculator", "open_expenses", "get_advice"]

/-- Truthiness of a number-or-undefined value: `undefined` and `0` are falsy. -/
def truthyNumber : Option ℚ → Bool
  | some c => c != 0
  | none => false

/-- The object `parseGeminiResponse` returns from its `catch`. -/
def parseError : LlmResponse where
  action := some ⟨some "error", some 0⟩
  response := some "I\x27m sorry, I couldn\x27t understand that command. Could you please try again?"
  conversationMode := some false

/-- The function `parseGeminiResponse`; `jsonOf text` is
`JSON.parse(text.match(/\{[\s\S]*\}/)[0])`, `none` when there is no match or the
parse throws. -/
def parseGeminiResponse (jsonOf : String → Option LlmResponse) (text : String) : LlmResponse :=
  match jsonOf text with
  | none => parseError
  | some parsed =>
    match parsed.action with
    | none => parseError
    | some action =>
      if !truthy parsed.response then parseError
      else if !(action.type.any (fun t => validActionTypes.contains t)) then parseError
      else if !truthyNumber action.confidence then
        { parsed with action := some { action with confidence := some 0.8 } }
      else parsed

/-- The function `validateLLMResponse`; a comparison with an absent confidence is
false. -/
def validateLLMResponse (response : LlmResponse) : LlmResponse :=
  match response.action with
  | none =>
    ⟨some ⟨some "error", some 0⟩, some "I received an invalid response. Please try again.",
      some false⟩
  | some action =>
    if !truthy response.response then
      ⟨some ⟨some "error", some 0⟩, some "I received an invalid response. Please try again.",
        some false⟩
    else if action.confidence.any (fun c => decide (c < 0.3)) then
      { response with
        action := some { action with type := some "clarification" }
        response := some
          "I\x27m not quite sure what you mean. Could you please rephrase that?" }
    else response

/-- An answer of the language model that navigates with confidence 0. -/
def zeroConfidenceText : String :=
  "\x7b\"action\":\x7b\"type\":\"navigate\",\"confidence\":0\x7d," ++
    "\"response\":\"Opening the calculator\"\x7d"

/-- A reader of JSON for the samples: it knows one text, `zeroConfidenceText`. -/
def sampleJson (text : String) : Option LlmResponse :=
  if text == zeroConfidenceText then
    some ⟨some ⟨some "navigate", some 0⟩, some "Opening the calculator", none⟩
  else none

end VoiceNavigation

namespace MeetingService

/-! ## Store lemmas -/

theorem findById_id {ms : List Meeting} {id : String} {m : Meeting}
    (h : findById ms id = some m) : m._id = id := by
  have := List.find?_some h
  simpa using this

theorem findById_replaceMeeting {ms : List Meeting} {id : String} {m m1 : Meeting}
    (h : findById ms id = some m) (hid : m1._id = id) :
    findById (replaceMeeting ms m1) id = some m1 := by
  induction ms with
  | nil => simp [findById] at h
  | cons x xs ih =>
    unfold findById at h ih ⊢
    by_cases hx : x._id = id
    · simp [replaceMeeting, hx, hid]
    · have hx1 : ¬ x._id = m1._id := by rw [hid]; exact hx
      have hb : (x._id == id) = false := by simpa using hx
      rw [List.find?_cons, hb] at h
      simp [replaceMeeting, hx, hx1, List.find?_cons, ih h]

theorem findById_saveMeeting {ms : List Meeting} {id : String} {m m1 : Meeting} {now : Int}
    (h : findById ms id = some m) (hid : m1._id = id) :
    findById (saveMeeting ms m1 now) id = some (preSave m1 now) :=
  findById_replaceMeeting h hid

/-- Lower-casing a hexadecimal digit gives a hexadecimal digit, which lower-casing
leaves as it is. -/
theorem toLower_hexDigit (c : Char) (h : isHexDigit c = true) :
    isHexDigit c.toLower = true ∧ c.toLower.toLower = c.toLower := by
  by_cases hu : c.isUpper = true
  · have hb : 65 ≤ c.toNat ∧ c.toNat ≤ 90 := by
      simp only [Char.isUpper, Bool.and_eq_true, decide_eq_true_eq] at hu
      exact hu
    have hc : c = Char.ofNat c.toNat := (Char.ofNat_toNat c).symm
    obtain ⟨h1, h2⟩ := hb
    generalize c.toNat = n at hc h1 h2
    subst hc
    interval_cases n <;> first | decide | (exfalso; revert h; decide)
  · have hl : c.toLower = c := by
      simp only [Char.isUpper, Bool.and_eq_true, decide_eq_true_eq] at hu
      unfold Char.toLower
      rw [if_neg]
      intro h0
      exact hu h0
    rw [hl, hl]
    exact ⟨h, rfl⟩

/-- The cast of an `ObjectId` written in lower case is this `ObjectId`. -/
theorem castObjectId_idem {s oid : String} (h : castObjectId s = some oid) :
    castObjectId oid = some oid := by
  unfold castObjectId at h
  split at h
  · rename_i hs
    injection h with h
    subst h
    unfold castObjectId
    have hlen : (s.data.map Char.toLower).length = 24 := by rw [List.length_map]; exact hs.1
    have hall : (s.data.map Char.toLower).all isHexDigit = true := by
      rw [List.all_eq_true]
      intro c hc
      obtain ⟨d, hd, hdc⟩ := List.mem_map.1 hc
      rw [← hdc]
      exact (toLower_hexDigit d (List.all_eq_true.1 hs.2 d hd)).1
    have hmap : (s.data.map Char.toLower).map Char.toLower = s.data.map Char.toLower := by
      rw [List.map_map]
      apply List.map_congr_left
      intro d hd
      exact (toLower_hexDigit d (List.all_eq_true.1 hs.2 d hd)).2
    simp only [hlen, hall, and_self, if_true, hmap]
  · cases h

/-- What a successful registration did: all three fields were non-empty, the id was
cast, the meeting existed, was not full, held no registration with the request's
email, and passed the validation with the new registration appended, as which it
was saved. -/
theorem registerForMeeting_success {s : Store} {user : Option User} {id : String}
    {body : RegisterBody} {now : Int}
    (h : (registerForMeeting s user id body now).2.status = 200) :
    ∃ name email phone oid meeting,
      body.name = some name ∧ body.email = some email ∧ body.phone = some phone ∧
      name ≠ "" ∧ email ≠ "" ∧ phone ≠ "" ∧
      castObjectId id = some oid ∧
      findById s.meetings oid = some meeting ∧ meeting.isFull = false ∧
      meeting.registrations.find? (fun reg => reg.email == email) = none ∧
      validDocument (pushRegistration meeting
        (castRegistration (mkRegistration user body name email phone now))) = true ∧
      registerForMeeting s user id body now =
        ({ s with
            meetings := saveMeeting s.meetings
              (pushRegistration meeting
                (castRegistration (mkRegistration user body name email phone now))) now },
          ⟨200, .registered "Registration successful"
            (mkRegistration user body name email phone now)⟩) := by
  unfold registerForMeeting at h ⊢
  split at h
  · rename_i name email phone hn he hp
    split at h
    · simp at h
    · rename_i hne
      split at h
      · simp at h
      · rename_i oid hid
        split at h
        · simp at h
        · rename_i meeting hm
          split at h
          · simp at h
          · rename_i hfull
            split at h
            · simp at h
            · rename_i hdup
              dsimp only at h
              split at h
              · simp at h
              · rename_i hvalid
                simp only [Bool.or_eq_true, beq_iff_eq, not_or] at hne
                have hvalid1 : validDocument (pushRegistration meeting
                    (castRegistration (mkRegistration user body name email phone now)))
                    = true := by
                  simpa using hvalid
                refine ⟨name, email, phone, oid, meeting, hn, he, hp, hne.1.1, hne.1.2, hne.2,
                  hid, hm, ?_, hdup, hvalid1, ?_⟩
                · simpa using hfull
                · simp [hn, he, hp, hne.1.1, hne.1.2, hne.2, hid, hm, hfull, hdup, hvalid1]
  · simp at h

/-- A request with the three fields, on a stored meeting that is not full, holds no
registration with the request's email and passes the validation with the new
registration, is accepted. -/
theorem registerForMeeting_accepts {s : Store} {user : Option User} {id oid : String}
    {body : RegisterBody} {now : Int} {m : Meeting} {name email phone : String}
    (hid : castObjectId id = some oid)
    (hm : findById s.meetings oid = some m)
    (hn : body.name = some name) (he : body.email = some email) (hp : body.phone = some phone)
    (hname : name ≠ "") (hemail : email ≠ "") (hphone : phone ≠ "")
    (hfull : m.isFull = false)
    (hdup : m.registrations.find? (fun reg => reg.email == email) = none)
    (hvalid : validDocument (pushRegistration m
      (castRegistration (mkRegistration user body name email phone now))) = true) :
    registerForMeeting s user id body now =
      ({ s with
          meetings := saveMeeting s.meetings
            (pushRegistration m
              (castRegistration (mkRegistration user body name email phone now))) now },
        ⟨200, .registered "Registration successful"
          (mkRegistration user body name email phone now)⟩) := by
  unfold registerForMeeting
  simp [hn, he, hp, hname, hemail, hphone, hid, hm, hfull, hdup, hvalid]

/-- A valid registration stays valid when its `userId` is cast. -/
theorem validRegistration_cast {r : Registration} (h : validRegistration r = true) :
    validRegistration (castRegistration r) = true := by
  unfold validRegistration at h ⊢
  simp only [Bool.and_eq_true] at h ⊢
  obtain ⟨⟨⟨⟨huser, hname⟩, hemail⟩, hphone⟩, hexp⟩ := h
  obtain ⟨oid, hoid⟩ := Option.isSome_iff_exists.1 huser
  refine ⟨⟨⟨⟨?_, hname⟩, hemail⟩, hphone⟩, hexp⟩
  show (castObjectId ((castObjectId r.userId).getD r.userId)).isSome = true
  rw [hoid, Option.getD_some, castObjectId_idem hoid]
  rfl

/-- A valid document with a valid registration pushed on it is valid. -/
theorem validDocument_push {m : Meeting} {r : Registration} (hm : validDocument m = true)
    (hr : validRegistration r = true) :
    validDocument (pushRegistration m (castRegistration r)) = true := by
  unfold validDocument at hm ⊢
  simp only [Bool.and_eq_true] at hm ⊢
  refine ⟨hm.1, ?_⟩
  show (m.registrations ++ [castRegistration r]).all validRegistration = true
  rw [List.all_append, hm.2]
  simp [validRegistration_cast hr]

/-- The validation of a document with a registration pushed on it, in parts. -/
theorem validDocument_push_iff {m : Meeting} {r : Registration} :
    validDocument (pushRegistration m r) = true ↔
      validDocument m = true ∧ validRegistration r = true := by
  unfold validDocument
  have h1 : validMeeting (pushRegistration m r) = validMeeting m := rfl
  have h2 : (pushRegistration m r).registrations = m.registrations ++ [r] := rfl
  rw [h1, h2, List.all_append]
  simp only [Bool.and_eq_true, List.all_cons, List.all_nil, Bool.and_true]
  tauto

/-! ## Registration and capacity -/

/-- C1 (counterexample): `maxAttendees` is a number, not an integer. The creator
sets it to 1.5 on a meeting with one registration, which satisfies
`registrations.length ≤ maxAttendees`; the meeting is not full (1 < 1.5), the next
registration succeeds, and the stored meeting then has two registrations, more
than 1.5. -/
theorem register_exceeds_fractional_capacity :
    (updateMeeting ⟨[sampleMeetingWith [sampleRegistration "Ann" "ann@example.com"]], []⟩
      (some alice) sampleId { emptyUpdate with maxAttendees := some oneAndHalf } 5).2.status
      = 200 ∧
    (findById (updateMeeting
        ⟨[sampleMeetingWith [sampleRegistration "Ann" "ann@example.com"]], []⟩
        (some alice) sampleId { emptyUpdate with maxAttendees := some oneAndHalf } 5).1.meetings
      sampleId).map (fun m => (m.registrations.length, m.maxAttendees))
      = some (1, oneAndHalf) ∧
    ((1 : Nat) : ℚ) ≤ oneAndHalf ∧
    (registerForMeeting
      (updateMeeting ⟨[sampleMeetingWith [sampleRegistration "Ann" "ann@example.com"]], []⟩
        (some alice) sampleId { emptyUpdate with maxAttendees := some oneAndHalf } 5).1
      (some bob) sampleId (registerBody "bob@example.com") 7).2.status = 200 ∧
    (findById (registerForMeeting
      (updateMeeting ⟨[sampleMeetingWith [sampleRegistration "Ann" "ann@example.com"]], []⟩
        (some alice) sampleId { emptyUpdate with maxAttendees := some oneAndHalf } 5).1
      (some bob) sampleId (registerBody "bob@example.com") 7).1.meetings sampleId).map
        (fun m => (m.registrations.length, m.maxAttendees))
      = some (2, oneAndHalf) ∧
    ¬ (((2 : Nat) : ℚ) ≤ oneAndHalf) := by
  decide

/-- C1 (amended): for a stored meeting whose `maxAttendees` is an integer, whenever
`registerForMeeting` succeeds, the stored meeting afterwards satisfies
`registrations.length ≤ maxAttendees`; this holds in particular for a meeting that
satisfied the bound before the call. -/
theorem register_preserves_capacity (s : Store) (user : Option User) (id oid : String)
    (body : RegisterBody) (now : Int) (m : Meeting) (k : Int)
    (hid : castObjectId id = some oid) (hm : findById s.meetings oid = some m)
    (hint : m.maxAttendees = (k : ℚ))
    (hok : (registerForMeeting s user id body now).2.status = 200) :
    ∃ m1, findById (registerForMeeting s user id body now).1.meetings oid = some m1 ∧
      m1.maxAttendees = m.maxAttendees ∧
      m1.registrations.length = m.registrations.length + 1 ∧
      (m1.registrations.length : ℚ) ≤ m1.maxAttendees := by
  obtain ⟨name, email, phone, oid1, meeting, -, -, -, -, -, -, hid1, hfind, hfull, -, -, heq⟩ :=
    registerForMeeting_success hok
  have hoid : oid1 = oid := by
    rw [hid] at hid1
    exact (Option.some.inj hid1).symm
  subst hoid
  have hmeeting : meeting = m := by
    rw [hm] at hfind
    exact (Option.some.inj hfind).symm
  subst hmeeting
  rw [heq]
  have hid0 : meeting._id = oid1 := findById_id hm
  have hid2 : (pushRegistration meeting
      (castRegistration (mkRegistration user body name email phone now)))._id = oid1 := hid0
  refine ⟨_, findById_saveMeeting hm hid2, rfl, ?_, ?_⟩
  · simp [pushRegistration, preSave]
  · simp only [Meeting.isFull, Meeting.registrationCount, decide_eq_false_iff_not, not_le] at hfull
    simp only [pushRegistration, preSave, List.length_append, List.length_singleton,
      Nat.cast_add, Nat.cast_one]
    rw [hint] at hfull ⊢
    have hlt : ((meeting.registrations.length : Int) : ℚ) < (k : ℚ) := by
      simpa using hfull
    have hlt1 : (meeting.registrations.length : Int) < k := by exact_mod_cast hlt
    have hle : (meeting.registrations.length : Int) + 1 ≤ k := by omega
    exact_mod_cast hle

/-- The sample registration succeeds and keeps the sample meeting, which has two
seats, within capacity. -/
theorem register_preserves_capacity_witness :
    (registerForMeeting sampleStore (some bob) sampleId (registerBody "bob@example.com")
      7).2.status = 200 ∧
    sampleMeeting.maxAttendees = ((2 : Int) : ℚ) ∧
    ∃ m1, findById (registerForMeeting sampleStore (some bob) sampleId
        (registerBody "bob@example.com") 7).1.meetings sampleId = some m1 ∧
      m1.maxAttendees = sampleMeeting.maxAttendees ∧
      m1.registrations.length = sampleMeeting.registrations.length + 1 ∧
      (m1.registrations.length : ℚ) ≤ m1.maxAttendees :=
  ⟨by decide, by decide,
    register_preserves_capacity sampleStore (some bob) sampleId sampleId
      (registerBody "bob@example.com") 7 sampleMeeting 2 (by decide) (by decide) (by decide)
      (by decide)⟩

/-- C2 (counterexample): a registrant whose name is one blank has a non-empty name,
email and phone and an email not yet registered, and the meeting has
`maxAttendees - 1` registrations; the handler stores the trimmed, empty name, the
validation of `meeting.save()` fails (`name` is required), the answer is 500 and
the store is unchanged. -/
theorem register_blank_name_counterexample :
    (sampleMeetingWith [sampleRegistration "Ann" "ann@example.com"]).maxAttendees - 1
      = ((sampleMeetingWith
          [sampleRegistration "Ann" "ann@example.com"]).registrations.length : ℚ) ∧
    registerForMeeting ⟨[sampleMeetingWith [sampleRegistration "Ann" "ann@example.com"]], []⟩
        (some bob) sampleId { registerBody "bob@example.com" with name := some " " } 7
      = (⟨[sampleMeetingWith [sampleRegistration "Ann" "ann@example.com"]], []⟩,
          ⟨500, .error "Internal server error"⟩) :=
  ⟨by norm_num [sampleMeetingWith, sampleMeeting], by decide⟩

/-- C2 (amended): capacity boundary of `registerForMeeting` on a stored meeting. For
a registrant with non-empty name, email and phone whose registration passes the
validators of the schema and whose email no stored registration carries: with
`registrations.length = maxAttendees - 1` the call succeeds and the stored meeting
then has `maxAttendees` registrations; with `registrations.length ≥ maxAttendees` it
answers 400 'Meeting is full' and the store is unchanged. -/
theorem register_capacity_boundary (s : Store) (user : Option User) (id oid : String)
    (body : RegisterBody) (now : Int) (m : Meeting) (name email phone : String)
    (hid : castObjectId id = some oid)
    (hm : findById s.meetings oid = some m)
    (hstored : validDocument m = true)
    (hname : body.name = some name) (hemail : body.email = some email)
    (hphone : body.phone = some phone)
    (hn : name ≠ "") (he : email ≠ "") (hp : phone ≠ "")
    (hvalid : validRegistration (mkRegistration user body name email phone now) = true)
    (hnew : ∀ reg ∈ m.registrations, reg.email ≠ email) :
    ((m.registrations.length : ℚ) = m.maxAttendees - 1 →
      (registerForMeeting s user id body now).2.status = 200 ∧
      ∃ m1, findById (registerForMeeting s user id body now).1.meetings oid = some m1 ∧
        (m1.registrations.length : ℚ) = m.maxAttendees ∧
        m1.maxAttendees = m.maxAttendees) ∧
    (m.maxAttendees ≤ (m.registrations.length : ℚ) →
      registerForMeeting s user id body now = (s, ⟨400, .error "Meeting is full"⟩)) := by
  have hnodup : m.registrations.find? (fun reg => reg.email == email) = none := by
    simpa using hnew
  constructor
  · intro hlen
    have hfull : m.isFull = false := by
      simp only [Meeting.isFull, Meeting.registrationCount, decide_eq_false_iff_not, not_le]
      linarith
    rw [registerForMeeting_accepts hid hm hname hemail hphone hn he hp hfull hnodup
      (validDocument_push hstored hvalid)]
    have hid0 : m._id = oid := findById_id hm
    have hid2 : (pushRegistration m
        (castRegistration (mkRegistration user body name email phone now)))._id = oid := hid0
    refine ⟨rfl, _, findById_saveMeeting hm hid2, ?_, rfl⟩
    simp only [pushRegistration, preSave, List.length_append, List.length_singleton,
      Nat.cast_add, Nat.cast_one]
    linarith
  · intro hlen
    have hfull : m.isFull = true := by
      simpa [Meeting.isFull, Meeting.registrationCount] using hlen
    simp [registerForMeeting, hname, hemail, hphone, hn, he, hp, hid, hm, hfull]

/-- The boundary at the sample meeting (two seats): with one seat taken Bob is
registered, with both taken he is refused and nothing changes. -/
theorem register_capacity_boundary_witness :
    (registerForMeeting ⟨[sampleMeetingWith [sampleRegistration "Ann" "ann@example.com"]], []⟩
        (some bob) sampleId (registerBody "bob@example.com") 7).2.status = 200 ∧
    registerForMeeting
        ⟨[sampleMeetingWith [sampleRegistration "Ann" "ann@example.com",
            sampleRegistration "Cy" "cy@example.com"]], []⟩
        (some bob) sampleId (registerBody "bob@example.com") 7
      = (⟨[sampleMeetingWith [sampleRegistration "Ann" "ann@example.com",
            sampleRegistration "Cy" "cy@example.com"]], []⟩, ⟨400, .error "Meeting is full"⟩) :=
  ⟨((register_capacity_boundary
        ⟨[sampleMeetingWith [sampleRegistration "Ann" "ann@example.com"]], []⟩
        (some bob) sampleId sampleId (registerBody "bob@example.com") 7
        (sampleMeetingWith [sampleRegistration "Ann" "ann@example.com"])
        "Bob" "bob@example.com" "555-0100" (by decide) (by decide) (by decide) rfl rfl rfl
        (by decide) (by decide) (by decide) (by decide) (by decide)).1
        (by norm_num [sampleMeetingWith, sampleMeeting])).1,
   (register_capacity_boundary
        ⟨[sampleMeetingWith [sampleRegistration "Ann" "ann@example.com",
            sampleRegistration "Cy" "cy@example.com"]], []⟩
        (some bob) sampleId sampleId (registerBody "bob@example.com") 7
        (sampleMeetingWith [sampleRegistration "Ann" "ann@example.com",
            sampleRegistration "Cy" "cy@example.com"])
        "Bob" "bob@example.com" "555-0100" (by decide) (by decide) (by decide) rfl rfl rfl
        (by decide) (by decide) (by decide) (by decide) (by decide)).2
        (by norm_num [sampleMeetingWith, sampleMeeting])⟩

/-- A registration request whose email some stored registration already carries is
refused with status 400 and changes nothing; with non-empty name and phone the
error is the capacity error when the meeting is full and the duplicate error
otherwise. -/
theorem registerForMeeting_known_email {s : Store} {user : Option User} {id oid : String}
    {body : RegisterBody} {now : Int} {m : Meeting} {e : String}
    (hid : castObjectId id = some oid)
    (hm : findById s.meetings oid = some m) (he : body.email = some e) (hne : e ≠ "")
    (hreg : ∃ reg ∈ m.registrations, reg.email = e) :
    (registerForMeeting s user id body now).1 = s ∧
    (registerForMeeting s user id body now).2.status = 400 ∧
    (truthy body.name = true → truthy body.phone = true →
      (registerForMeeting s user id body now).2.body =
        if m.isFull then .error "Meeting is full"
        else .error "You are already registered for this meeting") := by
  obtain ⟨reg, hmem, hregE⟩ := hreg
  have hfound : (m.registrations.find? (fun r => r.email == e)).isSome = true := by
    rw [List.find?_isSome]
    exact ⟨reg, hmem, by simpa using hregE⟩
  obtain ⟨r0, hr0⟩ := Option.isSome_iff_exists.mp hfound
  cases hn : body.name with
  | none => simp [registerForMeeting, hn, truthy]
  | some name =>
    cases hp : body.phone with
    | none => simp [registerForMeeting, hn, he, hp, truthy]
    | some phone =>
      by_cases hempty : (name == "" || e == "" || phone == "") = true
      · have hcase : name = "" ∨ phone = "" := by
          simp only [Bool.or_eq_true, beq_iff_eq] at hempty
          rcases hempty with (h | h) | h
          · exact Or.inl h
          · exact absurd h hne
          · exact Or.inr h
        unfold registerForMeeting
        simp only [hn, he, hp, hempty, if_true, truthy]
        refine ⟨trivial, trivial, ?_⟩
        intro h1 h2
        rcases hcase with h | h
        · simp [h] at h1
        · simp [h] at h2
      · have hempty1 : (name == "" || e == "" || phone == "") = false := by
          simpa using hempty
        unfold registerForMeeting
        simp only [hn, he, hp, hempty1, hid, hm]
        by_cases hfull : m.isFull = true
        · simp [hfull]
        · have hfull1 : m.isFull = false := by simpa using hfull
          simp [hfull1, hr0]

/-- C3 (counterexample): the second of two registrations with the same email need
not answer the duplicate error. On a meeting with one free seat the first
registration fills it and the second answers 'Meeting is full'; with an email
that starts with a blank the stored email is the trimmed one, the raw email is
not found again, and the second call registers a second time. -/
theorem register_twice_counterexample :
    (sampleMeetingWith [sampleRegistration "Ann" "ann@example.com"]).isFull = false ∧
    (registerForMeeting ⟨[sampleMeetingWith [sampleRegistration "Ann" "ann@example.com"]], []⟩
      (some bob) sampleId (registerBody "bob@example.com") 7).2.status = 200 ∧
    (registerForMeeting
      (registerForMeeting ⟨[sampleMeetingWith [sampleRegistration "Ann" "ann@example.com"]], []⟩
        (some bob) sampleId (registerBody "bob@example.com") 7).1
      (some bob) sampleId (registerBody "bob@example.com") 8).2
      = ⟨400, .error "Meeting is full"⟩ ∧
    sampleMeeting.isFull = false ∧
    (registerForMeeting sampleStore (some bob) sampleId (registerBody " bob@example.com") 7).2.status
      = 200 ∧
    (registerForMeeting
      (registerForMeeting sampleStore (some bob) sampleId (registerBody " bob@example.com") 7).1
      (some bob) sampleId (registerBody " bob@example.com") 8).2.status = 200 ∧
    ((findById (registerForMeeting
      (registerForMeeting sampleStore (some bob) sampleId (registerBody " bob@example.com") 7).1
      (some bob) sampleId (registerBody " bob@example.com") 8).1.meetings sampleId).map
        (fun m => m.registrations.map (fun reg => reg.email)))
      = some ["bob@example.com", "bob@example.com"] := by
  decide

/-- C3 (amended): let a registration with email `e` succeed on a meeting, `e`
having no white space at either end. A following registration on the same meeting
with the same email is refused with status 400 and adds nothing; with non-empty
name and phone its error is 'Meeting is full' when the first registration took
the last seat and 'You are already registered for this meeting' otherwise. -/
theorem register_twice_same_email (s : Store) (user1 user2 : Option User) (id oid : String)
    (body1 body2 : RegisterBody) (now1 now2 : Int) (m : Meeting) (e : String)
    (hid : castObjectId id = some oid)
    (hm : findById s.meetings oid = some m)
    (he1 : body1.email = some e) (he2 : body2.email = some e) (htrim : jsTrim e = e)
    (hok : (registerForMeeting s user1 id body1 now1).2.status = 200) :
    (registerForMeeting (registerForMeeting s user1 id body1 now1).1 user2 id body2 now2).1
      = (registerForMeeting s user1 id body1 now1).1 ∧
    (registerForMeeting (registerForMeeting s user1 id body1 now1).1 user2 id body2 now2).2.status
      = 400 ∧
    (truthy body2.name = true → truthy body2.phone = true →
      (registerForMeeting (registerForMeeting s user1 id body1 now1).1 user2 id body2 now2).2.body
        = if m.maxAttendees ≤ (m.registrations.length : ℚ) + 1 then .error "Meeting is full"
          else .error "You are already registered for this meeting") := by
  obtain ⟨name, email, phone, oid1, meeting, -, hemail, -, -, hne, -, hid1, hfind, -, -, -, heq⟩ :=
    registerForMeeting_success hok
  have hoid : oid1 = oid := by
    rw [hid] at hid1
    exact (Option.some.inj hid1).symm
  subst hoid
  have hmeeting : meeting = m := by
    rw [hm] at hfind
    exact (Option.some.inj hfind).symm
  have hemailE : email = e := by
    rw [he1] at hemail
    exact (Option.some.inj hemail).symm
  subst hmeeting hemailE
  have hid0 : meeting._id = oid1 := findById_id hm
  have hid2 : (pushRegistration meeting
      (castRegistration (mkRegistration user1 body1 name email phone now1)))._id = oid1 := hid0
  have hfind1 := @findById_saveMeeting _ _ _ _ now1 hm hid2
  rw [heq]
  have hmem : ∃ reg ∈ (preSave (pushRegistration meeting
      (castRegistration (mkRegistration user1 body1 name email phone now1))) now1).registrations,
        reg.email = email :=
    ⟨castRegistration (mkRegistration user1 body1 name email phone now1),
      by simp [pushRegistration, preSave],
      by simp [castRegistration, mkRegistration, htrim]⟩
  have key := @registerForMeeting_known_email
    ⟨saveMeeting s.meetings (pushRegistration meeting
      (castRegistration (mkRegistration user1 body1 name email phone now1))) now1, s.attendance⟩
    user2 id oid1 body2 now2 _ email hid hfind1 he2 hne hmem
  refine ⟨key.1, key.2.1, fun h1 h2 => ?_⟩
  rw [key.2.2 h1 h2]
  simp [Meeting.isFull, Meeting.registrationCount, pushRegistration, preSave]

/-- Bob registers twice on the sample meeting: the second call is refused with the
duplicate error and the store stays as the first call left it. -/
theorem register_twice_same_email_witness :
    (registerForMeeting sampleStore (some bob) sampleId (registerBody "bob@example.com") 7).2.status
      = 200 ∧
    (registerForMeeting
      (registerForMeeting sampleStore (some bob) sampleId (registerBody "bob@example.com") 7).1
      (some bob) sampleId (registerBody "bob@example.com") 8).1
      = (registerForMeeting sampleStore (some bob) sampleId (registerBody "bob@example.com") 7).1 ∧
    (registerForMeeting
      (registerForMeeting sampleStore (some bob) sampleId (registerBody "bob@example.com") 7).1
      (some bob) sampleId (registerBody "bob@example.com") 8).2.status = 400 ∧
    (registerForMeeting
      (registerForMeeting sampleStore (some bob) sampleId (registerBody "bob@example.com") 7).1
      (some bob) sampleId (registerBody "bob@example.com") 8).2.body
      = .error "You are already registered for this meeting" :=
  have h := register_twice_same_email sampleStore (some bob) (some bob) sampleId sampleId
    (registerBody "bob@example.com") (registerBody "bob@example.com") 7 8 sampleMeeting
    "bob@example.com" (by decide) (by decide) rfl rfl (by decide) (by decide)
  ⟨by decide, h.1, h.2.1,
    (h.2.2 (by decide) (by decide)).trans (if_neg (by norm_num [sampleMeeting]))⟩

/-! ## The live window -/

/-- The code's live test: the start is a valid date and `start < now < start + 2 h`. -/
theorem isLive_iff (lib : DateLib) (m : Meeting) (now : Int) :
    isLive lib m now = true ↔
      ∃ start, meetingStart lib m = some start ∧ start < now ∧ now < start + 2 * 3600000 := by
  unfold isLive meetingEnd
  cases h : meetingStart lib m with
  | none => simp [isAfter]
  | some start => simp [isAfter, isBefore]

/-- The test `joinMeeting` makes is the negation of the live test of `getLiveMeetings`. -/
theorem join_test_eq (lib : DateLib) (m : Meeting) (now : Int) :
    (!isAfter now (meetingStart lib m) || !isBefore now (meetingEnd lib m)) = !isLive lib m now := by
  simp [isLive]

/-- C4 (the code at the failing input): the live test is `start < now < start + 2 h`
for both handlers and never reads `duration`, so at the start instant itself the
meeting is not live: for the sample meeting, which starts at 1714557600000,
`getLiveMeetings` answers the empty object and `joinMeeting` answers 'Meeting is
not live yet or has ended' at that instant, and one millisecond later it is live. -/
theorem live_window_excludes_start :
    (∀ (lib : DateLib) (m : Meeting) (now : Int), isLive lib m now = true ↔
      ∃ start, meetingStart lib m = some start ∧ start < now ∧ now < start + 2 * 3600000) ∧
    (∀ (lib : DateLib) (m : Meeting) (d : String) (now : Int),
      isLive lib { m with duration := d } now = isLive lib m now) ∧
    meetingStart sampleLib sampleMeeting = some 1714557600000 ∧
    isLive sampleLib sampleMeeting 1714557600000 = false ∧
    isLive sampleLib sampleMeeting 1714557600001 = true ∧
    getLiveMeetings sampleLib sampleStore 1714557600000 = ⟨200, .empty⟩ ∧
    (joinMeeting sampleLib
      ⟨[sampleMeetingWith [sampleRegistration "Bob" "bob@example.com"]], []⟩
      (some bob) sampleId ⟨none, none, none⟩ 1714557600000).2
      = ⟨400, .error "Meeting is not live yet or has ended"⟩ := by
  refine ⟨isLive_iff, fun lib m d now => rfl, ?_, ?_, ?_, ?_, ?_⟩ <;> decide

/-- C5 (counterexample): a store holding one meeting dated today, status
scheduled, that started one hour before `now`, for which `getLiveMeetings` answers
the empty object: the meeting is not public. -/
theorem getLive_private_counterexample :
    ({ sampleMeeting with isPublic := false } : Meeting).date
      = sampleLib.isoDate 1714561200000 ∧
    ({ sampleMeeting with isPublic := false } : Meeting).status = "scheduled" ∧
    meetingStart sampleLib { sampleMeeting with isPublic := false }
      = some (1714561200000 - 3600000) ∧
    getLiveMeetings sampleLib ⟨[{ sampleMeeting with isPublic := false }], []⟩ 1714561200000
      = ⟨200, .empty⟩ := by
  decide

/-- C5 (amended): for a store holding a single public meeting dated today with
status scheduled, `getLiveMeetings` returns that meeting when it started one hour
before `now`, and the empty object when it started three hours before `now`. -/
theorem getLive_single_meeting (lib : DateLib) (m : Meeting) (attendance : List Attendance)
    (now : Int) (hdate : m.date = lib.isoDate now) (hstatus : m.status = "scheduled")
    (hpublic : m.isPublic = true) :
    (meetingStart lib m = some (now - 3600000) →
      getLiveMeetings lib ⟨[m], attendance⟩ now = ⟨200, .liveMeeting m m.registrationCount⟩) ∧
    (meetingStart lib m = some (now - 3 * 3600000) →
      getLiveMeetings lib ⟨[m], attendance⟩ now = ⟨200, .empty⟩) := by
  constructor
  · intro hstart
    have hlive : isLive lib m now = true :=
      (isLive_iff lib m now).2 ⟨_, hstart, by omega, by omega⟩
    simp [getLiveMeetings, hdate, hstatus, hpublic, sortByTime, insertByTime, hlive]
  · intro hstart
    have hlive : isLive lib m now = false := by
      rw [Bool.eq_false_iff]
      intro h
      obtain ⟨start, h1, -, h3⟩ := (isLive_iff lib m now).1 h
      rw [hstart] at h1
      have := Option.some.inj h1
      omega
    simp [getLiveMeetings, hdate, hstatus, hpublic, sortByTime, insertByTime, hlive]

/-- The sample meeting starts at 10:00: at 11:00 it is returned, at 13:00 it is not. -/
theorem getLive_single_meeting_witness :
    getLiveMeetings sampleLib ⟨[sampleMeeting], []⟩ 1714561200000
      = ⟨200, .liveMeeting sampleMeeting sampleMeeting.registrationCount⟩ ∧
    getLiveMeetings sampleLib ⟨[sampleMeeting], []⟩ 1714568400000 = ⟨200, .empty⟩ :=
  ⟨(getLive_single_meeting sampleLib sampleMeeting [] 1714561200000 (by decide) (by decide)
      (by decide)).1 (by decide),
   (getLive_single_meeting sampleLib sampleMeeting [] 1714568400000 (by decide) (by decide)
      (by decide)).2 (by decide)⟩

/-! ## Deleting a meeting -/

theorem deleteById_eq_filter {ms : List Meeting} (id : String) (h : UniqueIds ms) :
    deleteById ms id = ms.filter (fun m => m._id != id) := by
  induction ms with
  | nil => rfl
  | cons x xs ih =>
    unfold UniqueIds at h ih
    rw [List.map_cons, List.nodup_cons] at h
    by_cases hx : x._id = id
    · have hrest : xs.filter (fun m => m._id != id) = xs := by
        rw [List.filter_eq_self]
        intro y hy
        have : y._id ≠ x._id := fun hyx => h.1 (hyx ▸ List.mem_map_of_mem (fun m => m._id) hy)
        simpa [← hx] using this
      simp [deleteById, hx, hrest]
    · simp [deleteById, hx, ih h.2]

/-- What a successful delete did. -/
theorem deleteMeeting_success {s : Store} {user : Option User} {id : String}
    {email : Option String} (h : (deleteMeeting s user id email).2.status = 200) :
    ∃ oid m, castObjectId id = some oid ∧ findById s.meetings oid = some m ∧
      some m.creator = requesterEmail user email ∧
      deleteMeeting s user id email =
        (⟨deleteById s.meetings oid, deleteAttendanceOf s.attendance oid⟩,
          ⟨200, .message "Meeting deleted successfully"⟩) := by
  unfold deleteMeeting at h ⊢
  split at h
  · simp at h
  · rename_i oid hid
    split at h
    · simp at h
    · rename_i m hm
      split at h
      · simp at h
      · rename_i hcreator
        refine ⟨oid, m, hid, hm, by simpa using hcreator, ?_⟩
        simp [hm, hcreator, findById_id hm]

/-- C6: after a successful `deleteMeeting` on a store with unique meeting ids,
`id` is the text of an `ObjectId`, the meetings left are exactly the earlier ones
with another `_id` and the attendance rows left are exactly the earlier ones of
other meetings, each unchanged and in the same order; so the meeting is absent from
the store, no attendance row refers to it, and every other `_id` still finds the
meeting it found before. The requester was the creator. -/
theorem delete_cascades (s : Store) (user : Option User) (id : String)
    (email : Option String) (huniq : UniqueIds s.meetings)
    (hok : (deleteMeeting s user id email).2.status = 200) :
    ∃ oid, castObjectId id = some oid ∧
    (deleteMeeting s user id email).1.meetings = s.meetings.filter (fun m => m._id != oid) ∧
    (deleteMeeting s user id email).1.attendance
      = s.attendance.filter (fun a => a.meetingId != oid) ∧
    findById (deleteMeeting s user id email).1.meetings oid = none ∧
    (∀ a ∈ (deleteMeeting s user id email).1.attendance, a.meetingId ≠ oid) ∧
    (∀ other, other ≠ oid →
      findById (deleteMeeting s user id email).1.meetings other = findById s.meetings other) ∧
    (∃ m, findById s.meetings oid = some m ∧ some m.creator = requesterEmail user email) := by
  obtain ⟨id, m, hid, hm, hcreator, heq⟩ := deleteMeeting_success hok
  rw [heq]
  have hdel := deleteById_eq_filter id huniq
  refine ⟨id, hid, hdel, ?_, ?_, ?_, ?_, ⟨m, hm, hcreator⟩⟩
  · simp [deleteAttendanceOf, bne]
  · show findById (deleteById s.meetings id) id = none
    rw [hdel]
    simp [findById, List.find?_eq_none]
  · intro a ha
    simp [deleteAttendanceOf] at ha
    exact ha.2
  · intro other hother
    show findById (deleteById s.meetings id) other = findById s.meetings other
    rw [hdel]
    unfold findById
    induction s.meetings with
    | nil => rfl
    | cons x xs ih =>
      by_cases hx : x._id = id
      · have hxo : (x._id == other) = false := by
          rw [hx]
          simpa using Ne.symm hother
        have hxi : (x._id != id) = false := by simp [hx]
        rw [List.filter_cons, hxi, List.find?_cons, hxo]
        simpa using ih
      · have hxi : (x._id != id) = true := by simp [hx]
        rw [List.filter_cons, hxi]
        simp only [if_true, List.find?_cons]
        rw [ih]

/-- The delete on the busy store by Alice, the creator of the sample meeting. -/
theorem delete_cascades_witness :
    UniqueIds busyStore.meetings ∧
    (deleteMeeting busyStore (some alice) sampleId none).2.status = 200 ∧
    (deleteMeeting busyStore (some alice) sampleId none).1.meetings = [otherMeeting] ∧
    (deleteMeeting busyStore (some alice) sampleId none).1.attendance
      = [sampleAttendance eveId otherId] ∧
    findById (deleteMeeting busyStore (some alice) sampleId none).1.meetings sampleId = none :=
  have h := delete_cascades busyStore (some alice) sampleId none (by unfold UniqueIds; decide)
    (by decide)
  have hid : castObjectId sampleId = some sampleId := by decide
  ⟨by unfold UniqueIds; decide, by decide, by decide, by decide,
    h.elim (fun oid hoid => by
      have : oid = sampleId := Option.some.inj (hoid.1.symm.trans hid)
      subst this
      exact hoid.2.2.2.1)⟩

/-! ## The creator check -/

/-- A requester whose own email is non-empty and differs from the stored creator
is refused by all three creator-only handlers, whatever the body holds. -/
theorem other_email_forbidden (s : Store) (u : User) (id oid : String) (m : Meeting)
    (e : String) (hid : castObjectId id = some oid)
    (hm : findById s.meetings oid = some m) (hu : u.email = some e) (he : e ≠ "")
    (hne : e ≠ m.creator) :
    (∀ body now, updateMeeting s (some u) id body now = (s, ⟨403, .error "Access denied"⟩)) ∧
    (∀ email, deleteMeeting s (some u) id email = (s, ⟨403, .error "Access denied"⟩)) ∧
    (∀ email now, goLiveMeeting s (some u) id email now = (s, ⟨403, .error "Access denied"⟩)) := by
  have hreq : ∀ email, requesterEmail (some u) email = some e := by
    intro email
    simp [requesterEmail, jsOr, truthy, hu, he]
  have hc : ¬ m.creator = e := fun h => hne h.symm
  refine ⟨fun body now => ?_, fun email => ?_, fun email now => ?_⟩
  · simp [updateMeeting, hid, hm, hreq, hc]
  · simp [deleteMeeting, hid, hm, hreq, hc]
  · simp [goLiveMeeting, hid, hm, hreq, hc]

/-- C7 (the code at the failing input): a requester with a non-empty email other
than the creator is refused with 403 and nothing changes; but Carol, who is
authenticated without an email and is not the creator of the sample meeting, sends the
creator's email in the body and is let through: her delete removes the meeting and
its attendance row, her go-live and her update succeed. -/
theorem body_email_passes_creator_check :
    (∀ (s : Store) (u : User) (id oid : String) (m : Meeting) (e : String),
      castObjectId id = some oid →
      findById s.meetings oid = some m → u.email = some e → e ≠ "" → e ≠ m.creator →
      (∀ body now, updateMeeting s (some u) id body now = (s, ⟨403, .error "Access denied"⟩)) ∧
      (∀ email, deleteMeeting s (some u) id email = (s, ⟨403, .error "Access denied"⟩)) ∧
      (∀ email now,
        goLiveMeeting s (some u) id email now = (s, ⟨403, .error "Access denied"⟩))) ∧
    creatorOf (some carol) none = some carolId ∧
    (findById busyStore.meetings sampleId).map (fun m => m.creator) = some "alice@example.com" ∧
    handle sampleLib busyStore 9 (.delete (some carol) sampleId (some "alice@example.com"))
      = (⟨[otherMeeting], [sampleAttendance eveId otherId]⟩,
          ⟨200, .message "Meeting deleted successfully"⟩) ∧
    (handle sampleLib busyStore 9 (.goLive (some carol) sampleId (some "alice@example.com"))).2
      = ⟨200, .message "Meeting is now live!"⟩ ∧
    (findById (handle sampleLib busyStore 9
      (.goLive (some carol) sampleId (some "alice@example.com"))).1.meetings sampleId).map
        (fun m => m.status) = some "live" ∧
    (handle sampleLib busyStore 9 (.update (some carol) sampleId
      { emptyUpdate with email := some "alice@example.com", title := some "Taken over" })).2.status
      = 200 ∧
    (findById (handle sampleLib busyStore 9 (.update (some carol) sampleId
      { emptyUpdate with email := some "alice@example.com", title := some "Taken over" })).1.meetings
        sampleId).map (fun m => m.title) = some "Taken over" := by
  refine ⟨other_email_forbidden, ?_, ?_, ?_, ?_, ?_, ?_, ?_⟩ <;> decide

/-- What a successful create did: the four required fields were non-empty, the
derived creator was non-empty, the new document passed the schema validators and
was appended to the collection. -/
theorem createMeeting_success {s : Store} {user : Option User} {body : CreateBody}
    {newId : String} {now : Int} (h : (createMeeting s user body newId now).2.status = 201) :
    ∃ creator, creatorOf user body.creator = some creator ∧ creator ≠ "" ∧
      (truthy body.title = true ∧ truthy body.date = true ∧ truthy body.time = true ∧
        truthy body.expert = true) ∧
      validMeeting (newMeeting body creator newId now) = true ∧
      createMeeting s user body newId now =
        ({ s with meetings := s.meetings ++ [newMeeting body creator newId now] },
          ⟨201, .meeting "Meeting created successfully" (newMeeting body creator newId now)⟩) := by
  unfold createMeeting at h ⊢
  split at h
  · simp at h
  · rename_i hreqd
    split at h
    · simp at h
    · rename_i creator hcreator
      split at h
      · simp at h
      · rename_i hne
        split at h
        · simp at h
        · rename_i hvalid
          have hreqd1 : ((truthy body.title = true ∧ truthy body.date = true) ∧
              truthy body.time = true) ∧ truthy body.expert = true := by
            simpa using hreqd
          refine ⟨creator, hcreator, by simpa using hne,
            ⟨hreqd1.1.1.1, hreqd1.1.1.2, hreqd1.1.2, hreqd1.2⟩, by simpa using hvalid, ?_⟩
          simp [hreqd, hne, hvalid, hcreator]

/-- A valid document is valid with status live. -/
theorem validDocument_setLive {m : Meeting} (h : validDocument m = true) :
    validDocument (setLive m) = true := by
  unfold validDocument at h ⊢
  simp only [Bool.and_eq_true] at h ⊢
  refine ⟨?_, h.2⟩
  have h1 := h.1
  unfold validMeeting at h1 ⊢
  simp only [Bool.and_eq_true] at h1 ⊢
  exact ⟨h1.1, by simp [setLive]⟩

/-- A meeting created by a user with a non-empty email under a fresh `ObjectId` can
be updated, with a patch that passes the update validators, deleted and set live by
the same user. -/
theorem creator_with_email_passes (s : Store) (u : User) (body : CreateBody) (newId : String)
    (now : Int) (e : String) (hu : u.email = some e) (he : e ≠ "")
    (hnew : castObjectId newId = some newId)
    (hfresh : findById s.meetings newId = none)
    (hok : (createMeeting s (some u) body newId now).2.status = 201) :
    (∃ m, findById (createMeeting s (some u) body newId now).1.meetings newId = some m ∧
      m.creator = e) ∧
    (∀ patch now1, validPatch patch = true →
      (updateMeeting (createMeeting s (some u) body newId now).1 (some u) newId patch now1).2.status
        = 200) ∧
    (∀ email,
      (deleteMeeting (createMeeting s (some u) body newId now).1 (some u) newId email).2.status
        = 200) ∧
    (∀ email now1,
      (goLiveMeeting (createMeeting s (some u) body newId now).1 (some u) newId email now1).2.status
        = 200) := by
  have hreq : ∀ email, requesterEmail (some u) email = some e := by
    intro email
    simp [requesterEmail, jsOr, truthy, hu, he]
  have hcre : creatorOf (some u) body.creator = some e := by
    simp [creatorOf, jsOr, truthy, hu, he]
  have he1 : (e == "") = false := by simpa using he
  have hfind : findById (s.meetings ++ [newMeeting body e newId now]) newId
      = some (newMeeting body e newId now) := by
    unfold findById at hfresh ⊢
    rw [List.find?_append, hfresh]
    simp [newMeeting]
  obtain ⟨creator, hcreator0, -, -, hvalid0, heq⟩ := createMeeting_success hok
  rw [hcre] at hcreator0
  have hce : e = creator := Option.some.inj hcreator0
  subst hce
  have hcreate : createMeeting s (some u) body newId now =
      ({ s with meetings := s.meetings ++ [newMeeting body e newId now] },
        ⟨201, .meeting "Meeting created successfully" (newMeeting body e newId now)⟩) := heq
  rw [hcreate]
  have hcreator : (newMeeting body e newId now).creator = e := rfl
  have hlive : validDocument (setLive (newMeeting body e newId now)) = true :=
    validDocument_setLive (by
      unfold validDocument
      rw [hvalid0]
      rfl)
  refine ⟨⟨_, hfind, rfl⟩, fun patch now1 hpatch => ?_, fun email => ?_, fun email now1 => ?_⟩
  · simp [updateMeeting, hnew, hfind, hreq, hcreator, hpatch]
  · simp [deleteMeeting, hnew, hfind, hreq, hcreator]
  · simp [goLiveMeeting, hnew, hfind, hreq, hcreator, hlive]

/-- C8 (the code at the failing input): a creator with a non-empty email passes
the creator check on the meeting they created; but Carol, authenticated with an
id and no email, creates a meeting, which stores her id as creator, and her own
go-live, delete and update on this meeting are each refused with 403. -/
theorem id_only_creator_is_forbidden :
    (∀ (s : Store) (u : User) (body : CreateBody) (newId : String) (now : Int) (e : String),
      u.email = some e → e ≠ "" → castObjectId newId = some newId →
      findById s.meetings newId = none →
      (createMeeting s (some u) body newId now).2.status = 201 →
      (∀ patch now1, validPatch patch = true →
        (updateMeeting (createMeeting s (some u) body newId now).1 (some u) newId
          patch now1).2.status = 200) ∧
      (∀ email, (deleteMeeting (createMeeting s (some u) body newId now).1 (some u) newId
          email).2.status = 200) ∧
      (∀ email now1, (goLiveMeeting (createMeeting s (some u) body newId now).1 (some u) newId
          email now1).2.status = 200)) ∧
    (handle sampleLib ⟨[], []⟩ 5 (.create (some carol) createBody freshId)).2.status = 201 ∧
    (findById (handle sampleLib ⟨[], []⟩ 5 (.create (some carol) createBody freshId)).1.meetings
      freshId).map (fun m => m.creator) = some carolId ∧
    handle sampleLib (handle sampleLib ⟨[], []⟩ 5 (.create (some carol) createBody freshId)).1 6
        (.goLive (some carol) freshId none)
      = ((handle sampleLib ⟨[], []⟩ 5 (.create (some carol) createBody freshId)).1,
          ⟨403, .error "Access denied"⟩) ∧
    handle sampleLib (handle sampleLib ⟨[], []⟩ 5 (.create (some carol) createBody freshId)).1 6
        (.delete (some carol) freshId none)
      = ((handle sampleLib ⟨[], []⟩ 5 (.create (some carol) createBody freshId)).1,
          ⟨403, .error "Access denied"⟩) ∧
    handle sampleLib (handle sampleLib ⟨[], []⟩ 5 (.create (some carol) createBody freshId)).1 6
        (.update (some carol) freshId { emptyUpdate with title := some "Retirement, part 2" })
      = ((handle sampleLib ⟨[], []⟩ 5 (.create (some carol) createBody freshId)).1,
          ⟨403, .error "Access denied"⟩) := by
  refine ⟨fun s u body newId now e hu he hnew hfresh hok =>
    (creator_with_email_passes s u body newId now e hu he hnew hfresh hok).2,
    ?_, ?_, ?_, ?_, ?_⟩ <;>
    decide

/-! ## Joining a meeting -/

/-- C9 (counterexample): Bob, signed in with the email bob@example.com, registers
for the sample meeting under another email; the meeting then holds a registration
with his `userId`. His join at 11:00, inside the live window, is answered 400 'You
must register for this meeting before joining': the handler looks for a
registration with the requester's email only. -/
theorem join_unregistered_by_email :
    bob._id = bobId ∧
    (findById (registerForMeeting sampleStore (some bob) sampleId
        (registerBody "bob@work.example") 1714500000000).1.meetings sampleId).map
      (fun m => m.registrations.map (fun reg => (reg.userId, reg.email)))
      = some [(bobId, "bob@work.example")] ∧
    (joinMeeting sampleLib
      (registerForMeeting sampleStore (some bob) sampleId (registerBody "bob@work.example")
        1714500000000).1
      (some bob) sampleId ⟨none, none, none⟩ 1714561200000).2
      = ⟨400, .error "You must register for this meeting before joining"⟩ := by
  decide

/-- C9 (amended): `joinMeeting` on a stored meeting. When no registration carries
the requester's email (the email of the signed-in user, else of the body) it
answers 400 'You must register for this meeting before joining'; otherwise, when
`now` is outside the live window, before the start or two hours after it or later,
400 'Meeting is not live yet or has ended'; otherwise, for `now` after the start
and a requester whose email is the text of an `ObjectId`, with an attendance row of
the requester for the meeting, 400 'You have already joined this meeting'; in these
three cases the store is unchanged. In the remaining case it succeeds: it answers
200 and appends one attendance row of the requester for the meeting. -/
theorem join_preconditions (lib : DateLib) (s : Store) (user : Option User) (id oid : String)
    (body : JoinBody) (now : Int) (m : Meeting)
    (hid : castObjectId id = some oid) (hm : findById s.meetings oid = some m) :
    ((¬ ∃ reg ∈ m.registrations, some reg.email = requesterEmail user body.email) →
      joinMeeting lib s user id body now
        = (s, ⟨400, .error "You must register for this meeting before joining"⟩)) ∧
    ((∃ reg ∈ m.registrations, some reg.email = requesterEmail user body.email) →
      (∀ start, meetingStart lib m = some start → now < start ∨ start + 2 * 3600000 ≤ now) →
      joinMeeting lib s user id body now
        = (s, ⟨400, .error "Meeting is not live yet or has ended"⟩)) ∧
    (∀ e uid, (∃ reg ∈ m.registrations, reg.email = e) →
      requesterEmail user body.email = some e → castObjectId e = some uid →
      (∃ start, meetingStart lib m = some start ∧ start < now ∧ now < start + 2 * 3600000) →
      (∃ a ∈ s.attendance, a.userId = uid ∧ a.meetingId = oid) →
      joinMeeting lib s user id body now
        = (s, ⟨400, .error "You have already joined this meeting"⟩)) ∧
    (∀ e uid, (∃ reg ∈ m.registrations, reg.email = e) →
      requesterEmail user body.email = some e → castObjectId e = some uid →
      (∃ start, meetingStart lib m = some start ∧ start < now ∧ now < start + 2 * 3600000) →
      (¬ ∃ a ∈ s.attendance, a.userId = uid ∧ a.meetingId = oid) →
      ∃ a, joinMeeting lib s user id body now
          = ({ s with attendance := s.attendance ++ [a] },
              ⟨200, .joined "Successfully joined the meeting" m.joinUrl a⟩) ∧
        a.userId = uid ∧ a.meetingId = oid ∧
        a.joinTime = now ∧ a.leaveTime = none ∧ a.status = "joined" ∧
        a.ipAddress = body.ip ∧ a.userAgent = body.userAgent) := by
  have hmid : m._id = oid := findById_id hm
  have hany : (m.registrations.any (fun reg => some reg.email == requesterEmail user body.email))
      = true ↔ ∃ reg ∈ m.registrations, some reg.email = requesterEmail user body.email := by
    simp
  have hfindA : ∀ uid, (findAttendance s.attendance (some uid) oid).isSome = true ↔
      ∃ a ∈ s.attendance, a.userId = uid ∧ a.meetingId = oid := by
    intro uid
    simp [findAttendance, List.find?_isSome]
  refine ⟨fun hreg => ?_, fun hreg hout => ?_, fun e uid hreg hreq hcast hlive hatt => ?_,
    fun e uid hreg hreq hcast hlive hatt => ?_⟩
  · have h1 : (m.registrations.any
        (fun reg => some reg.email == requesterEmail user body.email)) = false := by
      rw [Bool.eq_false_iff]
      exact fun h => hreg (hany.1 h)
    simp only [joinMeeting, hid, hm, h1]
    rfl
  · have h1 := hany.2 hreg
    have hlive : isLive lib m now = false := by
      rw [Bool.eq_false_iff]
      intro h
      obtain ⟨start, hstart, h3, h4⟩ := (isLive_iff lib m now).1 h
      rcases hout start hstart with h5 | h5 <;> omega
    have h2 : (!isAfter now (meetingStart lib m) || !isBefore now (meetingEnd lib m)) = true := by
      rw [join_test_eq, hlive]
      rfl
    simp only [joinMeeting, hid, hm, h1, h2]
    rfl
  · have h1 : (m.registrations.any
        (fun reg => some reg.email == requesterEmail user body.email)) = true := by
      rw [hany, hreq]
      obtain ⟨reg, hmem, hregE⟩ := hreg
      exact ⟨reg, hmem, by rw [hregE]⟩
    have h2 : (!isAfter now (meetingStart lib m) || !isBefore now (meetingEnd lib m)) = false := by
      rw [join_test_eq, (isLive_iff lib m now).2 hlive]
      rfl
    have hq : castQueryId (requesterEmail user body.email) = some (some uid) := by
      rw [hreq]
      simp [castQueryId, hcast]
    obtain ⟨a0, ha0⟩ := Option.isSome_iff_exists.mp ((hfindA uid).2 hatt)
    simp only [joinMeeting, hid, hm, h1, h2, hmid, hq, ha0]
    rfl
  · have h1 : (m.registrations.any
        (fun reg => some reg.email == requesterEmail user body.email)) = true := by
      rw [hany, hreq]
      obtain ⟨reg, hmem, hregE⟩ := hreg
      exact ⟨reg, hmem, by rw [hregE]⟩
    have h2 : (!isAfter now (meetingStart lib m) || !isBefore now (meetingEnd lib m)) = false := by
      rw [join_test_eq, (isLive_iff lib m now).2 hlive]
      rfl
    have hq : castQueryId (requesterEmail user body.email) = some (some uid) := by
      rw [hreq]
      simp [castQueryId, hcast]
    have h3 : findAttendance s.attendance (some uid) oid = none := by
      rw [← Option.not_isSome_iff_eq_none]
      exact fun h => hatt ((hfindA uid).1 h)
    refine ⟨newAttendance (some uid) oid body now, ?_, rfl, rfl, rfl, rfl, rfl, rfl, rfl⟩
    simp only [joinMeeting, hid, hm, h1, h2, hmid, hq, h3]
    rfl

/-- The four branches of `joinMeeting` on samples, for Eve, whose email is the text
of an `ObjectId`: Carol is not registered; Eve is registered but 09:00 is before
the start; at 11:00 Eve has a row already; at 11:00 without a row Eve joins. -/
theorem join_preconditions_witness :
    joinMeeting sampleLib
        ⟨[sampleMeetingWith [sampleRegistration "Eve" eveId]], []⟩
        (some carol) sampleId ⟨none, none, none⟩ 1714561200000
      = (⟨[sampleMeetingWith [sampleRegistration "Eve" eveId]], []⟩,
          ⟨400, .error "You must register for this meeting before joining"⟩) ∧
    joinMeeting sampleLib
        ⟨[sampleMeetingWith [sampleRegistration "Eve" eveId]], []⟩
        (some eve) sampleId ⟨none, none, none⟩ 1714554000000
      = (⟨[sampleMeetingWith [sampleRegistration "Eve" eveId]], []⟩,
          ⟨400, .error "Meeting is not live yet or has ended"⟩) ∧
    joinMeeting sampleLib
        ⟨[sampleMeetingWith [sampleRegistration "Eve" eveId]],
          [sampleAttendance eveId sampleId]⟩
        (some eve) sampleId ⟨none, none, none⟩ 1714561200000
      = (⟨[sampleMeetingWith [sampleRegistration "Eve" eveId]],
          [sampleAttendance eveId sampleId]⟩,
          ⟨400, .error "You have already joined this meeting"⟩) ∧
    (joinMeeting sampleLib
        ⟨[sampleMeetingWith [sampleRegistration "Eve" eveId]], []⟩
        (some eve) sampleId ⟨none, none, none⟩ 1714561200000).2.status = 200 :=
  ⟨(join_preconditions sampleLib
      ⟨[sampleMeetingWith [sampleRegistration "Eve" eveId]], []⟩
      (some carol) sampleId sampleId ⟨none, none, none⟩ 1714561200000
      (sampleMeetingWith [sampleRegistration "Eve" eveId]) (by decide) (by decide)).1
      (by decide),
   (join_preconditions sampleLib
      ⟨[sampleMeetingWith [sampleRegistration "Eve" eveId]], []⟩
      (some eve) sampleId sampleId ⟨none, none, none⟩ 1714554000000
      (sampleMeetingWith [sampleRegistration "Eve" eveId]) (by decide) (by decide)).2.1
      (by decide) (fun start hstart => by
        have h : start = 1714557600000 := by
          have h0 : meetingStart sampleLib (sampleMeetingWith [sampleRegistration "Eve" eveId])
              = some 1714557600000 := by decide
          rw [h0] at hstart
          exact (Option.some.inj hstart).symm
        left
        omega),
   (join_preconditions sampleLib
      ⟨[sampleMeetingWith [sampleRegistration "Eve" eveId]],
        [sampleAttendance eveId sampleId]⟩
      (some eve) sampleId sampleId ⟨none, none, none⟩ 1714561200000
      (sampleMeetingWith [sampleRegistration "Eve" eveId]) (by decide) (by decide)).2.2.1
      eveId eveId (by decide) (by decide) (by decide)
      ⟨1714557600000, by decide, by decide, by decide⟩ (by decide),
   ((join_preconditions sampleLib
      ⟨[sampleMeetingWith [sampleRegistration "Eve" eveId]], []⟩
      (some eve) sampleId sampleId ⟨none, none, none⟩ 1714561200000
      (sampleMeetingWith [sampleRegistration "Eve" eveId]) (by decide) (by decide)).2.2.2
      eveId eveId (by decide) (by decide) (by decide)
      ⟨1714557600000, by decide, by decide, by decide⟩ (by decide)).elim
      (fun _ h => by rw [h.1])⟩

/-! ## One attendance row for each user and meeting -/

/-- A join that is not answered 200 changes nothing. -/
theorem joinMeeting_failure {lib : DateLib} {s : Store} {user : Option User} {id : String}
    {body : JoinBody} {now : Int} :
    (joinMeeting lib s user id body now).2.status ≠ 200 →
      (joinMeeting lib s user id body now).1 = s := by
  unfold joinMeeting
  dsimp only
  repeat' split
  all_goals first
    | exact fun _ => rfl
    | exact fun h => absurd rfl h

theorem findAttendance_eq_none {as : List Attendance} {u : Option String} {id : String} :
    findAttendance as u id = none ↔
      ∀ a ∈ as, ¬ (some a.userId = u ∧ a.meetingId = id) := by
  simp [findAttendance, List.find?_eq_none]

/-- What a successful join did. -/
theorem joinMeeting_success {lib : DateLib} {s : Store} {user : Option User} {id : String}
    {body : JoinBody} {now : Int} (h : (joinMeeting lib s user id body now).2.status = 200) :
    ∃ oid m e uid, castObjectId id = some oid ∧ findById s.meetings oid = some m ∧
      requesterEmail user body.email = some e ∧ (∃ reg ∈ m.registrations, reg.email = e) ∧
      castObjectId e = some uid ∧ isLive lib m now = true ∧
      findAttendance s.attendance (some uid) oid = none ∧
      joinMeeting lib s user id body now
        = ({ s with attendance := s.attendance ++ [newAttendance (some uid) oid body now] },
            ⟨200, .joined "Successfully joined the meeting" m.joinUrl
              (newAttendance (some uid) oid body now)⟩) := by
  unfold joinMeeting at h ⊢
  split at h
  · simp at h
  · rename_i oid hid
    split at h
    · simp at h
    · rename_i m hm
      have hmid : m._id = oid := findById_id hm
      simp only at h
      split at h
      · simp at h
      · rename_i hreg
        split at h
        · simp at h
        · rename_i hlive
          split at h
          · simp at h
          · rename_i userId hq
            split at h
            · simp at h
            · rename_i hatt
              have hreg1 : ∃ reg ∈ m.registrations,
                  some reg.email = requesterEmail user body.email := by
                simpa using hreg
              obtain ⟨reg, hmem, hregE⟩ := hreg1
              have hlive1 : isLive lib m now = true := by
                have := join_test_eq lib m now
                rw [Bool.not_eq_true] at hlive
                rw [hlive] at this
                simpa using this.symm
              rw [← hregE] at hq
              obtain ⟨uid, hcast, huid⟩ : ∃ uid, castObjectId reg.email = some uid ∧
                  userId = some uid := by
                cases hc : castObjectId reg.email with
                | none => simp [castQueryId, hc] at hq
                | some uid =>
                  refine ⟨uid, rfl, ?_⟩
                  simpa [castQueryId, hc] using hq.symm
              subst huid
              rw [hmid] at hatt
              refine ⟨oid, m, reg.email, uid, hid, hm, hregE.symm, ⟨reg, hmem, rfl⟩, hcast, hlive1,
                hatt, ?_⟩
              have hq1 : castQueryId (requesterEmail user body.email) = some (some uid) := by
                rw [← hregE]
                exact hq
              simp only [hm, hreg, hlive, hmid, hq1, hatt]
              rfl

theorem join_preserves_unique {lib : DateLib} {s : Store} {user : Option User} {id : String}
    {body : JoinBody} {now : Int} (h : UniqueAttendance s.attendance) :
    UniqueAttendance (joinMeeting lib s user id body now).1.attendance := by
  by_cases hok : (joinMeeting lib s user id body now).2.status = 200
  · obtain ⟨oid, m, e, uid, -, -, -, -, -, -, hnone, heq⟩ := joinMeeting_success hok
    rw [heq]
    unfold UniqueAttendance at h ⊢
    rw [List.map_append, List.nodup_append]
    refine ⟨h, List.nodup_singleton _, ?_⟩
    show (List.map Attendance.key s.attendance).Disjoint
      [Attendance.key (newAttendance (some uid) oid body now)]
    rw [List.disjoint_singleton]
    intro hmem
    obtain ⟨a, ha, hkey⟩ := List.mem_map.1 hmem
    have hk : a.userId = uid ∧ a.meetingId = oid := by
      simpa [Attendance.key, newAttendance] using hkey
    exact findAttendance_eq_none.1 hnone a ha ⟨by rw [hk.1], hk.2⟩
  · have hsame : (joinMeeting lib s user id body now).1 = s := joinMeeting_failure hok
    rw [hsame]
    exact h

theorem replaceAttendance_keys {as : List Attendance} {u : Option String} {id : String}
    {a b : Attendance} (h : findAttendance as u id = some a) (hb : b.key = a.key) :
    (replaceAttendance as u id b).map Attendance.key = as.map Attendance.key := by
  induction as with
  | nil => simp [findAttendance] at h
  | cons x xs ih =>
    unfold findAttendance at h ih
    by_cases hx : (some x.userId == u && x.meetingId == id) = true
    · rw [List.find?_cons, hx] at h
      have hxa : x = a := Option.some.inj h
      subst hxa
      simp only [replaceAttendance, hx, if_true, List.map_cons, hb]
    · have hx1 : (some x.userId == u && x.meetingId == id) = false := by simpa using hx
      rw [List.find?_cons, hx1] at h
      simp only [replaceAttendance, hx1, Bool.false_eq_true, if_false, List.map_cons, ih h]

theorem leave_preserves_unique {s : Store} {user : Option User} {id : String}
    {email : Option String} {now : Int} (h : UniqueAttendance s.attendance) :
    UniqueAttendance (leaveMeeting s user id email now).1.attendance := by
  unfold leaveMeeting
  simp only
  split
  · split
    · exact h
    · rename_i a ha
      unfold UniqueAttendance at h ⊢
      simp only
      rw [replaceAttendance_keys ha (by rfl)]
      exact h
  · exact h

theorem delete_preserves_unique {s : Store} {user : Option User} {id : String}
    {email : Option String} (h : UniqueAttendance s.attendance) :
    UniqueAttendance (deleteMeeting s user id email).1.attendance := by
  unfold deleteMeeting
  split
  · exact h
  · split
    · exact h
    · split
      · exact h
      · unfold UniqueAttendance deleteAttendanceOf at *
        exact h.sublist ((List.filter_sublist _).map _)

theorem register_attendance (s : Store) (user : Option User) (id : String)
    (body : RegisterBody) (now : Int) :
    (registerForMeeting s user id body now).1.attendance = s.attendance := by
  unfold registerForMeeting
  dsimp only
  repeat' split
  all_goals rfl

theorem create_attendance (s : Store) (user : Option User) (body : CreateBody)
    (newId : String) (now : Int) :
    (createMeeting s user body newId now).1.attendance = s.attendance := by
  unfold createMeeting
  repeat' split
  all_goals rfl

theorem update_attendance (s : Store) (user : Option User) (id : String) (body : UpdateBody)
    (now : Int) : (updateMeeting s user id body now).1.attendance = s.attendance := by
  unfold updateMeeting
  repeat' split
  all_goals rfl

theorem goLive_attendance (s : Store) (user : Option User) (id : String)
    (email : Option String) (now : Int) :
    (goLiveMeeting s user id email now).1.attendance = s.attendance := by
  unfold goLiveMeeting
  repeat' split
  all_goals rfl

theorem handle_preserves_unique (lib : DateLib) (s : Store) (now : Int) (r : Request)
    (h : UniqueAttendance s.attendance) :
    UniqueAttendance (handle lib s now r).1.attendance := by
  cases r with
  | create user body newId =>
    cases user with
    | none => exact h
    | some u => simpa [handle, requireAuth, create_attendance] using h
  | update user id body =>
    cases user with
    | none => exact h
    | some u => simpa [handle, requireAuth, update_attendance] using h
  | delete user id email =>
    cases user with
    | none => exact h
    | some u => exact delete_preserves_unique h
  | register user id body =>
    cases user with
    | none => exact h
    | some u => simpa [handle, requireAuth, register_attendance] using h
  | join user id body =>
    cases user with
    | none => exact h
    | some u => exact join_preserves_unique h
  | leave user id email =>
    cases user with
    | none => exact h
    | some u => exact leave_preserves_unique h
  | goLive user id email =>
    cases user with
    | none => exact h
    | some u => simpa [handle, requireAuth, goLive_attendance] using h

theorem run_preserves_unique (lib : DateLib) (requests : List (Int × Request)) :
    ∀ s : Store, UniqueAttendance s.attendance →
      UniqueAttendance (run lib s requests).attendance := by
  induction requests with
  | nil => exact fun s h => h
  | cons r rest ih =>
    intro s h
    exact ih _ (handle_preserves_unique lib s r.1 r.2 h)

/-- With a row of the requester for the meeting in the store, `joinMeeting` on an
existing meeting is refused with status 400 and changes nothing. -/
theorem joinMeeting_refused_of_row {lib : DateLib} {s : Store} {user : Option User}
    {id oid : String} {body : JoinBody} {now : Int} {m : Meeting} {a : Attendance}
    {userId : Option String}
    (hid : castObjectId id = some oid)
    (hm : findById s.meetings oid = some m)
    (hq : castQueryId (requesterEmail user body.email) = some userId)
    (ha : findAttendance s.attendance userId oid = some a) :
    (joinMeeting lib s user id body now).1 = s ∧
    (joinMeeting lib s user id body now).2.status = 400 := by
  have hmid : m._id = oid := findById_id hm
  unfold joinMeeting
  simp only [hid, hm, hmid, hq, ha]
  repeat' split
  all_goals exact ⟨rfl, rfl⟩

/-- C10: in every state the router reaches from a store without attendance rows,
by any sequence of requests (join, leave and delete among them), there is at most
one attendance row for each pair of user and meeting. A successful `joinMeeting`
appends exactly one row, of the requester for the meeting, with `joinTime = now`,
status joined and no `leaveTime`; a second join by the same requester on the same
meeting is refused and adds no row. -/
theorem attendance_rows_unique :
    (∀ (lib : DateLib) (meetings : List Meeting) (requests : List (Int × Request)),
      UniqueAttendance (run lib ⟨meetings, []⟩ requests).attendance) ∧
    (∀ (lib : DateLib) (s : Store) (user : Option User) (id : String) (body : JoinBody)
      (now : Int), (joinMeeting lib s user id body now).2.status = 200 →
      ∃ a, (joinMeeting lib s user id body now).1.attendance = s.attendance ++ [a] ∧
        (joinMeeting lib s user id body now).1.meetings = s.meetings ∧
        castQueryId (requesterEmail user body.email) = some (some a.userId) ∧
        castObjectId id = some a.meetingId ∧
        a.joinTime = now ∧ a.status = "joined" ∧ a.leaveTime = none ∧
        ∀ (body2 : JoinBody) (now2 : Int), body2.email = body.email →
          (joinMeeting lib (joinMeeting lib s user id body now).1 user id body2 now2).1
            = (joinMeeting lib s user id body now).1 ∧
          (joinMeeting lib (joinMeeting lib s user id body now).1 user id body2 now2).2.status
            = 400) := by
  refine ⟨fun lib meetings requests =>
    run_preserves_unique lib requests ⟨meetings, []⟩ List.nodup_nil, ?_⟩
  intro lib s user id body now hok
  obtain ⟨oid, m, e, uid, hid, hm, hreq, -, hcast, -, hnone, heq⟩ := joinMeeting_success hok
  have hq : castQueryId (requesterEmail user body.email) = some (some uid) := by
    rw [hreq]
    simp [castQueryId, hcast]
  rw [heq]
  refine ⟨newAttendance (some uid) oid body now, rfl, rfl, hq, hid, rfl, rfl, rfl, ?_⟩
  intro body2 now2 hbody
  have hrow : findAttendance (s.attendance ++ [newAttendance (some uid) oid body now])
      (some uid) oid = some (newAttendance (some uid) oid body now) := by
    unfold findAttendance at hnone ⊢
    rw [List.find?_append, hnone]
    simp [newAttendance]
  have hq2 : castQueryId (requesterEmail user body2.email) = some (some uid) := by
    rw [hbody]
    exact hq
  exact @joinMeeting_refused_of_row lib
    ⟨s.meetings, s.attendance ++ [newAttendance (some uid) oid body now]⟩ user id oid body2 now2
    m _ _ hid hm hq2 hrow

/-- Eve, whose email is the text of an `ObjectId`, joins the sample meeting, leaves,
and asks to join twice more: one row remains, and the second join right after the
first is refused. -/
theorem attendance_rows_unique_witness :
    UniqueAttendance (run sampleLib
      ⟨[sampleMeetingWith [sampleRegistration "Eve" eveId]], []⟩
      [(1714561200000, .join (some eve) sampleId ⟨none, none, none⟩),
       (1714561260000, .leave (some eve) sampleId none),
       (1714561320000, .join (some eve) sampleId ⟨none, none, none⟩),
       (1714561380000, .join (some eve) sampleId ⟨none, none, none⟩)]).attendance ∧
    (run sampleLib
      ⟨[sampleMeetingWith [sampleRegistration "Eve" eveId]], []⟩
      [(1714561200000, .join (some eve) sampleId ⟨none, none, none⟩),
       (1714561260000, .leave (some eve) sampleId none),
       (1714561320000, .join (some eve) sampleId ⟨none, none, none⟩),
       (1714561380000, .join (some eve) sampleId ⟨none, none, none⟩)]).attendance.length = 1 ∧
    (joinMeeting sampleLib
      ⟨[sampleMeetingWith [sampleRegistration "Eve" eveId]], []⟩
      (some eve) sampleId ⟨none, none, none⟩ 1714561200000).2.status = 200 ∧
    (joinMeeting sampleLib
      (joinMeeting sampleLib
        ⟨[sampleMeetingWith [sampleRegistration "Eve" eveId]], []⟩
        (some eve) sampleId ⟨none, none, none⟩ 1714561200000).1
      (some eve) sampleId ⟨none, none, none⟩ 1714561260000).2.status = 400 :=
  ⟨attendance_rows_unique.1 _ _ _, by decide, by decide,
    (attendance_rows_unique.2 sampleLib
      ⟨[sampleMeetingWith [sampleRegistration "Eve" eveId]], []⟩
      (some eve) sampleId ⟨none, none, none⟩ 1714561200000 (by decide)).elim
      (fun _ h => (h.2.2.2.2.2.2.2 ⟨none, none, none⟩ 1714561260000 rfl).2)⟩

/-! ## Leaving a meeting -/

theorem roundMinutes_bounds (d : Int) :
    60000 * roundMinutes d - 30000 ≤ d ∧ d < 60000 * roundMinutes d + 30000 := by
  unfold roundMinutes
  rw [Int.fdiv_eq_ediv _ (by norm_num : (0 : Int) ≤ 60000)]
  have h1 := Int.emod_add_ediv (d + 30000) 60000
  have h2 := Int.emod_nonneg (d + 30000) (by norm_num : (60000 : Int) ≠ 0)
  have h3 := Int.emod_lt_of_pos (d + 30000) (by norm_num : (0 : Int) < 60000)
  constructor <;> omega

theorem roundMinutes_eq_floor (d : Int) : roundMinutes d = ⌊(d : ℚ) / 60000 + 1 / 2⌋ := by
  symm
  rw [Int.floor_eq_iff]
  obtain ⟨h1, h2⟩ := roundMinutes_bounds d
  have h1q : (60000 : ℚ) * (roundMinutes d : ℚ) - 30000 ≤ (d : ℚ) := by exact_mod_cast h1
  have h2q : (d : ℚ) < 60000 * (roundMinutes d : ℚ) + 30000 := by exact_mod_cast h2
  constructor
  · linarith
  · linarith

theorem roundMinutes_whole (N : Int) : roundMinutes (60000 * N) = N := by
  obtain ⟨h1, h2⟩ := roundMinutes_bounds (60000 * N)
  omega

theorem findAttendance_replaceAttendance {as : List Attendance} {u : Option String}
    {id : String} {a b : Attendance} (h : findAttendance as u id = some a)
    (hb : (some b.userId == u && b.meetingId == id) = true) :
    findAttendance (replaceAttendance as u id b) u id = some b := by
  induction as with
  | nil => simp [findAttendance] at h
  | cons x xs ih =>
    unfold findAttendance at h ih ⊢
    by_cases hx : (some x.userId == u && x.meetingId == id) = true
    · simp only [replaceAttendance, hx, if_true, List.find?_cons, hb]
    · have hx1 : (some x.userId == u && x.meetingId == id) = false := by simpa using hx
      rw [List.find?_cons, hx1] at h
      simp only [replaceAttendance, hx1, Bool.false_eq_true, if_false, List.find?_cons, ih h]

theorem findAttendance_matches {as : List Attendance} {u : Option String} {id : String}
    {a : Attendance} (h : findAttendance as u id = some a) :
    (some a.userId == u && a.meetingId == id) = true := by
  have := List.find?_some h
  simpa using this

/-- The answer of `leaveMeeting` when both casts succeed and the row is found. -/
theorem leaveMeeting_found {s : Store} {user : Option User} {id oid : String}
    {email : Option String} {t : Int} {a : Attendance} {userId : Option String}
    (hq : castQueryId (requesterEmail user email) = some userId)
    (hid : castObjectId id = some oid)
    (ha : findAttendance s.attendance userId oid = some a) :
    leaveMeeting s user id email t
      = (⟨s.meetings, replaceAttendance s.attendance userId oid (markAsLeft a t)⟩,
          ⟨200, .left "Successfully left the meeting" (markAsLeft a t)⟩) := by
  simp only [leaveMeeting, hq, hid, ha]

/-- C11: a leave that finds the requester's attendance row, with `joinTime = j`,
succeeds at instant `t`: the row is kept with its other fields and stored with
`leaveTime = t`, status left and `duration` the nearest integer to `(t - j) / 60000`,
a half rounded up; when `t - j` is `N` whole minutes the duration is `N`. This
holds for every `t`, in particular for `t ≥ j`. The row is found by the requester's
email and the id of the request, both cast to `ObjectId`s. -/
theorem leave_sets_duration (s : Store) (user : Option User) (id oid : String)
    (email : Option String) (t : Int) (a : Attendance) (userId : Option String)
    (hq : castQueryId (requesterEmail user email) = some userId)
    (hid : castObjectId id = some oid)
    (ha : findAttendance s.attendance userId oid = some a) :
    ∃ a1, leaveMeeting s user id email t
        = (⟨s.meetings, replaceAttendance s.attendance userId oid a1⟩,
            ⟨200, .left "Successfully left the meeting" a1⟩) ∧
      findAttendance (leaveMeeting s user id email t).1.attendance userId oid = some a1 ∧
      a1.userId = a.userId ∧ a1.meetingId = a.meetingId ∧ a1.joinTime = a.joinTime ∧
      a1.ipAddress = a.ipAddress ∧ a1.userAgent = a.userAgent ∧
      a1.leaveTime = some t ∧ a1.status = "left" ∧
      a1.duration = ⌊((t - a.joinTime : Int) : ℚ) / 60000 + 1 / 2⌋ ∧
      (60000 * a1.duration - 30000 ≤ t - a.joinTime ∧
        t - a.joinTime < 60000 * a1.duration + 30000) ∧
      (∀ N : Int, t - a.joinTime = 60000 * N → a1.duration = N) := by
  have hleave := @leaveMeeting_found s user id oid email t a userId hq hid ha
  refine ⟨markAsLeft a t, hleave, ?_, rfl, rfl, rfl, rfl, rfl, rfl, rfl,
    roundMinutes_eq_floor _, roundMinutes_bounds _, ?_⟩
  · rw [hleave]
    have hmatch := findAttendance_matches ha
    exact findAttendance_replaceAttendance ha hmatch
  · intro N hN
    show roundMinutes (t - a.joinTime) = N
    rw [hN]
    exact roundMinutes_whole N

/-- Eve, whose email is the text of an `ObjectId`, joined the sample meeting at
10:01 and leaves 95 minutes later, or 30 seconds later: the leave succeeds and the
durations are 95 and 1. -/
theorem leave_sets_duration_witness :
    findAttendance [sampleAttendance eveId sampleId] (some eveId) sampleId
      = some (sampleAttendance eveId sampleId) ∧
    (leaveMeeting ⟨[sampleMeeting], [sampleAttendance eveId sampleId]⟩ (some eve) sampleId
      none (1714557660000 + 95 * 60000)).2.status = 200 ∧
    (leaveMeeting ⟨[sampleMeeting], [sampleAttendance eveId sampleId]⟩ (some eve) sampleId
      none (1714557660000 + 95 * 60000)).2
      = ⟨200, .left "Successfully left the meeting"
          { sampleAttendance eveId sampleId with
            leaveTime := some 1714563360000, status := "left", duration := 95 }⟩ ∧
    (leaveMeeting ⟨[sampleMeeting], [sampleAttendance eveId sampleId]⟩ (some eve) sampleId
      none (1714557660000 + 30000)).2
      = ⟨200, .left "Successfully left the meeting"
          { sampleAttendance eveId sampleId with
            leaveTime := some 1714557690000, status := "left", duration := 1 }⟩ :=
  ⟨by decide,
   (leave_sets_duration ⟨[sampleMeeting], [sampleAttendance eveId sampleId]⟩ (some eve)
      sampleId sampleId none (1714557660000 + 95 * 60000) (sampleAttendance eveId sampleId)
      (some eveId) (by decide) (by decide) (by decide)).elim (fun _ h => by rw [h.1]),
   by decide, by decide⟩

/-! ## The string order and the sort -/

theorem charsLe_refl (a : List Char) : charsLe a a = true := by
  induction a with
  | nil => rfl
  | cons x xs ih => simp [charsLe, ih]

theorem charsLe_total (a b : List Char) : charsLe a b = true ∨ charsLe b a = true := by
  induction a generalizing b with
  | nil => exact Or.inl (by cases b <;> rfl)
  | cons x xs ih =>
    cases b with
    | nil => exact Or.inr rfl
    | cons y ys =>
      rcases Nat.lt_trichotomy x.toNat y.toNat with h | h | h
      · left; simp [charsLe, h]
      · rcases ih ys with h1 | h1
        · left; simp [charsLe, h, h1]
        · right; simp [charsLe, h, h1]
      · right; simp [charsLe, h]

theorem char_toNat_inj {x y : Char} (h : x.toNat = y.toNat) : x = y := by
  apply Char.ext
  apply UInt32.ext
  exact h

theorem charsLe_antisymm {a b : List Char} (h1 : charsLe a b = true) (h2 : charsLe b a = true) :
    a = b := by
  induction a generalizing b with
  | nil =>
    cases b with
    | nil => rfl
    | cons y ys => simp [charsLe] at h2
  | cons x xs ih =>
    cases b with
    | nil => simp [charsLe] at h1
    | cons y ys =>
      rcases Nat.lt_trichotomy x.toNat y.toNat with h | h | h
      · have hn : ¬ y.toNat < x.toNat := by omega
        simp [charsLe, h, hn] at h2
      · have hxy : x = y := char_toNat_inj h
        subst hxy
        simp only [charsLe, Nat.lt_irrefl, if_false] at h1 h2
        rw [ih h1 h2]
      · have hn : ¬ x.toNat < y.toNat := by omega
        simp [charsLe, h, hn] at h1

theorem charsLe_trans {a b c : List Char} (h1 : charsLe a b = true) (h2 : charsLe b c = true) :
    charsLe a c = true := by
  induction a generalizing b c with
  | nil => cases c <;> rfl
  | cons x xs ih =>
    cases b with
    | nil => simp [charsLe] at h1
    | cons y ys =>
      cases c with
      | nil => simp [charsLe] at h2
      | cons z zs =>
        simp only [charsLe] at h1 h2 ⊢
        by_cases hxy : x.toNat < y.toNat
        · by_cases hyz : y.toNat < z.toNat
          · have : x.toNat < z.toNat := by omega
            simp [this]
          · by_cases hzy : z.toNat < y.toNat
            · simp [hyz, hzy] at h2
            · have : x.toNat < z.toNat := by omega
              simp [this]
        · by_cases hyx : y.toNat < x.toNat
          · simp [hxy, hyx] at h1
          · simp only [hxy, hyx, if_false] at h1
            by_cases hyz : y.toNat < z.toNat
            · have : x.toNat < z.toNat := by omega
              simp [this]
            · by_cases hzy : z.toNat < y.toNat
              · simp [hyz, hzy] at h2
              · simp only [hyz, hzy, if_false] at h2
                have e1 : ¬ x.toNat < z.toNat := by omega
                have e2 : ¬ z.toNat < x.toNat := by omega
                simp only [e1, e2, if_false]
                exact ih h1 h2

theorem strLe_total (a b : String) : strLe a b = true ∨ strLe b a = true :=
  charsLe_total a.data b.data

theorem strLe_trans {a b c : String} (h1 : strLe a b = true) (h2 : strLe b c = true) :
    strLe a c = true :=
  charsLe_trans h1 h2

theorem strLe_antisymm {a b : String} (h1 : strLe a b = true) (h2 : strLe b a = true) :
    a = b := by
  have hd : a.data = b.data := charsLe_antisymm h1 h2
  cases a
  cases b
  simp only at hd
  rw [hd]

/-- In the binary order `a < b` is `a ≤ b` and `a ≠ b`. -/
theorem strLt_iff (a b : String) : strLt a b = true ↔ strLe a b = true ∧ a ≠ b := by
  unfold strLt
  constructor
  · intro h
    have hba : strLe b a = false := by simpa using h
    refine ⟨?_, ?_⟩
    · rcases strLe_total a b with h1 | h1
      · exact h1
      · rw [h1] at hba; cases hba
    · intro hab
      subst hab
      unfold strLe at hba
      rw [charsLe_refl] at hba
      cases hba
  · rintro ⟨h1, hne⟩
    by_contra hcon
    have hba : strLe b a = true := by simpa [strLe] using hcon
    exact hne (strLe_antisymm h1 hba)

/-- The order of the sort in the words of the query: an earlier date, or the same
date and no later time. -/
theorem dateTimeLe_iff (a b : Meeting) :
    dateTimeLe a b = true ↔
      strLt a.date b.date = true ∨ (a.date = b.date ∧ strLe a.time b.time = true) := by
  unfold dateTimeLe
  by_cases h : a.date = b.date
  · simp [h, strLt_iff]
  · simp [h, strLt_iff]

theorem dateTimeLe_total (a b : Meeting) : dateTimeLe a b = true ∨ dateTimeLe b a = true := by
  unfold dateTimeLe
  by_cases h : a.date = b.date
  · simp only [h, beq_self_eq_true, if_true]
    exact strLe_total _ _
  · have h1 : ¬ b.date = a.date := fun e => h e.symm
    simp only [beq_iff_eq, h, h1, if_false]
    exact strLe_total _ _

theorem dateTimeLe_trans {a b c : Meeting} (h1 : dateTimeLe a b = true)
    (h2 : dateTimeLe b c = true) : dateTimeLe a c = true := by
  rw [dateTimeLe_iff] at h1 h2 ⊢
  rcases h1 with h1 | ⟨e1, t1⟩
  · rcases h2 with h2 | ⟨e2, t2⟩
    · left
      rw [strLt_iff] at h1 h2 ⊢
      refine ⟨strLe_trans h1.1 h2.1, ?_⟩
      intro e
      rw [e] at h1
      exact h1.2 (strLe_antisymm h1.1 h2.1)
    · left
      rw [← e2]
      exact h1
  · rcases h2 with h2 | ⟨e2, t2⟩
    · left
      rw [e1]
      exact h2
    · right
      exact ⟨e1.trans e2, strLe_trans t1 t2⟩

theorem sortWith_eq_insertionSort (le : Meeting → Meeting → Bool) (l : List Meeting) :
    sortWith le l = List.insertionSort (fun a b => le a b = true) l := by
  induction l with
  | nil => rfl
  | cons x xs ih =>
    have hins : ∀ (m : Meeting) (ys : List Meeting),
        insertSorted le m ys = List.orderedInsert (fun a b => le a b = true) m ys := by
      intro m ys
      induction ys with
      | nil => rfl
      | cons y ys ihy => simp only [insertSorted, List.orderedInsert, ihy]
    simp only [sortWith, List.insertionSort, ih, hins]

theorem sortWith_perm (le : Meeting → Meeting → Bool) (l : List Meeting) :
    (sortWith le l).Perm l := by
  rw [sortWith_eq_insertionSort]
  exact List.perm_insertionSort _ l

theorem sortWith_sorted (le : Meeting → Meeting → Bool)
    (htotal : ∀ a b, le a b = true ∨ le b a = true)
    (htrans : ∀ a b c, le a b = true → le b c = true → le a c = true) (l : List Meeting) :
    (sortWith le l).Pairwise (fun a b => le a b = true) := by
  rw [sortWith_eq_insertionSort]
  haveI : IsTotal Meeting (fun a b => le a b = true) := ⟨htotal⟩
  haveI : IsTrans Meeting (fun a b => le a b = true) := ⟨htrans⟩
  exact List.sorted_insertionSort _ l

theorem paginate_sublist {skip limit : Int} {l page : List Meeting}
    (h : paginate skip limit l = some page) : page.Sublist l := by
  unfold paginate at h
  split at h
  · cases h
  · split at h
    · cases h
      exact List.drop_sublist _ _
    · cases h
      exact (List.take_sublist _ _).trans (List.drop_sublist _ _)

/-! ## Upcoming and archived meetings -/

theorem returnedMeetings_upcoming (lib : DateLib) (s : Store) (q : ListQuery) (now : Int) :
    returnedMeetings (getUpcomingMeetings lib s q now)
      = (paginate (skipOf q) (limitOf q)
          (sortWith dateTimeLe (s.meetings.filter (isUpcoming (lib.isoDate now) q)))).getD [] := by
  unfold getUpcomingMeetings
  simp only
  cases paginate (skipOf q) (limitOf q)
      (sortWith dateTimeLe (s.meetings.filter (isUpcoming (lib.isoDate now) q))) with
  | none => rfl
  | some page => simp [returnedMeetings, List.map_map, Function.comp_def]

theorem returnedMeetings_archived (lib : DateLib) (s : Store) (q : ListQuery) (now : Int) :
    returnedMeetings (getArchivedMeetings lib s q now)
      = (paginate (skipOf q) (limitOf q)
          (sortWith (fun a b => dateTimeLe b a)
            (s.meetings.filter (isArchived (lib.isoDate now) q)))).getD [] := by
  unfold getArchivedMeetings
  simp only
  cases paginate (skipOf q) (limitOf q)
      (sortWith (fun a b => dateTimeLe b a)
        (s.meetings.filter (isArchived (lib.isoDate now) q))) with
  | none => rfl
  | some page => simp [returnedMeetings, List.map_map, Function.comp_def]

theorem matchesFilter_given {value : Option String} {field v : String}
    (h : matchesFilter value field = true) (hv : value = some v) (hne : v ≠ "") : field = v := by
  subst hv
  simpa [matchesFilter, truthy, hne] using h

/-- C12: every meeting `getUpcomingMeetings` returns is a stored meeting with
`date ≥ today` in the string order (so not `date < today`), with status scheduled,
with the requested language and type when these are given; and the returned list
is sorted ascending by date, equal dates by time. -/
theorem upcoming_only_and_sorted (lib : DateLib) (s : Store) (q : ListQuery) (now : Int) :
    (∀ m ∈ returnedMeetings (getUpcomingMeetings lib s q now),
      m ∈ s.meetings ∧ strLe (lib.isoDate now) m.date = true ∧
      strLt m.date (lib.isoDate now) = false ∧ m.status = "scheduled" ∧
      (∀ v, q.language = some v → v ≠ "" → m.language = v) ∧
      (∀ v, q.type = some v → v ≠ "" → m.type = v)) ∧
    (returnedMeetings (getUpcomingMeetings lib s q now)).Pairwise (fun a b =>
      strLt a.date b.date = true ∨ (a.date = b.date ∧ strLe a.time b.time = true)) := by
  rw [returnedMeetings_upcoming]
  cases hp : paginate (skipOf q) (limitOf q)
      (sortWith dateTimeLe (s.meetings.filter (isUpcoming (lib.isoDate now) q))) with
  | none => simp
  | some page =>
    have hsub := paginate_sublist hp
    simp only [Option.getD_some]
    constructor
    · intro m hm
      have hmem : m ∈ s.meetings.filter (isUpcoming (lib.isoDate now) q) :=
        (sortWith_perm _ _).subset (hsub.subset hm)
      rw [List.mem_filter] at hmem
      obtain ⟨hstore, hq⟩ := hmem
      simp only [isUpcoming, Bool.and_eq_true, beq_iff_eq] at hq
      obtain ⟨⟨⟨⟨hdate, hstatus⟩, -⟩, hlang⟩, htype⟩ := hq
      refine ⟨hstore, hdate, ?_, hstatus, fun v hv hne => matchesFilter_given hlang hv hne,
        fun v hv hne => matchesFilter_given htype hv hne⟩
      unfold strLt
      unfold strLe at hdate
      rw [hdate]
      rfl
    · have hsorted := sortWith_sorted dateTimeLe dateTimeLe_total
        (fun a b c => dateTimeLe_trans) (s.meetings.filter (isUpcoming (lib.isoDate now) q))
      exact (hsorted.sublist hsub).imp (fun h => (dateTimeLe_iff _ _).1 h)

/-- On the sample day the list store returns the sample meeting and the later
meeting, in this order, and with `language=Hindi` the later meeting alone. -/
theorem upcoming_only_and_sorted_witness :
    returnedMeetings (getUpcomingMeetings sampleLib listStore noQuery 1714561200000)
      = [sampleMeeting, laterMeeting] ∧
    returnedMeetings (getUpcomingMeetings sampleLib listStore
      { noQuery with language := some "Hindi" } 1714561200000) = [laterMeeting] ∧
    (returnedMeetings (getUpcomingMeetings sampleLib listStore noQuery 1714561200000)).Pairwise
      (fun a b =>
        strLt a.date b.date = true ∨ (a.date = b.date ∧ strLe a.time b.time = true)) :=
  ⟨by decide, by decide,
    (upcoming_only_and_sorted sampleLib listStore noQuery 1714561200000).2⟩

/-- C13 (counterexample): a stored meeting with `date < today` that the archive does
not return, with no filters and the default limit 20 on a store of one meeting: the
meeting is not public. -/
theorem archived_private_counterexample :
    strLt ({ pastMeeting with isPublic := false } : Meeting).date
      (sampleLib.isoDate 1714561200000) = true ∧
    getArchivedMeetings sampleLib ⟨[{ pastMeeting with isPublic := false }], []⟩ noQuery
      1714561200000 = ⟨200, .meetings []⟩ := by
  decide

/-- C13 (amended): with no language and type filter, the first page and a limit at
least the store size, `getArchivedMeetings` returns exactly the stored public
meetings with `date < today` or status completed, each as often as it is stored,
sorted descending by date, equal dates by time. -/
theorem archived_all_public (lib : DateLib) (s : Store) (q : ListQuery) (now : Int)
    (hlanguage : truthy q.language = false) (htype : truthy q.type = false)
    (hpage : q.page = none ∨ q.page = some 1)
    (hlimit : (s.meetings.length : Int) ≤ limitOf q) :
    (getArchivedMeetings lib s q now).status = 200 ∧
    (returnedMeetings (getArchivedMeetings lib s q now)).Perm
      (s.meetings.filter (fun m =>
        m.isPublic && (strLt m.date (lib.isoDate now) || m.status == "completed"))) ∧
    (∀ m, m ∈ returnedMeetings (getArchivedMeetings lib s q now) ↔
      m ∈ s.meetings ∧ m.isPublic = true ∧
        (strLt m.date (lib.isoDate now) = true ∨ m.status = "completed")) ∧
    (returnedMeetings (getArchivedMeetings lib s q now)).Pairwise (fun a b =>
      strLt b.date a.date = true ∨ (b.date = a.date ∧ strLe b.time a.time = true)) := by
  have hfilter : s.meetings.filter (isArchived (lib.isoDate now) q)
      = s.meetings.filter (fun m =>
          m.isPublic && (strLt m.date (lib.isoDate now) || m.status == "completed")) := by
    apply List.filter_congr
    intro m _
    simp only [isArchived, matchesFilter, hlanguage, htype, Bool.false_eq_true, if_false,
      Bool.and_true]
    exact Bool.and_comm _ _
  have hskip : skipOf q = 0 := by
    rcases hpage with h | h <;> simp [skipOf, h]
  have hperm := sortWith_perm (fun a b => dateTimeLe b a)
    (s.meetings.filter (isArchived (lib.isoDate now) q))
  have hlen : (sortWith (fun a b => dateTimeLe b a)
      (s.meetings.filter (isArchived (lib.isoDate now) q))).length ≤ (limitOf q).natAbs := by
    rw [hperm.length_eq]
    have := List.length_filter_le (isArchived (lib.isoDate now) q) s.meetings
    omega
  have hpaginate : paginate (skipOf q) (limitOf q)
      (sortWith (fun a b => dateTimeLe b a)
        (s.meetings.filter (isArchived (lib.isoDate now) q)))
      = some (sortWith (fun a b => dateTimeLe b a)
        (s.meetings.filter (isArchived (lib.isoDate now) q))) := by
    unfold paginate
    rw [hskip]
    by_cases h0 : limitOf q = 0
    · simp [h0]
    · simp [h0, List.take_of_length_le hlen]
  have hreturned := returnedMeetings_archived lib s q now
  rw [hpaginate, Option.getD_some] at hreturned
  have hstatus : (getArchivedMeetings lib s q now).status = 200 := by
    unfold getArchivedMeetings
    simp only [hpaginate]
  rw [hreturned]
  rw [hfilter] at hperm ⊢
  refine ⟨hstatus, hperm, ?_, ?_⟩
  · intro m
    rw [hperm.mem_iff, List.mem_filter]
    simp
  · have hsorted := sortWith_sorted (fun a b => dateTimeLe b a)
      (fun a b => dateTimeLe_total b a) (fun a b c h1 h2 => dateTimeLe_trans h2 h1)
      (s.meetings.filter (fun m =>
        m.isPublic && (strLt m.date (lib.isoDate now) || m.status == "completed")))
    exact hsorted.imp (fun h => (dateTimeLe_iff _ _).1 h)

/-- On the sample day the list store, with a completed later meeting added,
archives that meeting and the past meeting, the later date first. -/
theorem archived_all_public_witness :
    ((⟨[pastMeeting, sampleMeeting, { laterMeeting with status := "completed" }], []⟩
      : Store).meetings.length : Int) ≤ limitOf noQuery ∧
    returnedMeetings (getArchivedMeetings sampleLib
      ⟨[pastMeeting, sampleMeeting, { laterMeeting with status := "completed" }], []⟩
      noQuery 1714561200000)
      = [{ laterMeeting with status := "completed" }, pastMeeting] ∧
    (getArchivedMeetings sampleLib
      ⟨[pastMeeting, sampleMeeting, { laterMeeting with status := "completed" }], []⟩
      noQuery 1714561200000).status = 200 :=
  ⟨by decide, by decide,
    (archived_all_public sampleLib
      ⟨[pastMeeting, sampleMeeting, { laterMeeting with status := "completed" }], []⟩
      noQuery 1714561200000 (by decide) (by decide) (Or.inl rfl) (by decide)).1⟩

/-! ## Creating a meeting -/

theorem creatorOf_identity {u : User} (c : Option String)
    (h : truthy (jsOr u.email u.id) = true) : creatorOf (some u) c = jsOr u.email u.id := by
  show (if truthy (jsOr u.email u.id) = true then jsOr u.email u.id else c) = _
  rw [if_pos h]

/-- C14 (counterexample): a create request by an authenticated user whose title,
date, time and expert are all non-empty and which stores nothing: the title is a
single blank, the trimmed title is empty and fails the schema's `required`, and the
handler answers 400 'Validation error'. The same happens for a type outside the
schema's `enum`. -/
theorem create_invalid_counterexample :
    truthy ({ createBody with title := some " " } : CreateBody).title = true ∧
    truthy createBody.date = true ∧ truthy createBody.time = true ∧
    truthy createBody.expert = true ∧
    creatorOf (some alice) createBody.creator = some "alice@example.com" ∧
    createMeeting ⟨[], []⟩ (some alice) { createBody with title := some " " } freshId 5
      = (⟨[], []⟩, ⟨400, .error "Validation error"⟩) ∧
    createMeeting ⟨[], []⟩ (some alice) { createBody with type := some "lecture" } freshId 5
      = (⟨[], []⟩, ⟨400, .error "Validation error"⟩) := by
  decide

/-- C14 (amended): `createMeeting` answers 400 and stores nothing whenever title,
date, time or expert is missing or empty. When all four are non-empty and the
user has an email or an id, the outcome depends on the schema validators on the
new document (trimmed title and expert non-empty, title at most 200 and
description at most 1000 characters, type in the schema's list, language
non-empty, maxAttendees at least 1): if they pass, exactly one meeting is appended,
with the trimmed title and expert, the creator from the user, status scheduled,
no registrations, and type qna, duration 1h, language English, maxAttendees 100
for the fields the body omits; if they fail, it answers 400 and stores nothing. -/
theorem create_validation (s : Store) (u : User) (body : CreateBody) (newId : String)
    (now : Int) :
    (∀ user, (truthy body.title = false ∨ truthy body.date = false ∨
        truthy body.time = false ∨ truthy body.expert = false) →
      createMeeting s user body newId now
        = (s, ⟨400, .error "Missing required fields: title, date, time, expert"⟩)) ∧
    (∀ title date time expert creator,
      body.title = some title → title ≠ "" → body.date = some date → date ≠ "" →
      body.time = some time → time ≠ "" → body.expert = some expert → expert ≠ "" →
      jsOr u.email u.id = some creator → creator ≠ "" →
      (validMeeting (newMeeting body creator newId now) = true →
        ∃ m, createMeeting s (some u) body newId now
            = (⟨s.meetings ++ [m], s.attendance⟩,
                ⟨201, .meeting "Meeting created successfully" m⟩) ∧
          m._id = newId ∧ m.title = jsTrim title ∧ m.expert = jsTrim expert ∧
          m.date = date ∧ m.time = time ∧ m.creator = creator ∧
          m.status = "scheduled" ∧ m.registrations = [] ∧ m.isPublic = true ∧
          m.type = body.type.getD "qna" ∧ m.duration = body.duration.getD "1h" ∧
          m.language = body.language.getD "English" ∧
          m.maxAttendees = ((body.maxAttendees.getD 100 : Int) : ℚ)) ∧
      (validMeeting (newMeeting body creator newId now) = false →
        createMeeting s (some u) body newId now
          = (s, ⟨400, .error "Validation error"⟩))) := by
  constructor
  · intro user h
    have hreq : (!truthy body.title || !truthy body.date || !truthy body.time ||
        !truthy body.expert) = true := by
      rcases h with h | h | h | h <;> simp [h]
    simp only [createMeeting, hreq, if_true]
  · intro title date time expert creator ht htne hd hdne htm htmne he hene hc hcne
    have hreq : (!truthy body.title || !truthy body.date || !truthy body.time ||
        !truthy body.expert) = false := by
      simp [truthy, ht, hd, htm, he, htne, hdne, htmne, hene]
    have hcre : creatorOf (some u) body.creator = some creator := by
      have htruthy : truthy (jsOr u.email u.id) = true := by
        rw [hc]
        simpa [truthy] using hcne
      rw [creatorOf_identity _ htruthy, hc]
    have hcne1 : (creator == "") = false := by simpa using hcne
    constructor
    · intro hvalid
      refine ⟨newMeeting body creator newId now, ?_, rfl, ?_, ?_, ?_, ?_, rfl, rfl, rfl, rfl,
        rfl, rfl, rfl, rfl⟩
      · simp [createMeeting, hreq, hcre, hcne1, hvalid]
      · simp [newMeeting, ht]
      · simp [newMeeting, he]
      · simp [newMeeting, hd]
      · simp [newMeeting, htm]
    · intro hinvalid
      simp [createMeeting, hreq, hcre, hcne1, hinvalid]

/-- Alice's create request is stored; without an expert it is refused. -/
theorem create_validation_witness :
    (createMeeting ⟨[], []⟩ (some alice) createBody freshId 5).2.status = 201 ∧
    (createMeeting ⟨[], []⟩ (some alice) createBody freshId 5).1.meetings.length = 1 ∧
    createMeeting ⟨[], []⟩ (some alice) { createBody with expert := some "" } freshId 5
      = (⟨[], []⟩, ⟨400, .error "Missing required fields: title, date, time, expert"⟩) :=
  ⟨(((create_validation ⟨[], []⟩ alice createBody freshId 5).2 "Retirement basics" "2024-05-01"
      "10:00" "Dr. Rao" "alice@example.com" rfl (by decide) rfl (by decide) rfl (by decide) rfl
      (by decide) (by decide) (by decide)).1 (by decide)).elim (fun _ h => by rw [h.1]),
   by decide,
   (create_validation ⟨[], []⟩ alice { createBody with expert := some "" } freshId 5).1
      (some alice) (Or.inr (Or.inr (Or.inr (by decide))))⟩

/-- C15: for a user with an email or an id, two create requests that differ only
in the body's `creator` have the same outcome, and a stored meeting's creator is
the user's email, or the user's id when the email is empty; the body's `creator`
is not stored. -/
theorem creator_ignores_body (s : Store) (u : User) (body : CreateBody)
    (c1 c2 : Option String) (newId : String) (now : Int)
    (hid : truthy (jsOr u.email u.id) = true) :
    createMeeting s (some u) { body with creator := c1 } newId now
      = createMeeting s (some u) { body with creator := c2 } newId now ∧
    ((createMeeting s (some u) { body with creator := c1 } newId now).2.status = 201 →
      ∃ m, (createMeeting s (some u) { body with creator := c1 } newId now).1.meetings
          = s.meetings ++ [m] ∧
        some m.creator = jsOr u.email u.id ∧
        (u.email = some m.creator ∨ (truthy u.email = false ∧ u.id = some m.creator))) := by
  have hcre : ∀ c, creatorOf (some u) c = jsOr u.email u.id :=
    fun c => creatorOf_identity c hid
  have hsame : ∀ c, createMeeting s (some u) { body with creator := c } newId now
      = createMeeting s (some u) body newId now := by
    intro c
    unfold createMeeting
    simp only [hcre]
    rfl
  refine ⟨(hsame c1).trans (hsame c2).symm, ?_⟩
  intro hok
  obtain ⟨creator, hcreator, -, -, -, heq⟩ := createMeeting_success hok
  rw [hcre] at hcreator
  rw [heq]
  refine ⟨_, rfl, hcreator.symm, ?_⟩
  show u.email = some creator ∨ (truthy u.email = false ∧ u.id = some creator)
  unfold jsOr at hcreator
  by_cases he : truthy u.email = true
  · rw [if_pos he] at hcreator
    exact Or.inl hcreator
  · rw [if_neg he] at hcreator
    exact Or.inr ⟨by simpa using he, hcreator⟩

/-- Alice sends a foreign creator in the body: the stored creator is her email. -/
theorem creator_ignores_body_witness :
    truthy (jsOr alice.email alice.id) = true ∧
    createMeeting ⟨[], []⟩ (some alice)
        { createBody with creator := some "mallory@example.com" } freshId 5
      = createMeeting ⟨[], []⟩ (some alice) { createBody with creator := none } freshId 5 ∧
    (createMeeting ⟨[], []⟩ (some alice)
        { createBody with creator := some "mallory@example.com" } freshId 5).1.meetings.map
          (fun m => m.creator) = ["alice@example.com"] :=
  ⟨by decide,
   (creator_ignores_body ⟨[], []⟩ alice createBody (some "mallory@example.com") none freshId 5
      (by decide)).1,
   by decide⟩

/-! ## Where the meetings of the next state come from -/

theorem findById_mem {ms : List Meeting} {id : String} {m : Meeting}
    (h : findById ms id = some m) : m ∈ ms :=
  List.mem_of_find?_eq_some h

theorem mem_replaceMeeting {ms : List Meeting} {m1 m : Meeting}
    (h : m ∈ replaceMeeting ms m1) : m ∈ ms ∨ m = m1 := by
  induction ms with
  | nil => simp [replaceMeeting] at h
  | cons x xs ih =>
    unfold replaceMeeting at h
    split at h
    · rcases List.mem_cons.1 h with h1 | h1
      · exact Or.inr h1
      · exact Or.inl (List.mem_cons_of_mem _ h1)
    · rcases List.mem_cons.1 h with h1 | h1
      · exact Or.inl (h1 ▸ List.mem_cons_self _ _)
      · rcases ih h1 with h2 | h2
        · exact Or.inl (List.mem_cons_of_mem _ h2)
        · exact Or.inr h2

theorem mem_deleteById {ms : List Meeting} {id : String} {m : Meeting}
    (h : m ∈ deleteById ms id) : m ∈ ms := by
  induction ms with
  | nil => simp [deleteById] at h
  | cons x xs ih =>
    unfold deleteById at h
    split at h
    · exact List.mem_cons_of_mem _ h
    · rcases List.mem_cons.1 h with h1 | h1
      · exact h1 ▸ List.mem_cons_self _ _
      · exact List.mem_cons_of_mem _ (ih h1)

theorem createMeeting_failure {s : Store} {user : Option User} {body : CreateBody}
    {newId : String} {now : Int} :
    (createMeeting s user body newId now).2.status ≠ 201 →
      (createMeeting s user body newId now).1 = s := by
  unfold createMeeting
  repeat' split
  all_goals first
    | exact fun _ => rfl
    | exact fun h => absurd rfl h

theorem registerForMeeting_failure {s : Store} {user : Option User} {id : String}
    {body : RegisterBody} {now : Int} :
    (registerForMeeting s user id body now).2.status ≠ 200 →
      (registerForMeeting s user id body now).1 = s := by
  unfold registerForMeeting
  dsimp only
  repeat' split
  all_goals first
    | exact fun _ => rfl
    | exact fun h => absurd rfl h

theorem joinMeeting_meetings (lib : DateLib) (s : Store) (user : Option User) (id : String)
    (body : JoinBody) (now : Int) :
    (joinMeeting lib s user id body now).1.meetings = s.meetings := by
  unfold joinMeeting
  dsimp only
  repeat' split
  all_goals rfl

/-- What a successful update did. -/
theorem updateMeeting_success {s : Store} {user : Option User} {id : String}
    {body : UpdateBody} {now : Int} (h : (updateMeeting s user id body now).2.status = 200) :
    ∃ oid m, castObjectId id = some oid ∧ findById s.meetings oid = some m ∧
      some m.creator = requesterEmail user body.email ∧ validPatch body = true ∧
      updateMeeting s user id body now =
        ({ s with meetings := replaceMeeting s.meetings (applyUpdate m body now) },
          ⟨200, .meeting "Meeting updated successfully" (applyUpdate m body now)⟩) := by
  unfold updateMeeting at h ⊢
  split at h
  · simp at h
  · rename_i oid hid
    split at h
    · simp at h
    · rename_i m hm
      split at h
      · simp at h
      · rename_i hcreator
        split at h
        · simp at h
        · rename_i hvalid
          have hvalid1 : validPatch body = true := by simpa using hvalid
          refine ⟨oid, m, hid, hm, by simpa using hcreator, hvalid1, ?_⟩
          simp [hm, hcreator, hvalid1]

/-- An update that is not answered 200 changes nothing. -/
theorem updateMeeting_failure {s : Store} {user : Option User} {id : String}
    {body : UpdateBody} {now : Int} :
    (updateMeeting s user id body now).2.status ≠ 200 →
      (updateMeeting s user id body now).1 = s := by
  unfold updateMeeting
  dsimp only
  repeat' split
  all_goals first
    | exact fun _ => rfl
    | exact fun h => absurd rfl h

/-- What a successful go-live did. -/
theorem goLiveMeeting_success {s : Store} {user : Option User} {id : String}
    {email : Option String} {now : Int}
    (h : (goLiveMeeting s user id email now).2.status = 200) :
    ∃ oid m, castObjectId id = some oid ∧ findById s.meetings oid = some m ∧
      some m.creator = requesterEmail user email ∧ validDocument (setLive m) = true ∧
      goLiveMeeting s user id email now =
        ({ s with meetings := saveMeeting s.meetings (setLive m) now },
          ⟨200, .message "Meeting is now live!"⟩) := by
  unfold goLiveMeeting at h ⊢
  split at h
  · simp at h
  · rename_i oid hid
    split at h
    · simp at h
    · rename_i m hm
      split at h
      · simp at h
      · rename_i hcreator
        split at h
        · simp at h
        · rename_i hvalid
          have hvalid1 : validDocument (setLive m) = true := by simpa using hvalid
          refine ⟨oid, m, hid, hm, by simpa using hcreator, hvalid1, ?_⟩
          simp [hm, hcreator, hvalid1]

/-- A go-live that is not answered 200 changes nothing. -/
theorem goLiveMeeting_failure {s : Store} {user : Option User} {id : String}
    {email : Option String} {now : Int} :
    (goLiveMeeting s user id email now).2.status ≠ 200 →
      (goLiveMeeting s user id email now).1 = s := by
  unfold goLiveMeeting
  repeat' split
  all_goals first
    | exact fun _ => rfl
    | exact fun h => absurd rfl h

theorem leaveMeeting_meetings (s : Store) (user : Option User) (id : String)
    (email : Option String) (now : Int) :
    (leaveMeeting s user id email now).1.meetings = s.meetings := by
  unfold leaveMeeting
  dsimp only
  repeat' split
  all_goals rfl

/-- Every meeting stored after a request was stored before it, or is the new
document of a create, or is a stored meeting with one valid registration pushed by
a register that found it not full, or with the body of an update that passed the
update validators applied, or set live by a go-live. -/
theorem handle_meeting_origin (lib : DateLib) (s : Store) (now : Int) (r : Request)
    (m1 : Meeting) (h : m1 ∈ (handle lib s now r).1.meetings) :
    m1 ∈ s.meetings ∨
    (∃ user body newId creator, r = .create user body newId ∧
      m1 = newMeeting body creator newId now ∧ validMeeting m1 = true) ∨
    (∃ user id body m registration, r = .register user id body ∧ m ∈ s.meetings ∧
      m.isFull = false ∧ validDocument (pushRegistration m registration) = true ∧
      m1 = preSave (pushRegistration m registration) now) ∨
    (∃ user id body m, r = .update user id body ∧ m ∈ s.meetings ∧
      some m.creator = requesterEmail user body.email ∧ validPatch body = true ∧
      m1 = applyUpdate m body now) ∨
    (∃ user id email m, r = .goLive user id email ∧ m ∈ s.meetings ∧
      some m.creator = requesterEmail user email ∧ validDocument (setLive m) = true ∧
      m1 = preSave (setLive m) now) := by
  cases r with
  | create user body newId =>
    cases user with
    | none => exact Or.inl h
    | some u =>
      simp only [handle, requireAuth] at h
      by_cases hok : (createMeeting s (some u) body newId now).2.status = 201
      · obtain ⟨creator, -, -, -, hvalid, heq⟩ := createMeeting_success hok
        rw [heq] at h
        rcases List.mem_append.1 h with h1 | h1
        · exact Or.inl h1
        · have hm1 : m1 = newMeeting body creator newId now := by simpa using h1
          exact Or.inr (Or.inl ⟨_, _, _, creator, rfl, hm1, hm1 ▸ hvalid⟩)
      · rw [createMeeting_failure hok] at h
        exact Or.inl h
  | register user id body =>
    cases user with
    | none => exact Or.inl h
    | some u =>
      simp only [handle, requireAuth] at h
      by_cases hok : (registerForMeeting s (some u) id body now).2.status = 200
      · obtain ⟨name, email, phone, oid, meeting, -, -, -, -, -, -, -, hfind, hfull, -, hvalid,
          heq⟩ := registerForMeeting_success hok
        rw [heq] at h
        rcases mem_replaceMeeting h with h1 | h1
        · exact Or.inl h1
        · exact Or.inr (Or.inr (Or.inl
            ⟨_, _, _, meeting, _, rfl, findById_mem hfind, hfull, hvalid, h1⟩))
      · rw [registerForMeeting_failure hok] at h
        exact Or.inl h
  | update user id body =>
    cases user with
    | none => exact Or.inl h
    | some u =>
      simp only [handle, requireAuth] at h
      by_cases hok : (updateMeeting s (some u) id body now).2.status = 200
      · obtain ⟨oid, meeting, -, hfind, hcreator, hvalid, heq⟩ := updateMeeting_success hok
        rw [heq] at h
        rcases mem_replaceMeeting h with h1 | h1
        · exact Or.inl h1
        · exact Or.inr (Or.inr (Or.inr (Or.inl
            ⟨_, _, _, meeting, rfl, findById_mem hfind, hcreator, hvalid, h1⟩)))
      · rw [updateMeeting_failure hok] at h
        exact Or.inl h
  | delete user id email =>
    cases user with
    | none => exact Or.inl h
    | some u =>
      simp only [handle, requireAuth] at h
      unfold deleteMeeting at h
      split at h
      · exact Or.inl h
      · split at h
        · exact Or.inl h
        · split at h
          · exact Or.inl h
          · exact Or.inl (mem_deleteById h)
  | join user id body =>
    cases user with
    | none => exact Or.inl h
    | some u =>
      simp only [handle, requireAuth, joinMeeting_meetings] at h
      exact Or.inl h
  | leave user id email =>
    cases user with
    | none => exact Or.inl h
    | some u =>
      simp only [handle, requireAuth, leaveMeeting_meetings] at h
      exact Or.inl h
  | goLive user id email =>
    cases user with
    | none => exact Or.inl h
    | some u =>
      simp only [handle, requireAuth] at h
      by_cases hok : (goLiveMeeting s (some u) id email now).2.status = 200
      · obtain ⟨oid, meeting, -, hfind, hcreator, hvalid, heq⟩ := goLiveMeeting_success hok
        rw [heq] at h
        rcases mem_replaceMeeting h with h1 | h1
        · exact Or.inl h1
        · exact Or.inr (Or.inr (Or.inr (Or.inr
            ⟨_, _, _, meeting, rfl, findById_mem hfind, hcreator, hvalid, h1⟩)))
      · rw [goLiveMeeting_failure hok] at h
        exact Or.inl h


/-! ## Stored documents are valid -/

/-- An update that passes the update validators keeps a valid document valid. -/
theorem validDocument_applyUpdate {m : Meeting} {b : UpdateBody} {now : Int}
    (hm : validDocument m = true) (hb : validPatch b = true) :
    validDocument (applyUpdate m b now) = true := by
  simp only [validDocument, validMeeting, validPatch, Bool.and_eq_true] at hm hb ⊢
  obtain ⟨⟨⟨⟨⟨⟨⟨⟨⟨⟨⟨m1, m2⟩, m3⟩, m4⟩, m5⟩, m6⟩, m7⟩, m8⟩, m9⟩, m10⟩, m11⟩, m12⟩ := hm
  obtain ⟨⟨⟨⟨⟨⟨⟨⟨⟨⟨b1, b2⟩, b3⟩, b4⟩, b5⟩, b6⟩, b7⟩, b8⟩, b9⟩, b10⟩, b11⟩ := hb
  refine ⟨⟨⟨⟨⟨⟨⟨⟨⟨⟨⟨?_, ?_⟩, ?_⟩, ?_⟩, ?_⟩, ?_⟩, ?_⟩, ?_⟩, ?_⟩, ?_⟩, ?_⟩, ?_⟩
  · cases h : b.title <;> simp_all [applyUpdate]
  · cases h : b.title <;> simp_all [applyUpdate]
  · cases h : b.description <;> simp_all [applyUpdate]
  · cases h : b.type <;> simp_all [applyUpdate]
  · cases h : b.date <;> simp_all [applyUpdate]
  · cases h : b.time <;> simp_all [applyUpdate]
  · cases h : b.language <;> simp_all [applyUpdate]
  · cases h : b.expert <;> simp_all [applyUpdate]
  · cases h : b.maxAttendees <;> simp_all [applyUpdate]
  · cases h : b.creator <;> simp_all [applyUpdate]
  · cases h : b.status <;> simp_all [applyUpdate]
  · cases h : b.registrations with
    | none => simpa [applyUpdate, h] using m12
    | some registrations =>
      rw [h] at b9
      have hall : ∀ r ∈ registrations, validRegistration r = true := by
        simpa using b9
      simp only [applyUpdate, h, Option.map_some', Option.getD_some, List.all_map,
        List.all_eq_true, Function.comp]
      exact fun r hr => validRegistration_cast (hall r hr)

/-- One request keeps every stored meeting a valid document of the schema. -/
theorem handle_valid_documents (lib : DateLib) (s : Store) (now : Int) (r : Request)
    (hs : ∀ m ∈ s.meetings, validDocument m = true) :
    ∀ m ∈ (handle lib s now r).1.meetings, validDocument m = true := by
  intro m1 hm1
  rcases handle_meeting_origin lib s now r m1 hm1 with h | h | h | h | h
  · exact hs m1 h
  · obtain ⟨user, body, newId, creator, -, hnew, hvalid⟩ := h
    unfold validDocument
    rw [hvalid, hnew]
    rfl
  · obtain ⟨user, id, body, m, registration, -, -, -, hvalid, hnew⟩ := h
    rw [hnew]
    exact hvalid
  · obtain ⟨user, id, body, m, -, hm, -, hpatch, hnew⟩ := h
    rw [hnew]
    exact validDocument_applyUpdate (hs m hm) hpatch
  · obtain ⟨user, id, email, m, -, -, -, hvalid, hnew⟩ := h
    rw [hnew]
    exact hvalid

/-- In every state reached from a store of valid documents, whatever the requests, every
stored meeting is a valid document of the schema. -/
theorem run_valid_documents (lib : DateLib) (requests : List (Int × Request)) :
    ∀ s : Store, (∀ m ∈ s.meetings, validDocument m = true) →
      ∀ m ∈ (run lib s requests).meetings, validDocument m = true := by
  induction requests with
  | nil => exact fun s hs => hs
  | cons r rest ih =>
    intro s hs
    exact ih _ (handle_valid_documents lib s r.1 r.2 hs)
/-! ## The capacity invariant over request sequences -/

/-- One request that names neither `maxAttendees` nor `registrations` in an update
keeps every stored `maxAttendees` an integer and every meeting within capacity. -/
theorem handle_within_capacity (lib : DateLib) (s : Store) (now : Int) (r : Request)
    (hs : ∀ m ∈ s.meetings, (∃ k : Int, m.maxAttendees = (k : ℚ)) ∧
      (m.registrations.length : ℚ) ≤ m.maxAttendees)
    (hr : namesCapacity r = false) :
    ∀ m ∈ (handle lib s now r).1.meetings, (∃ k : Int, m.maxAttendees = (k : ℚ)) ∧
      (m.registrations.length : ℚ) ≤ m.maxAttendees := by
  intro m1 hm1
  rcases handle_meeting_origin lib s now r m1 hm1 with h | h | h | h | h
  · exact hs m1 h
  · obtain ⟨user, body, newId, creator, -, hnew, hvalid⟩ := h
    have hmin : 1 ≤ m1.maxAttendees := by
      simp only [validMeeting, Bool.and_eq_true, decide_eq_true_eq] at hvalid
      exact hvalid.1.1.2
    have hregs : m1.registrations = [] := by rw [hnew]; rfl
    refine ⟨⟨body.maxAttendees.getD 100, by rw [hnew]; rfl⟩, ?_⟩
    rw [hregs]
    simp only [List.length_nil, Nat.cast_zero]
    linarith
  · obtain ⟨user, id, body, m, registration, -, hm, hfull, -, hnew⟩ := h
    simp only [Meeting.isFull, Meeting.registrationCount, decide_eq_false_iff_not, not_le]
      at hfull
    obtain ⟨⟨k, hk⟩, -⟩ := hs m hm
    rw [hnew]
    refine ⟨⟨k, hk⟩, ?_⟩
    simp only [preSave, pushRegistration, List.length_append, List.length_singleton,
      Nat.cast_add, Nat.cast_one]
    rw [hk] at hfull ⊢
    have hlt : ((m.registrations.length : Int) : ℚ) < (k : ℚ) := by simpa using hfull
    have hlt1 : (m.registrations.length : Int) < k := by exact_mod_cast hlt
    have hle : (m.registrations.length : Int) + 1 ≤ k := by omega
    exact_mod_cast hle
  · obtain ⟨user, id, body, m, hreq, hm, -, -, hnew⟩ := h
    rw [hreq] at hr
    have h1 : body.maxAttendees = none := by
      cases hb : body.maxAttendees with
      | none => rfl
      | some v => simp [namesCapacity, hb] at hr
    have h2 : body.registrations = none := by
      cases hb : body.registrations with
      | none => rfl
      | some v => simp [namesCapacity, hb] at hr
    rw [hnew]
    simp only [applyUpdate, h1, h2, Option.getD_none, Option.map_none']
    exact hs m hm
  · obtain ⟨user, id, email, m, -, hm, -, -, hnew⟩ := h
    rw [hnew]
    exact hs m hm

theorem run_within_capacity (lib : DateLib) (requests : List (Int × Request)) :
    ∀ s : Store,
      (∀ m ∈ s.meetings, (∃ k : Int, m.maxAttendees = (k : ℚ)) ∧
        (m.registrations.length : ℚ) ≤ m.maxAttendees) →
      (∀ r ∈ requests, namesCapacity r.2 = false) →
      ∀ m ∈ (run lib s requests).meetings, (∃ k : Int, m.maxAttendees = (k : ℚ)) ∧
        (m.registrations.length : ℚ) ≤ m.maxAttendees := by
  induction requests with
  | nil => exact fun s hs _ => hs
  | cons r rest ih =>
    intro s hs hr
    exact ih _ (handle_within_capacity lib s r.1 r.2 hs (hr r (List.mem_cons_self _ _)))
      (fun r1 h1 => hr r1 (List.mem_cons_of_mem _ h1))

/-- C16 (counterexample): from the empty store Alice creates a meeting, Bob
registers twice under two emails, and Alice updates the meeting with
`maxAttendees: 1`: the stored meeting then has two registrations and
`maxAttendees = 1`. -/
theorem capacity_broken_by_update :
    (run sampleLib ⟨[], []⟩
      [(5, .create (some alice) createBody freshId),
       (6, .register (some bob) freshId (registerBody "bob@example.com")),
       (7, .register (some bob) freshId (registerBody "bob@work.example")),
       (8, .update (some alice) freshId { emptyUpdate with maxAttendees := some 1 })]).meetings.map
        (fun m => (m.registrations.length, m.maxAttendees)) = [(2, 1)] := by
  decide

/-- C16 (amended): `registrations.length ≤ maxAttendees` holds for every meeting in
every state reached from the empty store by a sequence of requests in which no
update names `maxAttendees` or `registrations`. -/
theorem capacity_invariant (lib : DateLib) (requests : List (Int × Request))
    (hsafe : ∀ r ∈ requests, namesCapacity r.2 = false) :
    WithinCapacity (run lib ⟨[], []⟩ requests).meetings :=
  fun m hm => (run_within_capacity lib requests ⟨[], []⟩
    (fun _ h => absurd h (List.not_mem_nil _)) hsafe m hm).2

/-- A sequence with a create, two registrations, a go-live and an update of the
title keeps the invariant; the stored meeting has two registrations of 100. -/
theorem capacity_invariant_witness :
    (∀ r ∈ [((5 : Int), Request.create (some alice) createBody freshId),
       (6, .register (some bob) freshId (registerBody "bob@example.com")),
       (7, .register (some bob) freshId (registerBody "bob@work.example")),
       (8, .goLive (some alice) freshId none),
       (9, .update (some alice) freshId { emptyUpdate with title := some "Retirement" })],
      namesCapacity r.2 = false) ∧
    WithinCapacity (run sampleLib ⟨[], []⟩
      [(5, .create (some alice) createBody freshId),
       (6, .register (some bob) freshId (registerBody "bob@example.com")),
       (7, .register (some bob) freshId (registerBody "bob@work.example")),
       (8, .goLive (some alice) freshId none),
       (9, .update (some alice) freshId { emptyUpdate with title := some "Retirement" })]).meetings ∧
    (run sampleLib ⟨[], []⟩
      [(5, .create (some alice) createBody freshId),
       (6, .register (some bob) freshId (registerBody "bob@example.com")),
       (7, .register (some bob) freshId (registerBody "bob@work.example")),
       (8, .goLive (some alice) freshId none),
       (9, .update (some alice) freshId { emptyUpdate with title := some "Retirement" })]).meetings.map
        (fun m => (m.registrations.length, m.maxAttendees)) = [(2, 100)] :=
  ⟨by decide, capacity_invariant sampleLib _ (by decide), by decide⟩

/-! ## The status of a meeting -/

theorem run_status (lib : DateLib) (requests : List (Int × Request)) :
    ∀ s : Store, (∀ m ∈ s.meetings, m.status = "scheduled" ∨ m.status = "live") →
      (∀ r ∈ requests, namesStatus r.2 = false) →
      ∀ m ∈ (run lib s requests).meetings, m.status = "scheduled" ∨ m.status = "live" := by
  induction requests with
  | nil => exact fun s hs _ => hs
  | cons r rest ih =>
    intro s hs hr
    refine ih _ ?_ (fun r1 h1 => hr r1 (List.mem_cons_of_mem _ h1))
    intro m1 hm1
    rcases handle_meeting_origin lib s r.1 r.2 m1 hm1 with h | h | h | h | h
    · exact hs m1 h
    · obtain ⟨_, _, _, _, -, hnew, -⟩ := h
      exact Or.inl (by rw [hnew]; rfl)
    · obtain ⟨_, _, _, m, _, -, hm, -, -, hnew⟩ := h
      rw [hnew]
      exact hs m hm
    · obtain ⟨user, id, body, m, hreq, hm, -, -, hnew⟩ := h
      have hn := hr r (List.mem_cons_self _ _)
      rw [hreq] at hn
      have h1 : body.status = none := by
        cases hb : body.status with
        | none => rfl
        | some v => simp [namesStatus, hb] at hn
      rw [hnew]
      simp only [applyUpdate, h1, Option.getD_none]
      exact hs m hm
    · obtain ⟨_, _, _, _, -, -, -, -, hnew⟩ := h
      exact Or.inr (by rw [hnew]; rfl)

/-- C17 (counterexample): from the empty store Alice creates a meeting and updates it
with `status: 'completed'`: the stored meeting is completed, by an update and
without any go-live. -/
theorem status_set_by_update :
    (run sampleLib ⟨[], []⟩
      [(5, .create (some alice) createBody freshId),
       (6, .update (some alice) freshId { emptyUpdate with status := some "completed" })]).meetings.map
        (fun m => m.status) = ["completed"] ∧
    (run sampleLib ⟨[], []⟩
      [(5, .create (some alice) createBody freshId),
       (6, .update (some alice) freshId { emptyUpdate with status := some "cancelled" })]).meetings.map
        (fun m => m.status) = ["cancelled"] := by
  decide

/-- C17 (amended): a created meeting starts in status scheduled, whatever the
body holds. After any request, every stored meeting either has the id and the
status of a meeting stored before, or was just created (scheduled), or was set
live by a go-live that passed the creator check, or was given its status by an
update that passed the creator check and names status. From the empty store,
when no update names status, every meeting is scheduled or live in every state. -/
theorem status_changes :
    (∀ (s : Store) (user : Option User) (body : CreateBody) (newId : String) (now : Int),
      (createMeeting s user body newId now).2.status = 201 →
      ∃ m, (createMeeting s user body newId now).1.meetings = s.meetings ++ [m] ∧
        m.status = "scheduled") ∧
    (∀ (lib : DateLib) (s : Store) (now : Int) (r : Request) (m1 : Meeting),
      m1 ∈ (handle lib s now r).1.meetings →
      (∃ m ∈ s.meetings, m._id = m1._id ∧ m.status = m1.status) ∨
      (m1.status = "scheduled" ∧ ∃ user body newId, r = .create user body newId) ∨
      (m1.status = "live" ∧ ∃ user id email m, r = .goLive user id email ∧ m ∈ s.meetings ∧
        m._id = m1._id ∧ some m.creator = requesterEmail user email) ∨
      (∃ user id body m, r = .update user id body ∧ m ∈ s.meetings ∧ m._id = m1._id ∧
        some m.creator = requesterEmail user body.email ∧ body.status = some m1.status)) ∧
    (∀ (lib : DateLib) (requests : List (Int × Request)),
      (∀ r ∈ requests, namesStatus r.2 = false) →
      ∀ m ∈ (run lib ⟨[], []⟩ requests).meetings, m.status = "scheduled" ∨ m.status = "live") := by
  refine ⟨?_, ?_, ?_⟩
  · intro s user body newId now hok
    obtain ⟨creator, -, -, -, -, heq⟩ := createMeeting_success hok
    rw [heq]
    exact ⟨_, rfl, rfl⟩
  · intro lib s now r m1 hm1
    rcases handle_meeting_origin lib s now r m1 hm1 with h | h | h | h | h
    · exact Or.inl ⟨m1, h, rfl, rfl⟩
    · obtain ⟨user, body, newId, creator, hreq, hnew, -⟩ := h
      exact Or.inr (Or.inl ⟨by rw [hnew]; rfl, user, body, newId, hreq⟩)
    · obtain ⟨_, _, _, m, _, -, hm, -, -, hnew⟩ := h
      exact Or.inl ⟨m, hm, by rw [hnew]; rfl, by rw [hnew]; rfl⟩
    · obtain ⟨user, id, body, m, hreq, hm, hcreator, -, hnew⟩ := h
      cases hstatus : body.status with
      | none =>
        exact Or.inl ⟨m, hm, by rw [hnew]; rfl, by rw [hnew]; simp [applyUpdate, hstatus]⟩
      | some st =>
        refine Or.inr (Or.inr (Or.inr ⟨user, id, body, m, hreq, hm, by rw [hnew]; rfl, hcreator,
          ?_⟩))
        rw [hnew]
        simp [applyUpdate, hstatus]
    · obtain ⟨user, id, email, m, hreq, hm, hcreator, -, hnew⟩ := h
      exact Or.inr (Or.inr (Or.inl ⟨by rw [hnew]; rfl, user, id, email, m, hreq, hm,
        by rw [hnew]; rfl, hcreator⟩))
  · intro lib requests hsafe
    exact run_status lib requests ⟨[], []⟩ (fun _ h => absurd h (List.not_mem_nil _)) hsafe

/-- Alice creates a meeting (scheduled) and sets it live; Bob's go-live changes nothing. -/
theorem status_changes_witness :
    (createMeeting ⟨[], []⟩ (some alice) createBody freshId 5).2.status = 201 ∧
    (∃ m, (createMeeting ⟨[], []⟩ (some alice) createBody freshId 5).1.meetings = [] ++ [m] ∧
      m.status = "scheduled") ∧
    (run sampleLib ⟨[], []⟩
      [(5, .create (some alice) createBody freshId),
       (6, .goLive (some bob) freshId none)]).meetings.map (fun m => m.status) = ["scheduled"] ∧
    (run sampleLib ⟨[], []⟩
      [(5, .create (some alice) createBody freshId),
       (6, .goLive (some alice) freshId none)]).meetings.map (fun m => m.status) = ["live"] :=
  ⟨by decide, status_changes.1 ⟨[], []⟩ (some alice) createBody freshId 5 (by decide),
    by decide, by decide⟩

/-! ## Updating a meeting -/

/-- C18 (counterexample): Alice, the creator of the sample meeting, sends an update
that names `status` with a value outside the enum: the answer is 500 and the stored
meeting keeps its status. An update of an id that is not a well-formed `ObjectId` is
answered with 500, not with 404. A padded title is stored trimmed, and a `createdAt`
named in the update is not stored. -/
theorem update_ignores_invalid_patch :
    updateMeeting sampleStore (some alice) sampleId
        { emptyUpdate with status := some "bogus" } 9
      = (sampleStore, ⟨500, .error "Internal server error"⟩) ∧
    updateMeeting sampleStore (some alice) "m7" emptyUpdate 9
      = (sampleStore, ⟨500, .error "Internal server error"⟩) ∧
    (updateMeeting sampleStore (some alice) sampleId
        { emptyUpdate with title := some " Tax planning 2 " } 9).1.meetings.map
          (fun m => m.title) = ["Tax planning 2"] ∧
    (updateMeeting sampleStore (some alice) sampleId
        { emptyUpdate with createdAt := some 7 } 9).2.status = 200 ∧
    (updateMeeting sampleStore (some alice) sampleId
        { emptyUpdate with createdAt := some 7 } 9).1.meetings.map
          (fun m => m.createdAt) = [sampleMeeting.createdAt] ∧
    sampleMeeting.createdAt ≠ 7 := by
  decide

/-- C18 (amended): `updateMeeting` answers 404 'Meeting not found' for a
well-formed id that is absent. When the requester passes the creator check and the
body passes the update validators, it stores and returns the meeting in which every
field the body names has the body's value as the setters of the schema leave it
(trimmed for title, description, topics, expert, joinUrl and recordingUrl, cast for
registrations) and every other field is unchanged, except `createdAt`, which is
kept also when the body names it, and `updatedAt`, which is the current instant also
when the body names it. -/
theorem update_merges (s : Store) (user : Option User) (id oid : String) (body : UpdateBody)
    (now : Int) (hid : castObjectId id = some oid) :
    (findById s.meetings oid = none →
      updateMeeting s user id body now = (s, ⟨404, .error "Meeting not found"⟩)) ∧
    (∀ m, findById s.meetings oid = some m → some m.creator = requesterEmail user body.email →
      validPatch body = true →
      ∃ m1, updateMeeting s user id body now
          = (⟨replaceMeeting s.meetings m1, s.attendance⟩,
              ⟨200, .meeting "Meeting updated successfully" m1⟩) ∧
        findById (updateMeeting s user id body now).1.meetings oid = some m1 ∧
        m1._id = m._id ∧ m1.updatedAt = now ∧ m1.createdAt = m.createdAt ∧
        m1.title = (body.title.map jsTrim).getD m.title ∧
        m1.description = (body.description.map jsTrim).getD m.description ∧
        m1.type = body.type.getD m.type ∧
        m1.date = body.date.getD m.date ∧
        m1.time = body.time.getD m.time ∧
        m1.duration = body.duration.getD m.duration ∧
        m1.language = body.language.getD m.language ∧
        m1.topics = (body.topics.map (fun topics => topics.map jsTrim)).getD m.topics ∧
        m1.expert = (body.expert.map jsTrim).getD m.expert ∧
        m1.joinUrl = (body.joinUrl.map jsTrim).getD m.joinUrl ∧
        (∀ url, body.recordingUrl = some url → m1.recordingUrl = some (jsTrim url)) ∧
        (body.recordingUrl = none → m1.recordingUrl = m.recordingUrl) ∧
        m1.maxAttendees = body.maxAttendees.getD m.maxAttendees ∧
        m1.registrations =
          (body.registrations.map (fun registrations => registrations.map castRegistration)).getD
            m.registrations ∧
        m1.creator = body.creator.getD m.creator ∧
        m1.status = body.status.getD m.status ∧
        m1.isPublic = body.isPublic.getD m.isPublic) := by
  constructor
  · intro hnone
    simp only [updateMeeting, hid, hnone]
  · intro m hm hcreator hvalid
    have hcheck : (some m.creator != requesterEmail user body.email) = false := by
      simp [hcreator]
    have heq : updateMeeting s user id body now
        = (⟨replaceMeeting s.meetings (applyUpdate m body now), s.attendance⟩,
            ⟨200, .meeting "Meeting updated successfully" (applyUpdate m body now)⟩) := by
      simp only [updateMeeting, hid, hm, hcheck, hvalid, Bool.false_eq_true, if_false,
        Bool.not_true]
    refine ⟨applyUpdate m body now, heq, ?_, rfl, rfl, rfl, rfl, rfl, rfl, rfl, rfl, rfl, rfl,
      rfl, rfl, rfl, ?_, ?_, rfl, rfl, rfl, rfl, rfl⟩
    · rw [heq]
      have hid0 : m._id = oid := findById_id hm
      have hid1 : (applyUpdate m body now)._id = oid := hid0
      exact findById_replaceMeeting hm hid1
    · intro url hurl
      simp [applyUpdate, hurl]
    · intro hurl
      simp [applyUpdate, hurl]

/-- Alice renames the sample meeting and sends an `updatedAt` of her own: the title
is stored and `updatedAt` is the instant of the request; an update of a well-formed
unknown id is answered with 404. -/
theorem update_merges_witness :
    castObjectId otherId = some otherId ∧
    updateMeeting sampleStore (some alice) sampleId
        { emptyUpdate with title := some "Tax planning 2", updatedAt := some 1 } 9
      = (⟨[{ sampleMeeting with title := "Tax planning 2", updatedAt := 9 }], []⟩,
          ⟨200, .meeting "Meeting updated successfully"
            { sampleMeeting with title := "Tax planning 2", updatedAt := 9 }⟩) ∧
    (∃ m1, updateMeeting sampleStore (some alice) sampleId
        { emptyUpdate with title := some "Tax planning 2", updatedAt := some 1 } 9
      = (⟨replaceMeeting sampleStore.meetings m1, sampleStore.attendance⟩,
          ⟨200, .meeting "Meeting updated successfully" m1⟩) ∧
      m1.updatedAt = 9 ∧ m1.createdAt = sampleMeeting.createdAt) ∧
    updateMeeting sampleStore (some alice) otherId emptyUpdate 9
      = (sampleStore, ⟨404, .error "Meeting not found"⟩) :=
  ⟨by decide, by decide,
   ((update_merges sampleStore (some alice) sampleId sampleId
      { emptyUpdate with title := some "Tax planning 2", updatedAt := some 1 } 9
      (by decide)).2 sampleMeeting (by decide) (by decide) (by decide)).imp
      (fun _ h => ⟨h.1, h.2.2.2.1, h.2.2.2.2.1⟩),
   (update_merges sampleStore (some alice) otherId otherId emptyUpdate 9 (by decide)).1
     (by decide)⟩
/-! ## The live meeting -/

theorem mem_insertByTime {m x : Meeting} {l : List Meeting} :
    x ∈ insertByTime m l ↔ x = m ∨ x ∈ l := by
  induction l with
  | nil => simp [insertByTime]
  | cons y ys ih =>
    unfold insertByTime
    split
    · simp
    · simp only [List.mem_cons, ih]
      constructor
      · rintro (h | h | h)
        · exact Or.inr (Or.inl h)
        · exact Or.inl h
        · exact Or.inr (Or.inr h)
      · rintro (h | h | h)
        · exact Or.inr (Or.inl h)
        · exact Or.inl h
        · exact Or.inr (Or.inr h)

theorem mem_sortByTime {x : Meeting} {l : List Meeting} : x ∈ sortByTime l ↔ x ∈ l := by
  induction l with
  | nil => simp [sortByTime]
  | cons y ys ih => simp [sortByTime, mem_insertByTime, ih]

/-- C19 (counterexample): the store holds a meeting dated today, with status live,
which started at 10:00 and is asked for at 10:40, and `getLiveMeetings` answers the
empty object: the meeting is not public. -/
theorem getLive_ignores_private :
    ({ sampleMeeting with status := "live", isPublic := false } : Meeting).date
      = sampleLib.isoDate 1714560000000 ∧
    ({ sampleMeeting with status := "live", isPublic := false } : Meeting).status = "live" ∧
    meetingStart sampleLib { sampleMeeting with status := "live", isPublic := false }
      = some 1714557600000 ∧
    isLive sampleLib { sampleMeeting with status := "live", isPublic := false } 1714560000000
      = true ∧
    getLiveMeetings sampleLib
      ⟨[{ sampleMeeting with status := "live", isPublic := false }], []⟩ 1714560000000
      = ⟨200, .empty⟩ := by
  decide

/-- C19 (amended): at an instant that is not the exact start of a stored meeting,
`getLiveMeetings` returns a meeting if and only if the store holds a public meeting
dated today, with status scheduled or live, whose window from its start to two
hours later contains `now`; the meeting returned is one of these, sent with its
registration count; otherwise the answer is the empty object. -/
theorem getLive_iff (lib : DateLib) (s : Store) (now : Int)
    (hstart : ∀ m ∈ s.meetings, meetingStart lib m ≠ some now) :
    ((∃ m ∈ s.meetings, m.date = lib.isoDate now ∧ (m.status = "scheduled" ∨ m.status = "live") ∧
        m.isPublic = true ∧
        ∃ start, meetingStart lib m = some start ∧ start ≤ now ∧ now < start + 2 * 3600000) →
      ∃ m ∈ s.meetings, m.date = lib.isoDate now ∧ (m.status = "scheduled" ∨ m.status = "live") ∧
        m.isPublic = true ∧
        (∃ start, meetingStart lib m = some start ∧ start ≤ now ∧ now < start + 2 * 3600000) ∧
        getLiveMeetings lib s now = ⟨200, .liveMeeting m m.registrationCount⟩) ∧
    ((¬ ∃ m ∈ s.meetings, m.date = lib.isoDate now ∧
        (m.status = "scheduled" ∨ m.status = "live") ∧ m.isPublic = true ∧
        ∃ start, meetingStart lib m = some start ∧ start ≤ now ∧ now < start + 2 * 3600000) →
      getLiveMeetings lib s now = ⟨200, .empty⟩) := by
  have hwin : ∀ m ∈ s.meetings, (isLive lib m now = true ↔
      ∃ start, meetingStart lib m = some start ∧ start ≤ now ∧ now < start + 2 * 3600000) := by
    intro m hm
    rw [isLive_iff]
    constructor
    · rintro ⟨start, hs, h1, h2⟩
      exact ⟨start, hs, le_of_lt h1, h2⟩
    · rintro ⟨start, hs, h1, h2⟩
      refine ⟨start, hs, lt_of_le_of_ne h1 ?_, h2⟩
      intro heq
      exact hstart m hm (heq ▸ hs)
  have hmem : ∀ m, m ∈ (sortByTime (s.meetings.filter (fun m =>
        m.date == lib.isoDate now && (m.status == "scheduled" || m.status == "live") &&
          m.isPublic))).filter (fun m => isLive lib m now) ↔
      m ∈ s.meetings ∧ m.date = lib.isoDate now ∧
        (m.status = "scheduled" ∨ m.status = "live") ∧
        m.isPublic = true ∧
        ∃ start, meetingStart lib m = some start ∧ start ≤ now ∧ now < start + 2 * 3600000 := by
    intro m
    rw [List.mem_filter, mem_sortByTime, List.mem_filter]
    simp only [Bool.and_eq_true, Bool.or_eq_true, beq_iff_eq]
    constructor
    · rintro ⟨⟨hm, ⟨hd, hst⟩, hp⟩, hl⟩
      exact ⟨hm, hd, hst, hp, (hwin m hm).1 hl⟩
    · rintro ⟨hm, hd, hst, hp, hl⟩
      exact ⟨⟨hm, ⟨hd, hst⟩, hp⟩, (hwin m hm).2 hl⟩
  constructor
  · rintro ⟨m, hm, hcond⟩
    have hin := (hmem m).2 ⟨hm, hcond⟩
    unfold getLiveMeetings
    simp only
    cases hl : (sortByTime (s.meetings.filter (fun m =>
        m.date == lib.isoDate now && (m.status == "scheduled" || m.status == "live") &&
          m.isPublic))).filter (fun m => isLive lib m now) with
    | nil =>
      rw [hl] at hin
      exact absurd hin (List.not_mem_nil _)
    | cons m0 rest =>
      have h0 := (hmem m0).1 (hl ▸ List.mem_cons_self _ _)
      exact ⟨m0, h0.1, h0.2.1, h0.2.2.1, h0.2.2.2.1, h0.2.2.2.2, rfl⟩
  · intro hnone
    unfold getLiveMeetings
    simp only
    cases hl : (sortByTime (s.meetings.filter (fun m =>
        m.date == lib.isoDate now && (m.status == "scheduled" || m.status == "live") &&
          m.isPublic))).filter (fun m => isLive lib m now) with
    | nil => rfl
    | cons m0 rest =>
      have h0 := (hmem m0).1 (hl ▸ List.mem_cons_self _ _)
      exact absurd ⟨m0, h0⟩ hnone

/-- At 10:40 the list store has one public meeting inside its window, the sample
meeting, and returns it. No meeting of the list store starts at that instant. -/
theorem getLive_iff_witness :
    (∀ m ∈ listStore.meetings, meetingStart sampleLib m ≠ some 1714560000000) ∧
    getLiveMeetings sampleLib listStore 1714560000000
      = ⟨200, .liveMeeting sampleMeeting 0⟩ ∧
    (∃ m ∈ listStore.meetings, m.date = sampleLib.isoDate 1714560000000 ∧
        (m.status = "scheduled" ∨ m.status = "live") ∧ m.isPublic = true ∧
        (∃ start, meetingStart sampleLib m = some start ∧ start ≤ 1714560000000 ∧
          1714560000000 < start + 2 * 3600000) ∧
        getLiveMeetings sampleLib listStore 1714560000000
          = ⟨200, .liveMeeting m m.registrationCount⟩) :=
  ⟨by decide, by decide,
   (getLive_iff sampleLib listStore 1714560000000 (by decide)).1
      ⟨sampleMeeting, by decide, by decide, by decide, by decide,
        1714557600000, by decide, by decide, by decide⟩⟩
/-! ## The attendees of a meeting -/

/-- C20 (the code at the failing input): Eve registers for the sample meeting and
joins it at 10:01, which creates her attendance row for the meeting; Alice, the
creator, then lists the attendees and Eve's entry carries no attendance. The
comparison of a stored `userId` with the email of a registration is false for every
row, so every entry of every listing carries no attendance. The rest holds: on an
existing meeting the answer is 403 'Access denied' unless the requester's identity
is the stored creator, and the creator gets one entry for each registration, in the
order of the registrations. -/
theorem attendees_carry_no_attendance :
    (joinMeeting sampleLib
      (registerForMeeting sampleStore (some eve) sampleId eveBody 1714557000000).1
      (some eve) sampleId ⟨none, none, none⟩ 1714557660000).2.status = 200 ∧
    (joinMeeting sampleLib
      (registerForMeeting sampleStore (some eve) sampleId eveBody 1714557000000).1
      (some eve) sampleId ⟨none, none, none⟩ 1714557660000).1.attendance
        = [sampleAttendance eveId sampleId] ∧
    ((joinMeeting sampleLib
      (registerForMeeting sampleStore (some eve) sampleId eveBody 1714557000000).1
      (some eve) sampleId ⟨none, none, none⟩ 1714557660000).1.meetings.map
        (fun m => m.registrations.map (fun r => (r.userId, r.email)))) = [[(eveId, eveId)]] ∧
    getMeetingAttendees
      (joinMeeting sampleLib
        (registerForMeeting sampleStore (some eve) sampleId eveBody 1714557000000).1
        (some eve) sampleId ⟨none, none, none⟩ 1714557660000).1
      (some alice) sampleId none
        = ⟨200, .attendees
            [⟨mkRegistration (some eve) eveBody "Eve" eveId "555-0100"
                1714557000000, none⟩]⟩ ∧
    (∀ (s : Store) (user : Option User) (id : String) (email : Option String)
        (items : List AttendeeView),
      getMeetingAttendees s user id email = ⟨200, .attendees items⟩ →
      ∀ item ∈ items, item.attendance = none) ∧
    (∀ (s : Store) (user : Option User) (id oid : String) (email : Option String)
        (m : Meeting), castObjectId id = some oid → findById s.meetings oid = some m →
      (some m.creator ≠ requesterEmail user email →
        getMeetingAttendees s user id email = ⟨403, .error "Access denied"⟩) ∧
      (some m.creator = requesterEmail user email →
        ∃ items, getMeetingAttendees s user id email = ⟨200, .attendees items⟩ ∧
          items.map (fun item => item.registration) = m.registrations)) := by
  refine ⟨by decide, by decide, by decide, by decide, ?_, ?_⟩
  · intro s user id email items h item hitem
    unfold getMeetingAttendees at h
    split at h
    · simp at h
    · split at h
      · simp at h
      · split at h
        · simp at h
        · simp only [Response.mk.injEq, Body.attendees.injEq, true_and] at h
          rw [← h] at hitem
          obtain ⟨registration, -, hview⟩ := List.mem_map.1 hitem
          rw [← hview]
          simp [attendeeView, userIdIsEmail]
  · intro s user id oid email m hid hm
    constructor
    · intro hne
      have hcheck : (some m.creator != requesterEmail user email) = true := by
        simpa using hne
      simp only [getMeetingAttendees, hid, hm, hcheck, if_true]
    · intro hcreator
      have hcheck : (some m.creator != requesterEmail user email) = false := by
        simp [hcreator]
      refine ⟨m.registrations.map
        (attendeeView (s.attendance.filter (fun att => att.meetingId == m._id))), ?_, ?_⟩
      · simp only [getMeetingAttendees, hid, hm, hcheck, Bool.false_eq_true, if_false]
      · rw [List.map_map]
        exact List.map_id _
/-! ## Upcoming, live and archived are disjoint -/

theorem mem_returned_upcoming {lib : DateLib} {s : Store} {q : ListQuery} {now : Int}
    {m : Meeting} (h : m ∈ returnedMeetings (getUpcomingMeetings lib s q now)) :
    m ∈ s.meetings ∧ isUpcoming (lib.isoDate now) q m = true := by
  rw [returnedMeetings_upcoming] at h
  cases hp : paginate (skipOf q) (limitOf q)
      (sortWith dateTimeLe (s.meetings.filter (isUpcoming (lib.isoDate now) q))) with
  | none => simp [hp] at h
  | some page =>
    rw [hp, Option.getD_some] at h
    have hmem : m ∈ s.meetings.filter (isUpcoming (lib.isoDate now) q) :=
      (sortWith_perm _ _).subset ((paginate_sublist hp).subset h)
    exact List.mem_filter.1 hmem

theorem mem_returned_archived {lib : DateLib} {s : Store} {q : ListQuery} {now : Int}
    {m : Meeting} (h : m ∈ returnedMeetings (getArchivedMeetings lib s q now)) :
    m ∈ s.meetings ∧ isArchived (lib.isoDate now) q m = true := by
  rw [returnedMeetings_archived] at h
  cases hp : paginate (skipOf q) (limitOf q)
      (sortWith (fun a b => dateTimeLe b a)
        (s.meetings.filter (isArchived (lib.isoDate now) q))) with
  | none => simp [hp] at h
  | some page =>
    rw [hp, Option.getD_some] at h
    have hmem : m ∈ s.meetings.filter (isArchived (lib.isoDate now) q) :=
      (sortWith_perm _ _).subset ((paginate_sublist hp).subset h)
    exact List.mem_filter.1 hmem

/-- The meeting `getLiveMeetings` sends passed its query and its live test. -/
theorem getLive_returned {lib : DateLib} {s : Store} {now : Int} {m : Meeting} {n : Nat}
    (h : getLiveMeetings lib s now = ⟨200, .liveMeeting m n⟩) :
    m ∈ s.meetings ∧ m.date = lib.isoDate now ∧
      (m.status = "scheduled" ∨ m.status = "live") ∧ m.isPublic = true ∧
      isLive lib m now = true := by
  unfold getLiveMeetings at h
  simp only at h
  split at h
  · rename_i m0 rest hl
    have hm0 : m0 = m := by
      injection h with _ hbody
      injection hbody
    subst hm0
    have hin : m0 ∈ (sortByTime (s.meetings.filter (fun m =>
        m.date == lib.isoDate now && (m.status == "scheduled" || m.status == "live") &&
          m.isPublic))).filter (fun m => isLive lib m now) := by
      rw [hl]
      exact List.mem_cons_self _ _
    rw [List.mem_filter, mem_sortByTime, List.mem_filter] at hin
    simp only [Bool.and_eq_true, Bool.or_eq_true, beq_iff_eq] at hin
    exact ⟨hin.1.1, hin.1.2.1.1, hin.1.2.1.2, hin.1.2.2, hin.2⟩
  · injection h with _ hbody
    cases hbody

/-- A meeting that passes the upcoming query fails the archive query of the same
day, whatever the language and type filters. -/
theorem isUpcoming_not_isArchived {today : String} {q1 q2 : ListQuery} {m : Meeting}
    (h : isUpcoming today q1 m = true) : isArchived today q2 m = false := by
  simp only [isUpcoming, Bool.and_eq_true, beq_iff_eq] at h
  obtain ⟨⟨⟨⟨hdate, hstatus⟩, -⟩, -⟩, -⟩ := h
  have hlt : strLt m.date today = false := by
    unfold strLt
    unfold strLe at hdate
    rw [hdate]
    rfl
  have hcompleted : (m.status == "completed") = false := by
    rw [hstatus]
    decide
  simp [isArchived, hlt, hcompleted]

/-- C26: the upcoming query and the archive query exclude each other: a meeting
that passes the upcoming query for a day (date ≥ today, status scheduled) fails the
archive query for that day (date < today or status completed), whatever the
filters; so no meeting is returned by both `getUpcomingMeetings` and
`getArchivedMeetings` at two instants of one day. -/
theorem upcoming_archived_exclusive (lib : DateLib) (s : Store) (q1 q2 : ListQuery)
    (now1 now2 : Int) (htoday : lib.isoDate now1 = lib.isoDate now2) :
    (∀ m, isUpcoming (lib.isoDate now1) q1 m = true →
      isArchived (lib.isoDate now2) q2 m = false) ∧
    (∀ m, isArchived (lib.isoDate now2) q2 m = true →
      isUpcoming (lib.isoDate now1) q1 m = false) ∧
    ∀ m, m ∈ returnedMeetings (getUpcomingMeetings lib s q1 now1) →
      m ∉ returnedMeetings (getArchivedMeetings lib s q2 now2) := by
  refine ⟨?_, ?_, ?_⟩
  · intro m h
    rw [← htoday]
    exact isUpcoming_not_isArchived h
  · intro m h
    cases hu : isUpcoming (lib.isoDate now1) q1 m with
    | false => rfl
    | true =>
      have := @isUpcoming_not_isArchived _ q1 q2 m hu
      rw [htoday, h] at this
      cases this
  · intro m hup harch
    have h1 := @isUpcoming_not_isArchived _ q1 q2 m (mem_returned_upcoming hup).2
    rw [htoday, (mem_returned_archived harch).2] at h1
    cases h1

/-- At 10:00 and at 11:00 of the sample day the list store returns the sample
meeting and the later meeting as upcoming and the past meeting as archived. -/
theorem upcoming_archived_exclusive_witness :
    sampleLib.isoDate 1714557600000 = sampleLib.isoDate 1714561200000 ∧
    returnedMeetings (getUpcomingMeetings sampleLib listStore noQuery 1714557600000)
      = [sampleMeeting, laterMeeting] ∧
    returnedMeetings (getArchivedMeetings sampleLib listStore noQuery 1714561200000)
      = [pastMeeting] ∧
    ∀ m, m ∈ returnedMeetings (getUpcomingMeetings sampleLib listStore noQuery 1714557600000) →
      m ∉ returnedMeetings (getArchivedMeetings sampleLib listStore noQuery 1714561200000) :=
  ⟨by decide, by decide, by decide,
    (upcoming_archived_exclusive sampleLib listStore noQuery noQuery 1714557600000
      1714561200000 (by decide)).2.2⟩

/-- With distinct identifiers the written document is the only one of the new
collection with its identifier. -/
theorem replaceMeeting_unique {ms : List Meeting} {m1 x : Meeting} (hu : UniqueIds ms)
    (hx : x ∈ replaceMeeting ms m1) (hid : x._id = m1._id) : x = m1 := by
  unfold UniqueIds at hu
  induction ms with
  | nil => simp [replaceMeeting] at hx
  | cons y ys ih =>
    rw [List.map_cons, List.nodup_cons] at hu
    unfold replaceMeeting at hx
    split at hx
    · rename_i hy
      rcases List.mem_cons.1 hx with h | h
      · exact h
      · have hy1 : y._id = m1._id := by simpa using hy
        exact absurd (List.mem_map.2 ⟨x, h, hid.trans hy1.symm⟩) hu.1
    · rename_i hy
      rcases List.mem_cons.1 hx with h | h
      · subst h
        simp [hid] at hy
      · exact ih hu.2 h

/-- A meeting with status live and a date after today is in no listing. -/
theorem live_future_unlisted {lib : DateLib} {s : Store} {q : ListQuery} {now : Int}
    {m : Meeting} (hstatus : m.status = "live")
    (hfuture : strLt (lib.isoDate now) m.date = true) :
    m ∉ returnedMeetings (getUpcomingMeetings lib s q now) ∧
    (∀ n, getLiveMeetings lib s now ≠ ⟨200, .liveMeeting m n⟩) ∧
    m ∉ returnedMeetings (getArchivedMeetings lib s q now) := by
  obtain ⟨hle, hne⟩ := (strLt_iff _ _).1 hfuture
  refine ⟨?_, ?_, ?_⟩
  · intro h
    have hq := (mem_returned_upcoming h).2
    simp only [isUpcoming, Bool.and_eq_true, beq_iff_eq] at hq
    rw [hstatus] at hq
    exact absurd hq.1.1.1.2 (by decide)
  · intro n h
    exact hne (getLive_returned h).2.1.symm
  · intro h
    have hq := (mem_returned_archived h).2
    have hlt : strLt m.date (lib.isoDate now) = false := by
      unfold strLt
      unfold strLe at hle
      rw [hle]
      rfl
    have hcompleted : (m.status == "completed") = false := by
      rw [hstatus]
      decide
    simp [isArchived, hlt, hcompleted] at hq

/-- C27: a meeting with status live and a date after today is returned by none of
`getUpcomingMeetings`, `getLiveMeetings` and `getArchivedMeetings`. So after a
successful go-live on a stored meeting dated after today, the stored document is
the meeting with status live, and with distinct identifiers no meeting with this
identifier (the `ObjectId` the request names) is in the upcoming list, the live
answer or the archive. -/
theorem live_future_meeting_unlisted (lib : DateLib) (s : Store) (user : Option User)
    (id oid : String) (email : Option String) (t now : Int) (q : ListQuery) (m : Meeting)
    (hunique : UniqueIds s.meetings)
    (hcast : castObjectId id = some oid)
    (hm : findById s.meetings oid = some m)
    (hfuture : strLt (lib.isoDate now) m.date = true)
    (hok : (goLiveMeeting s user id email t).2.status = 200) :
    (∀ (s0 : Store) (x : Meeting), x.status = "live" → x.date = m.date →
      x ∉ returnedMeetings (getUpcomingMeetings lib s0 q now) ∧
      (∀ n, getLiveMeetings lib s0 now ≠ ⟨200, .liveMeeting x n⟩) ∧
      x ∉ returnedMeetings (getArchivedMeetings lib s0 q now)) ∧
    findById (goLiveMeeting s user id email t).1.meetings oid
      = some (preSave { m with status := "live" } t) ∧
    (∀ x ∈ returnedMeetings (getUpcomingMeetings lib (goLiveMeeting s user id email t).1 q now),
      x._id ≠ oid) ∧
    (∀ x n, getLiveMeetings lib (goLiveMeeting s user id email t).1 now
      = ⟨200, .liveMeeting x n⟩ → x._id ≠ oid) ∧
    (∀ x ∈ returnedMeetings (getArchivedMeetings lib (goLiveMeeting s user id email t).1 q now),
      x._id ≠ oid) := by
  have hid : m._id = oid := findById_id hm
  have hstate : (goLiveMeeting s user id email t).1
      = { s with meetings := saveMeeting s.meetings { m with status := "live" } t } := by
    obtain ⟨oid1, m1, hcast1, hm1, -, -, heq⟩ := goLiveMeeting_success hok
    rw [hcast] at hcast1
    cases hcast1
    rw [hm] at hm1
    cases hm1
    rw [heq]
    rfl
  have hlisted : ∀ x, x ∈ (goLiveMeeting s user id email t).1.meetings → x._id = oid →
      x = preSave { m with status := "live" } t := by
    intro x hx hxid
    rw [hstate] at hx
    exact replaceMeeting_unique hunique hx (hxid.trans hid.symm)
  have hnone := @live_future_unlisted lib (goLiveMeeting s user id email t).1 q now
    (preSave { m with status := "live" } t) rfl hfuture
  refine ⟨?_, ?_, ?_, ?_, ?_⟩
  · intro s0 x hx hdate
    exact live_future_unlisted hx (by rw [hdate]; exact hfuture)
  · rw [hstate]
    exact findById_saveMeeting hm hid
  · intro x hx hxid
    have := hlisted x (mem_returned_upcoming hx).1 hxid
    subst this
    exact hnone.1 hx
  · intro x n hx hxid
    have := hlisted x (getLive_returned hx).1 hxid
    subst this
    exact hnone.2.1 n hx
  · intro x hx hxid
    have := hlisted x (mem_returned_archived hx).1 hxid
    subst this
    exact hnone.2.2 hx

/-- The creator of the later meeting (dated two days after the sample day) makes it
live: it leaves the upcoming list, and the live answer and the archive do not hold
it. -/
theorem live_future_meeting_unlisted_witness :
    strLt (sampleLib.isoDate 1714561200000) laterMeeting.date = true ∧
    returnedMeetings (getUpcomingMeetings sampleLib listStore noQuery 1714561200000)
      = [sampleMeeting, laterMeeting] ∧
    returnedMeetings (getUpcomingMeetings sampleLib
      (goLiveMeeting listStore (some alice) laterId none 1714557000000).1 noQuery 1714561200000)
      = [sampleMeeting] ∧
    getLiveMeetings sampleLib (goLiveMeeting listStore (some alice) laterId none 1714557000000).1
      1714561200000 = ⟨200, .liveMeeting sampleMeeting 0⟩ ∧
    returnedMeetings (getArchivedMeetings sampleLib
      (goLiveMeeting listStore (some alice) laterId none 1714557000000).1 noQuery 1714561200000)
      = [pastMeeting] ∧
    findById (goLiveMeeting listStore (some alice) laterId none 1714557000000).1.meetings laterId
      = some (preSave { laterMeeting with status := "live" } 1714557000000) :=
  ⟨by decide, by decide, by decide, by decide, by decide,
    (live_future_meeting_unlisted sampleLib listStore (some alice) laterId laterId none
      1714557000000 1714561200000 noQuery laterMeeting (by unfold UniqueIds; decide) (by decide)
      (by decide) (by decide) (by decide)).2.1⟩

/-! ## Registration does not read the schedule -/

/-- The answer of `registerForMeeting` on a stored meeting, from the registrations,
the capacity and the validity of that meeting alone. -/
theorem registerForMeeting_response {s : Store} {user : Option User} {id oid : String}
    {body : RegisterBody} {now : Int} {m : Meeting} (hid : castObjectId id = some oid)
    (hm : findById s.meetings oid = some m) :
    (registerForMeeting s user id body now).2 =
      match body.name, body.email, body.phone with
      | some name, some email, some phone =>
        if name == "" || email == "" || phone == "" then
          ⟨400, .error "Name, email, and phone are required"⟩
        else if decide (m.maxAttendees ≤ (m.registrations.length : ℚ)) then
          ⟨400, .error "Meeting is full"⟩
        else
          match m.registrations.find? (fun reg => reg.email == email) with
          | some _ => ⟨400, .error "You are already registered for this meeting"⟩
          | none =>
            if !(validMeeting m &&
                (m.registrations ++
                  [castRegistration (mkRegistration user body name email phone now)]).all
                    validRegistration) then
              ⟨500, .error "Internal server error"⟩
            else
              ⟨200, .registered "Registration successful"
                (mkRegistration user body name email phone now)⟩
      | _, _, _ => ⟨400, .error "Name, email, and phone are required"⟩ := by
  unfold registerForMeeting
  split
  · rename_i name email phone hn he hp
    simp only [hid, hm]
    split
    · rfl
    · have hfull : m.isFull = decide (m.maxAttendees ≤ (m.registrations.length : ℚ)) := by
        simp [Meeting.isFull, Meeting.registrationCount]
      rw [hfull]
      split
      · rfl
      · split
        · rfl
        · have hdoc : validDocument (pushRegistration m
              (castRegistration (mkRegistration user body name email phone now)))
              = (validMeeting m &&
                (m.registrations ++
                  [castRegistration (mkRegistration user body name email phone now)]).all
                    validRegistration) := rfl
          rw [hdoc]
          split <;> rfl
  · rfl

/-- C29 (counterexample): a cancelled meeting of an earlier day that is not full
and holds no registration with Bob's email. Bob's request names an experience
outside the four levels of the schema: the capacity check and the duplicate check
pass, the validation of `meeting.save()` fails, the answer is 500 and nothing is
stored. -/
theorem register_invalid_on_cancelled :
    ({ pastMeeting with status := "cancelled" } : Meeting).isFull = false ∧
    ({ pastMeeting with status := "cancelled" } : Meeting).registrations.find?
      (fun reg => reg.email == "bob@example.com") = none ∧
    registerForMeeting ⟨[{ pastMeeting with status := "cancelled" }], []⟩ (some bob) pastId
        { registerBody "bob@example.com" with experience := some "guru" } 1714561200000
      = (⟨[{ pastMeeting with status := "cancelled" }], []⟩,
          ⟨500, .error "Internal server error"⟩) := by
  decide

/-- C29 (amended): the answer of `registerForMeeting` does not depend on the date,
the time or the status of the meeting: for two stored meetings, valid documents of
the schema, with the same `maxAttendees` and the same registrations, one request
gets the same answer. So a request with the three fields whose registration passes
the validators of the schema is accepted on a meeting that is not full and has no
registration with its email, whatever the date, time and status of the meeting, and
the registration is appended to it. -/
theorem register_ignores_schedule (s1 s2 : Store) (user : Option User)
    (id1 id2 oid1 oid2 : String) (body : RegisterBody) (now : Int) (m1 m2 : Meeting)
    (hid1 : castObjectId id1 = some oid1) (hid2 : castObjectId id2 = some oid2)
    (h1 : findById s1.meetings oid1 = some m1) (h2 : findById s2.meetings oid2 = some m2)
    (hv1 : validDocument m1 = true) (hv2 : validDocument m2 = true)
    (hmax : m1.maxAttendees = m2.maxAttendees)
    (hregs : m1.registrations = m2.registrations) :
    (registerForMeeting s1 user id1 body now).2 = (registerForMeeting s2 user id2 body now).2 ∧
    (∀ name email phone, body.name = some name → body.email = some email →
      body.phone = some phone → name ≠ "" → email ≠ "" → phone ≠ "" →
      validRegistration (mkRegistration user body name email phone now) = true →
      m1.isFull = false →
      m1.registrations.find? (fun reg => reg.email == email) = none →
      (registerForMeeting s1 user id1 body now).2
        = ⟨200, .registered "Registration successful"
            (mkRegistration user body name email phone now)⟩ ∧
      findById (registerForMeeting s1 user id1 body now).1.meetings oid1
        = some (preSave (pushRegistration m1
            (castRegistration (mkRegistration user body name email phone now))) now) ∧
      findById (registerForMeeting s2 user id2 body now).1.meetings oid2
        = some (preSave (pushRegistration m2
            (castRegistration (mkRegistration user body name email phone now))) now)) := by
  constructor
  · have hm1 : validMeeting m1 = true := by
      unfold validDocument at hv1
      exact (Bool.and_eq_true _ _ ▸ hv1).1
    have hm2 : validMeeting m2 = true := by
      unfold validDocument at hv2
      exact (Bool.and_eq_true _ _ ▸ hv2).1
    rw [registerForMeeting_response hid1 h1, registerForMeeting_response hid2 h2, hmax, hregs,
      hm1, hm2]
  · intro name email phone hn he hp hname hemail hphone hvalid hfull hdup
    have hfull2 : m2.isFull = false := by
      simpa [Meeting.isFull, Meeting.registrationCount, hmax, hregs] using hfull
    have hdup2 : m2.registrations.find? (fun reg => reg.email == email) = none := by
      rw [← hregs]
      exact hdup
    rw [registerForMeeting_accepts hid1 h1 hn he hp hname hemail hphone hfull hdup
        (validDocument_push hv1 hvalid),
      registerForMeeting_accepts hid2 h2 hn he hp hname hemail hphone hfull2 hdup2
        (validDocument_push hv2 hvalid)]
    have hm1 : m1._id = oid1 := findById_id h1
    have hm2 : m2._id = oid2 := findById_id h2
    have hi1 : (pushRegistration m1
        (castRegistration (mkRegistration user body name email phone now)))._id = oid1 := hm1
    have hi2 : (pushRegistration m2
        (castRegistration (mkRegistration user body name email phone now)))._id = oid2 := hm2
    exact ⟨rfl, findById_saveMeeting h1 hi1, findById_saveMeeting h2 hi2⟩

/-- The sample meeting and a cancelled meeting of an earlier day, with the same
capacity and no registrations, give Bob the same answer, an accepted registration,
and the cancelled meeting then holds his registration. -/
theorem register_ignores_schedule_witness :
    ({ pastMeeting with status := "cancelled" } : Meeting).status = "cancelled" ∧
    strLt ({ pastMeeting with status := "cancelled" } : Meeting).date
      (sampleLib.isoDate 1714561200000) = true ∧
    (registerForMeeting sampleStore (some bob) sampleId (registerBody "bob@example.com")
      1714561200000).2
      = (registerForMeeting ⟨[{ pastMeeting with status := "cancelled" }], []⟩ (some bob) pastId
          (registerBody "bob@example.com") 1714561200000).2 ∧
    (registerForMeeting ⟨[{ pastMeeting with status := "cancelled" }], []⟩ (some bob) pastId
      (registerBody "bob@example.com") 1714561200000).2
      = ⟨200, .registered "Registration successful"
          (mkRegistration (some bob) (registerBody "bob@example.com") "Bob" "bob@example.com"
            "555-0100" 1714561200000)⟩ ∧
    (registerForMeeting ⟨[{ pastMeeting with status := "cancelled" }], []⟩ (some bob) pastId
      (registerBody "bob@example.com") 1714561200000).1.meetings.map
        (fun m => (m.status, m.registrations.map (fun r => r.email)))
      = [("cancelled", ["bob@example.com"])] :=
  ⟨by decide, by decide,
    (register_ignores_schedule sampleStore ⟨[{ pastMeeting with status := "cancelled" }], []⟩
      (some bob) sampleId pastId sampleId pastId (registerBody "bob@example.com") 1714561200000
      sampleMeeting { pastMeeting with status := "cancelled" } (by decide) (by decide)
      (by decide) (by decide) (by decide) (by decide) (by decide) (by decide)).1,
    ((register_ignores_schedule ⟨[{ pastMeeting with status := "cancelled" }], []⟩ sampleStore
      (some bob) pastId sampleId pastId sampleId (registerBody "bob@example.com") 1714561200000
      { pastMeeting with status := "cancelled" } sampleMeeting (by decide) (by decide)
      (by decide) (by decide) (by decide) (by decide) (by decide) (by decide)).2
      "Bob" "bob@example.com" "555-0100" rfl rfl rfl (by decide) (by decide) (by decide)
      (by decide) (by decide) (by decide)).1,
    by decide⟩
/-! ## Joining again after leaving -/

/-- A registered requester whose attendance row is stored is told so when joining
a live meeting. -/
theorem joinMeeting_already_joined {lib : DateLib} {s : Store} {user : Option User}
    {id oid : String} {body : JoinBody} {now : Int} {m : Meeting} {a : Attendance}
    {userId : Option String}
    (hid : castObjectId id = some oid)
    (hm : findById s.meetings oid = some m)
    (hreg : m.registrations.any (fun reg => some reg.email == requesterEmail user body.email)
      = true)
    (hlive : isLive lib m now = true)
    (hq : castQueryId (requesterEmail user body.email) = some userId)
    (ha : findAttendance s.attendance userId oid = some a) :
    joinMeeting lib s user id body now
      = (s, ⟨400, .error "You have already joined this meeting"⟩) := by
  have hmid : m._id = oid := findById_id hm
  have htest : (!isAfter now (meetingStart lib m) || !isBefore now (meetingEnd lib m)) = false := by
    rw [join_test_eq, hlive]
    rfl
  unfold joinMeeting
  simp only [hid, hm, hmid, hq, ha, hreg, htest]
  rfl

/-- No join succeeds for a requester whose attendance row is stored. -/
theorem joinMeeting_fails_of_row {lib : DateLib} {s : Store} {user : Option User}
    {id oid : String} {body : JoinBody} {now : Int} {a : Attendance} {userId : Option String}
    (hid : castObjectId id = some oid)
    (hq : castQueryId (requesterEmail user body.email) = some userId)
    (ha : findAttendance s.attendance userId oid = some a) :
    (joinMeeting lib s user id body now).1 = s ∧
    (joinMeeting lib s user id body now).2.status ≠ 200 := by
  cases hm : findById s.meetings oid with
  | none =>
    simp [joinMeeting, hid, hm]
  | some m =>
    have h := @joinMeeting_refused_of_row lib s user id oid body now m a userId hid hm hq ha
    exact ⟨h.1, by rw [h.2]; decide⟩

/-- What a successful leave did. -/
theorem leaveMeeting_success {s : Store} {user : Option User} {id : String}
    {email : Option String} {now : Int}
    (h : (leaveMeeting s user id email now).2.status = 200) :
    ∃ userId oid a, castQueryId (requesterEmail user email) = some userId ∧
      castObjectId id = some oid ∧ findAttendance s.attendance userId oid = some a ∧
      leaveMeeting s user id email now
        = (⟨s.meetings, replaceAttendance s.attendance userId oid (markAsLeft a now)⟩,
            ⟨200, .left "Successfully left the meeting" (markAsLeft a now)⟩) := by
  cases hq : castQueryId (requesterEmail user email) with
  | none => simp [leaveMeeting, hq] at h
  | some userId =>
    cases hid : castObjectId id with
    | none => simp [leaveMeeting, hq, hid] at h
    | some oid =>
      cases ha : findAttendance s.attendance userId oid with
      | none => simp [leaveMeeting, hq, hid, ha] at h
      | some a => exact ⟨userId, oid, a, rfl, rfl, ha, leaveMeeting_found hq hid ha⟩

/-- With at most one row for each pair, a stored row is the only row of its pair. -/
theorem rows_of_pair {as : List Attendance} (hu : UniqueAttendance as) {a : Attendance}
    (ha : a ∈ as) :
    (as.filter (fun r => r.userId == a.userId && r.meetingId == a.meetingId)).length = 1 := by
  unfold UniqueAttendance at hu
  induction as with
  | nil => cases ha
  | cons x xs ih =>
    rw [List.map_cons, List.nodup_cons] at hu
    rcases List.mem_cons.1 ha with h | h
    · subst h
      have hrest : xs.filter (fun r => r.userId == a.userId && r.meetingId == a.meetingId) = [] := by
        rw [List.filter_eq_nil_iff]
        intro r hr hmatch
        simp only [Bool.and_eq_true, beq_iff_eq] at hmatch
        apply hu.1
        rw [List.mem_map]
        refine ⟨r, hr, ?_⟩
        unfold Attendance.key
        rw [hmatch.1, hmatch.2]
      rw [List.filter_cons_of_pos (by simp), hrest]
      rfl
    · have hx : ¬ ((x.userId == a.userId && x.meetingId == a.meetingId) = true) := by
        intro hmatch
        simp only [Bool.and_eq_true, beq_iff_eq] at hmatch
        apply hu.1
        rw [List.mem_map]
        refine ⟨a, h, ?_⟩
        unfold Attendance.key
        rw [hmatch.1, hmatch.2]
      rw [List.filter_cons, if_neg hx]
      exact ih hu.2 h

/-- C30: after a successful leave the attendance row of the requester and the
meeting is still stored (with status left), and the rows keep their pairs of user
and meeting, so the pair has exactly one row as before. A later join of the same
requester on this meeting therefore never succeeds and changes nothing; when the
meeting is stored, holds the requester's registration and is live, the answer is
400 'You have already joined this meeting'. The row is that of the requester's
email and the id of the request, both cast to `ObjectId`s. -/
theorem rejoin_after_leave (lib : DateLib) (s : Store) (user : Option User) (id : String)
    (email : Option String) (t : Int)
    (hunique : UniqueAttendance s.attendance)
    (hok : (leaveMeeting s user id email t).2.status = 200) :
    ∃ a oid, castObjectId id = some oid ∧
      castQueryId (requesterEmail user email) = some (some a.userId) ∧
      findAttendance s.attendance (some a.userId) oid = some a ∧ a.meetingId = oid ∧
      findAttendance (leaveMeeting s user id email t).1.attendance (some a.userId) oid
        = some (markAsLeft a t) ∧
      (leaveMeeting s user id email t).1.attendance.map Attendance.key
        = s.attendance.map Attendance.key ∧
      (s.attendance.filter (fun r => r.userId == a.userId && r.meetingId == oid)).length = 1 ∧
      ((leaveMeeting s user id email t).1.attendance.filter
        (fun r => r.userId == a.userId && r.meetingId == oid)).length = 1 ∧
      (∀ (body : JoinBody) (now : Int),
        requesterEmail user body.email = requesterEmail user email →
        (joinMeeting lib (leaveMeeting s user id email t).1 user id body now).1
          = (leaveMeeting s user id email t).1 ∧
        (joinMeeting lib (leaveMeeting s user id email t).1 user id body now).2.status ≠ 200) ∧
      (∀ (body : JoinBody) (now : Int) (m : Meeting),
        requesterEmail user body.email = requesterEmail user email →
        findById (leaveMeeting s user id email t).1.meetings oid = some m →
        m.registrations.any (fun reg => some reg.email == requesterEmail user email) = true →
        isLive lib m now = true →
        joinMeeting lib (leaveMeeting s user id email t).1 user id body now
          = ((leaveMeeting s user id email t).1,
              ⟨400, .error "You have already joined this meeting"⟩)) := by
  obtain ⟨userId, oid, a, hq, hid, ha, hleave⟩ := leaveMeeting_success hok
  have hmatch := findAttendance_matches ha
  have hkey : (some a.userId = userId) ∧ a.meetingId = oid := by
    simpa using hmatch
  obtain ⟨huser, hmeeting⟩ := hkey
  subst huser
  have hrow : findAttendance (leaveMeeting s user id email t).1.attendance
      (some a.userId) oid = some (markAsLeft a t) := by
    rw [hleave]
    exact findAttendance_replaceAttendance ha hmatch
  have hkeys : (leaveMeeting s user id email t).1.attendance.map Attendance.key
      = s.attendance.map Attendance.key := by
    rw [hleave]
    exact replaceAttendance_keys ha rfl
  have hbefore := rows_of_pair hunique (List.mem_of_find?_eq_some ha)
  have hafter := rows_of_pair (@leave_preserves_unique s user id email t hunique)
    (List.mem_of_find?_eq_some hrow)
  rw [hmeeting] at hbefore
  have hid1 : (markAsLeft a t).meetingId = oid := hmeeting
  rw [hid1] at hafter
  refine ⟨a, oid, hid, hq, ha, hmeeting, hrow, hkeys, hbefore, hafter, ?_, ?_⟩
  · intro body now hbody
    have hq2 : castQueryId (requesterEmail user body.email) = some (some a.userId) := by
      rw [hbody]
      exact hq
    exact joinMeeting_fails_of_row hid hq2 hrow
  · intro body now m hbody hm hreg hlive
    have hq2 : castQueryId (requesterEmail user body.email) = some (some a.userId) := by
      rw [hbody]
      exact hq
    rw [← hbody] at hreg
    exact joinMeeting_already_joined hid hm hreg hlive hq2 hrow

/-- Eve, whose email is the text of an `ObjectId`, is registered for the sample
meeting and present since 10:01; she leaves at 10:30, her row stays, and her join
at 10:40, inside the live window, is answered 'You have already joined this
meeting'. -/
theorem rejoin_after_leave_witness :
    (leaveMeeting ⟨[sampleMeetingWith [sampleRegistration "Eve" eveId]],
        [sampleAttendance eveId sampleId]⟩ (some eve) sampleId none 1714559400000).2.status
      = 200 ∧
    (leaveMeeting ⟨[sampleMeetingWith [sampleRegistration "Eve" eveId]],
        [sampleAttendance eveId sampleId]⟩ (some eve) sampleId none 1714559400000).1
      = ⟨[sampleMeetingWith [sampleRegistration "Eve" eveId]],
          [markAsLeft (sampleAttendance eveId sampleId) 1714559400000]⟩ ∧
    isLive sampleLib (sampleMeetingWith [sampleRegistration "Eve" eveId])
      1714560000000 = true ∧
    joinMeeting sampleLib
      (leaveMeeting ⟨[sampleMeetingWith [sampleRegistration "Eve" eveId]],
        [sampleAttendance eveId sampleId]⟩ (some eve) sampleId none 1714559400000).1
      (some eve) sampleId ⟨none, none, none⟩ 1714560000000
      = (⟨[sampleMeetingWith [sampleRegistration "Eve" eveId]],
          [markAsLeft (sampleAttendance eveId sampleId) 1714559400000]⟩,
        ⟨400, .error "You have already joined this meeting"⟩) ∧
    ∃ (a : Attendance) (oid : String), castObjectId sampleId = some oid ∧
      castQueryId (requesterEmail (some eve) none) = some (some a.userId) :=
  ⟨by decide, by decide, by decide, by decide,
    (rejoin_after_leave sampleLib
      ⟨[sampleMeetingWith [sampleRegistration "Eve" eveId]],
        [sampleAttendance eveId sampleId]⟩ (some eve) sampleId none 1714559400000
      (by unfold UniqueAttendance; decide) (by decide)).imp
      (fun _ h => h.imp (fun _ h1 => ⟨h1.1, h1.2.1⟩))⟩
/-! ## Pages of a listing -/

/-- With a limit and a page of at least one, `.skip(skip).limit(limit)` keeps the
window of `limit` documents that starts after `(page - 1) * limit` documents. -/
theorem paginate_window (q : ListQuery) (l : List Meeting) (hL : 1 ≤ limitOf q)
    (hp : 1 ≤ q.page.getD 1) :
    paginate (skipOf q) (limitOf q) l
      = some ((l.drop ((q.page.getD 1 - 1) * limitOf q).toNat).take (limitOf q).toNat) := by
  have hskip : ¬ skipOf q < 0 := by
    unfold skipOf
    have : 0 ≤ (q.page.getD 1 - 1) * limitOf q := Int.mul_nonneg (by omega) (by omega)
    omega
  have hlimit : ¬ limitOf q = 0 := by omega
  have habs : (limitOf q).natAbs = (limitOf q).toNat := by omega
  unfold paginate
  rw [if_neg hskip, if_neg hlimit, habs]
  rfl

/-- Consecutive windows of `n` elements make up the list. -/
theorem windows_join {α : Type} (l : List α) (L n : Nat) :
    ((List.range n).map (fun i => (l.drop (i * L)).take L)).flatten = l.take (n * L) := by
  induction n with
  | zero => simp
  | succ k ih =>
    rw [List.range_succ, List.map_append, List.flatten_append, ih, Nat.succ_mul, List.take_add]
    simp

theorem upcoming_window (lib : DateLib) (s : Store) (q : ListQuery) (now : Int)
    (hL : 1 ≤ limitOf q) (hp : 1 ≤ q.page.getD 1) :
    returnedMeetings (getUpcomingMeetings lib s q now)
      = ((sortWith dateTimeLe (s.meetings.filter (isUpcoming (lib.isoDate now) q))).drop
          ((q.page.getD 1 - 1) * limitOf q).toNat).take (limitOf q).toNat := by
  rw [returnedMeetings_upcoming, paginate_window q _ hL hp, Option.getD_some]

theorem archived_window (lib : DateLib) (s : Store) (q : ListQuery) (now : Int)
    (hL : 1 ≤ limitOf q) (hp : 1 ≤ q.page.getD 1) :
    returnedMeetings (getArchivedMeetings lib s q now)
      = ((sortWith (fun a b => dateTimeLe b a)
          (s.meetings.filter (isArchived (lib.isoDate now) q))).drop
          ((q.page.getD 1 - 1) * limitOf q).toNat).take (limitOf q).toNat := by
  rw [returnedMeetings_archived, paginate_window q _ hL hp, Option.getD_some]

/-- The offset of page `i + 1` is `i` times the limit. -/
theorem page_offset (q : ListQuery) (i : Nat) (hL : 1 ≤ limitOf q) :
    (((({ q with page := some ((i : Int) + 1) } : ListQuery).page.getD 1 - 1)
      * limitOf { q with page := some ((i : Int) + 1) }).toNat) = i * (limitOf q).toNat := by
  have h1 : limitOf { q with page := some ((i : Int) + 1) } = limitOf q := rfl
  rw [h1]
  simp only [Option.getD_some, add_sub_cancel_right]
  obtain ⟨k, hk⟩ := Int.eq_ofNat_of_zero_le (show 0 ≤ limitOf q by omega)
  rw [hk]
  have hmul : (i : Int) * (k : Int) = ((i * k : Nat) : Int) := by
    push_cast
    rfl
  rw [hmul, Int.toNat_natCast, Int.toNat_natCast]

/-- C23: with a limit `L ≥ 1` and a page `p ≥ 1` (by default 20 and 1) the answer
of `getUpcomingMeetings` and of `getArchivedMeetings` is the window of the filtered,
sorted list at positions `(p - 1) * L` up to `p * L - 1`: the list with its first
`(p - 1) * L` elements dropped, cut to `L` elements. A page has at most `L`
elements, and the pages 1 to `n` in this order make up the first `n * L` elements
of the list, so all of it once `n * L` reaches its length. -/
theorem pagination_pages (lib : DateLib) (s : Store) (q : ListQuery) (now : Int)
    (hL : 1 ≤ limitOf q) (hp : 1 ≤ q.page.getD 1) :
    (q.limit = none → limitOf q = 20) ∧ (q.page = none → q.page.getD 1 = 1) ∧
    returnedMeetings (getUpcomingMeetings lib s q now)
      = ((sortWith dateTimeLe (s.meetings.filter (isUpcoming (lib.isoDate now) q))).drop
          ((q.page.getD 1 - 1) * limitOf q).toNat).take (limitOf q).toNat ∧
    returnedMeetings (getArchivedMeetings lib s q now)
      = ((sortWith (fun a b => dateTimeLe b a)
          (s.meetings.filter (isArchived (lib.isoDate now) q))).drop
          ((q.page.getD 1 - 1) * limitOf q).toNat).take (limitOf q).toNat ∧
    (returnedMeetings (getUpcomingMeetings lib s q now)).length ≤ (limitOf q).toNat ∧
    (returnedMeetings (getArchivedMeetings lib s q now)).length ≤ (limitOf q).toNat ∧
    (∀ n : Nat,
      ((List.range n).map (fun (i : Nat) => returnedMeetings
        (getUpcomingMeetings lib s { q with page := some ((i : Int) + 1) } now))).flatten
        = (sortWith dateTimeLe (s.meetings.filter (isUpcoming (lib.isoDate now) q))).take
            (n * (limitOf q).toNat) ∧
      ((List.range n).map (fun (i : Nat) => returnedMeetings
        (getArchivedMeetings lib s { q with page := some ((i : Int) + 1) } now))).flatten
        = (sortWith (fun a b => dateTimeLe b a)
            (s.meetings.filter (isArchived (lib.isoDate now) q))).take
            (n * (limitOf q).toNat)) ∧
    (∀ n : Nat, s.meetings.length ≤ n * (limitOf q).toNat →
      ((List.range n).map (fun (i : Nat) => returnedMeetings
        (getUpcomingMeetings lib s { q with page := some ((i : Int) + 1) } now))).flatten
        = sortWith dateTimeLe (s.meetings.filter (isUpcoming (lib.isoDate now) q)) ∧
      ((List.range n).map (fun (i : Nat) => returnedMeetings
        (getArchivedMeetings lib s { q with page := some ((i : Int) + 1) } now))).flatten
        = sortWith (fun a b => dateTimeLe b a)
            (s.meetings.filter (isArchived (lib.isoDate now) q))) := by
  have hup : ∀ n : Nat,
      ((List.range n).map (fun (i : Nat) => returnedMeetings
        (getUpcomingMeetings lib s { q with page := some ((i : Int) + 1) } now))).flatten
        = (sortWith dateTimeLe (s.meetings.filter (isUpcoming (lib.isoDate now) q))).take
            (n * (limitOf q).toNat) := by
    intro n
    rw [← windows_join]
    congr 1
    apply List.map_congr_left
    intro i _
    have hq := upcoming_window lib s { q with page := some ((i : Int) + 1) } now hL
      (by show (1 : Int) ≤ (i : Int) + 1; omega)
    rw [hq, page_offset q i hL]
    rfl
  have harch : ∀ n : Nat,
      ((List.range n).map (fun (i : Nat) => returnedMeetings
        (getArchivedMeetings lib s { q with page := some ((i : Int) + 1) } now))).flatten
        = (sortWith (fun a b => dateTimeLe b a)
            (s.meetings.filter (isArchived (lib.isoDate now) q))).take
            (n * (limitOf q).toNat) := by
    intro n
    rw [← windows_join]
    congr 1
    apply List.map_congr_left
    intro i _
    have hq := archived_window lib s { q with page := some ((i : Int) + 1) } now hL
      (by show (1 : Int) ≤ (i : Int) + 1; omega)
    rw [hq, page_offset q i hL]
    rfl
  refine ⟨fun h => by simp [limitOf, h], fun h => by simp [h],
    upcoming_window lib s q now hL hp, archived_window lib s q now hL hp, ?_, ?_,
    fun n => ⟨hup n, harch n⟩, ?_⟩
  · rw [upcoming_window lib s q now hL hp]
    exact List.length_take_le _ _
  · rw [archived_window lib s q now hL hp]
    exact List.length_take_le _ _
  · intro n hn
    rw [hup n, harch n]
    constructor
    · apply List.take_of_length_le
      rw [(sortWith_perm _ _).length_eq]
      exact le_trans (List.length_filter_le _ _) hn
    · apply List.take_of_length_le
      rw [(sortWith_perm _ _).length_eq]
      exact le_trans (List.length_filter_le _ _) hn

/-- With `limit=1` the list store sends the sample meeting as page 1 and the later
meeting as page 2 of the upcoming meetings, and the two pages make up the list. -/
theorem pagination_pages_witness :
    returnedMeetings (getUpcomingMeetings sampleLib listStore
      { noQuery with limit := some 1, page := some 1 } 1714561200000) = [sampleMeeting] ∧
    returnedMeetings (getUpcomingMeetings sampleLib listStore
      { noQuery with limit := some 1, page := some 2 } 1714561200000) = [laterMeeting] ∧
    returnedMeetings (getUpcomingMeetings sampleLib listStore noQuery 1714561200000)
      = [sampleMeeting, laterMeeting] ∧
    (returnedMeetings (getUpcomingMeetings sampleLib listStore
      { noQuery with limit := some 1, page := some 2 } 1714561200000)).length
      ≤ (limitOf { noQuery with limit := some 1, page := some 2 }).toNat :=
  ⟨by decide, by decide, by decide,
    (pagination_pages sampleLib listStore { noQuery with limit := some 1, page := some 2 }
      1714561200000 (by decide) (by decide)).2.2.2.2.1⟩

/-! ## Which live meeting is sent -/

theorem sortByTime_eq_sortWith (l : List Meeting) :
    sortByTime l = sortWith (fun a b => strLe a.time b.time) l := by
  have hinsert : ∀ (m : Meeting) (xs : List Meeting),
      insertByTime m xs = insertSorted (fun a b => strLe a.time b.time) m xs := by
    intro m xs
    induction xs with
    | nil => rfl
    | cons x xs ih =>
      unfold insertByTime insertSorted
      rw [ih]
      rfl
  induction l with
  | nil => rfl
  | cons x xs ih =>
    unfold sortByTime sortWith
    rw [ih, hinsert]

/-- The meeting `getLiveMeetings` sends has the least time, in the string order,
of the public meetings of today with status scheduled or live that are live. -/
theorem getLive_least_time {lib : DateLib} {s : Store} {now : Int} {m : Meeting} {n : Nat}
    (h : getLiveMeetings lib s now = ⟨200, .liveMeeting m n⟩) {x : Meeting}
    (hx : x ∈ s.meetings) (hdate : x.date = lib.isoDate now)
    (hstatus : x.status = "scheduled" ∨ x.status = "live") (hpublic : x.isPublic = true)
    (hlive : isLive lib x now = true) : strLe m.time x.time = true := by
  unfold getLiveMeetings at h
  simp only at h
  split at h
  · rename_i m0 rest hl
    have hm0 : m0 = m := by
      injection h with _ hbody
      injection hbody
    subst hm0
    have hsorted := sortWith_sorted (fun a b => strLe a.time b.time)
      (fun a b => strLe_total a.time b.time) (fun a b c => strLe_trans)
      (s.meetings.filter (fun m =>
        m.date == lib.isoDate now && (m.status == "scheduled" || m.status == "live") &&
          m.isPublic))
    rw [← sortByTime_eq_sortWith] at hsorted
    have hsub : ((sortByTime (s.meetings.filter (fun m =>
        m.date == lib.isoDate now && (m.status == "scheduled" || m.status == "live") &&
          m.isPublic))).filter (fun m => isLive lib m now)).Sublist _ := List.filter_sublist _
    have hpair := hsorted.sublist hsub
    rw [hl, List.pairwise_cons] at hpair
    have hin : x ∈ m0 :: rest := by
      rw [← hl, List.mem_filter, mem_sortByTime, List.mem_filter]
      simp only [Bool.and_eq_true, Bool.or_eq_true, beq_iff_eq]
      exact ⟨⟨hx, ⟨hdate, hstatus⟩, hpublic⟩, hlive⟩
    rcases List.mem_cons.1 hin with hxm | hxr
    · rw [hxm]
      rcases strLe_total m0.time m0.time with h0 | h0 <;> exact h0
    · exact hpair.1 x hxr
  · injection h with _ hbody
    cases hbody

/-- C28 (counterexample): two public scheduled meetings of the sample day are live
at 10:30, one starting at 09:30 with its time written 9:30 and one starting at
10:00; `getLiveMeetings` sends the one that starts at 10:00, because the string
10:00 sorts before the string 9:30. -/
theorem getLive_not_earliest :
    isLive looseLib earlyMeeting 1714559400000 = true ∧
    isLive looseLib sampleMeeting 1714559400000 = true ∧
    meetingStart looseLib earlyMeeting = some 1714555800000 ∧
    meetingStart looseLib sampleMeeting = some 1714557600000 ∧
    earlyMeeting.date = looseLib.isoDate 1714559400000 ∧
    earlyMeeting.status = "scheduled" ∧ earlyMeeting.isPublic = true ∧
    getLiveMeetings looseLib ⟨[earlyMeeting, sampleMeeting], []⟩ 1714559400000
      = ⟨200, .liveMeeting sampleMeeting 0⟩ := by
  decide

/-- C28 (amended): the meeting `getLiveMeetings` sends is a live candidate (a stored
public meeting of today with status scheduled or live, live at `now`) whose time
string is least among the live candidates in the binary string order; every order
of the stored meetings gives an answer with this time string, so the answer is
determined up to meetings with equal time strings. It is the earliest-starting live
candidate when the string order of the times of today's meetings agrees with the
order of their starts. -/
theorem getLive_least_time_string (lib : DateLib) (s : Store) (now : Int) (m : Meeting)
    (n : Nat) (h : getLiveMeetings lib s now = ⟨200, .liveMeeting m n⟩) :
    (m ∈ s.meetings ∧ m.date = lib.isoDate now ∧
      (m.status = "scheduled" ∨ m.status = "live") ∧ m.isPublic = true ∧
      isLive lib m now = true) ∧
    (∀ x ∈ s.meetings, x.date = lib.isoDate now →
      (x.status = "scheduled" ∨ x.status = "live") → x.isPublic = true →
      isLive lib x now = true → strLe m.time x.time = true) ∧
    (∀ (s2 : Store) (m2 : Meeting) (n2 : Nat), s2.meetings.Perm s.meetings →
      getLiveMeetings lib s2 now = ⟨200, .liveMeeting m2 n2⟩ → m2.time = m.time) ∧
    ((∀ x ∈ s.meetings, ∀ y ∈ s.meetings, x.date = lib.isoDate now → y.date = lib.isoDate now →
        strLe x.time y.time = true →
        ∀ a b, meetingStart lib x = some a → meetingStart lib y = some b → a ≤ b) →
      ∀ x ∈ s.meetings, x.date = lib.isoDate now →
        (x.status = "scheduled" ∨ x.status = "live") → x.isPublic = true →
        isLive lib x now = true →
        ∃ a b, meetingStart lib m = some a ∧ meetingStart lib x = some b ∧ a ≤ b) := by
  have hcand := getLive_returned h
  refine ⟨hcand, ?_, ?_, ?_⟩
  · intro x hx hdate hstatus hpublic hlive
    exact getLive_least_time h hx hdate hstatus hpublic hlive
  · intro s2 m2 n2 hperm h2
    have hcand2 := getLive_returned h2
    have h12 : strLe m.time m2.time = true :=
      getLive_least_time h (hperm.subset hcand2.1) hcand2.2.1 hcand2.2.2.1 hcand2.2.2.2.1
        hcand2.2.2.2.2
    have h21 : strLe m2.time m.time = true :=
      getLive_least_time h2 (hperm.symm.subset hcand.1) hcand.2.1 hcand.2.2.1 hcand.2.2.2.1
        hcand.2.2.2.2
    exact strLe_antisymm h21 h12
  · intro hmono x hx hdate hstatus hpublic hlive
    obtain ⟨a, ha, -, -⟩ := (isLive_iff lib m now).1 hcand.2.2.2.2
    obtain ⟨b, hb, -, -⟩ := (isLive_iff lib x now).1 hlive
    exact ⟨a, b, ha, hb, hmono m hcand.1 x hx hcand.2.1 hdate
      (getLive_least_time h hx hdate hstatus hpublic hlive) a b ha hb⟩

/-- At 10:30 the store of the two live meetings, in either order, sends the sample
meeting, whose time string 10:00 is least. -/
theorem getLive_least_time_string_witness :
    getLiveMeetings looseLib ⟨[sampleMeeting, earlyMeeting], []⟩ 1714559400000
      = ⟨200, .liveMeeting sampleMeeting 0⟩ ∧
    strLe sampleMeeting.time earlyMeeting.time = true ∧
    ∀ x ∈ (⟨[sampleMeeting, earlyMeeting], []⟩ : Store).meetings,
      x.date = looseLib.isoDate 1714559400000 →
      (x.status = "scheduled" ∨ x.status = "live") → x.isPublic = true →
      isLive looseLib x 1714559400000 = true → strLe sampleMeeting.time x.time = true :=
  ⟨by decide, by decide,
    (getLive_least_time_string looseLib ⟨[sampleMeeting, earlyMeeting], []⟩ 1714559400000
      sampleMeeting 0 (by decide)).2.1⟩

/-! ## The registrations of a user -/

/-- C21 (counterexample): Bob, signed in with an account of his own and the email
bob@example.com, registers for the sample meeting under another email; the
meeting then holds a registration with his `userId`, and `getUserRegistrations`
sends him the empty array: the query matches registrations by email only. -/
theorem userRegistrations_misses_userId :
    bob._id = bobId ∧
    (findById (registerForMeeting sampleStore (some bob) sampleId (registerBody "bob@work.example")
        1714500000000).1.meetings sampleId).map
      (fun m => m.registrations.map (fun reg => (reg.userId, reg.email)))
      = some [(bobId, "bob@work.example")] ∧
    getUserRegistrations
      (registerForMeeting sampleStore (some bob) sampleId (registerBody "bob@work.example")
        1714500000000).1 (some bob) none = ⟨200, .userRegistrations []⟩ ∧
    getUserRegistrations
      (registerForMeeting sampleStore (some bob) sampleId (registerBody "bob@work.example")
        1714500000000).1 (some bob) (some bobId) = ⟨200, .userRegistrations []⟩ := by
  decide

/-- C21 (amended): for a caller identified by an email (the email of the signed-in
user, else the `email` query parameter) `getUserRegistrations` answers 200 with one
tuple for each stored meeting that holds a registration with this email, in the
stored order, and none for another meeting: with distinct identifiers no two tuples
name one meeting, and a stored meeting is named if and only if it holds such a
registration. Each tuple carries the identifier and the title of its meeting and
the `registrationDate` of the first registration with this email. A caller
without an email gets the empty array. -/
theorem userRegistrations_by_email (s : Store) (user : Option User)
    (queryEmail : Option String) (e : String)
    (hemail : jsOr (user.bind (fun u => u.email)) queryEmail = some e) (hne : e ≠ "")
    (hunique : UniqueIds s.meetings) :
    (getUserRegistrations s user queryEmail).status = 200 ∧
    (returnedRegistrations (getUserRegistrations s user queryEmail)).map
        (fun item => item.sessionId)
      = (s.meetings.filter (fun m => m.registrations.any (fun reg => reg.email == e))).map
          (fun m => m._id) ∧
    ((returnedRegistrations (getUserRegistrations s user queryEmail)).map
      (fun item => item.sessionId)).Nodup ∧
    (∀ m ∈ s.meetings,
      m._id ∈ (returnedRegistrations (getUserRegistrations s user queryEmail)).map
          (fun item => item.sessionId)
        ↔ ∃ reg ∈ m.registrations, reg.email = e) ∧
    (∀ item ∈ returnedRegistrations (getUserRegistrations s user queryEmail),
      ∃ m ∈ s.meetings, ∃ reg ∈ m.registrations, reg.email = e ∧
        m.registrations.find? (fun r => r.email == e) = some reg ∧
        item = ⟨m._id, m.title, some reg.registrationDate⟩) ∧
    (∀ (user0 : Option User) (query0 : Option String),
      truthy (jsOr (user0.bind (fun u => u.email)) query0) = false →
      getUserRegistrations s user0 query0 = ⟨200, .userRegistrations []⟩) := by
  have htruthy : truthy (some e) = true := by simpa [truthy] using hne
  have hresp : getUserRegistrations s user queryEmail
      = ⟨200, .userRegistrations
          ((s.meetings.filter (fun m => m.registrations.any (fun reg => reg.email == e))).map
            (fun m => ⟨m._id, m.title,
              (m.registrations.find? (fun reg => reg.email == e)).map
                (fun reg => reg.registrationDate)⟩))⟩ := by
    unfold getUserRegistrations
    simp only [hemail, htruthy]
    simp
  have hids : (returnedRegistrations (getUserRegistrations s user queryEmail)).map
        (fun item => item.sessionId)
      = (s.meetings.filter (fun m => m.registrations.any (fun reg => reg.email == e))).map
          (fun m => m._id) := by
    rw [hresp]
    simp [returnedRegistrations, List.map_map, Function.comp_def]
  have hnodup : ((s.meetings.filter
      (fun m => m.registrations.any (fun reg => reg.email == e))).map (fun m => m._id)).Nodup :=
    List.Nodup.sublist ((List.filter_sublist _).map _) hunique
  refine ⟨by rw [hresp], hids, by rw [hids]; exact hnodup, ?_, ?_, ?_⟩
  · intro m hm
    rw [hids, List.mem_map]
    constructor
    · rintro ⟨x, hx, hxid⟩
      rw [List.mem_filter] at hx
      have hxm : x = m := by
        unfold UniqueIds at hunique
        exact List.inj_on_of_nodup_map hunique hx.1 hm hxid
      subst hxm
      simpa using hx.2
    · intro hreg
      refine ⟨m, ?_, rfl⟩
      rw [List.mem_filter]
      exact ⟨hm, by simpa using hreg⟩
  · intro item hitem
    rw [hresp] at hitem
    simp only [returnedRegistrations, List.mem_map, List.mem_filter] at hitem
    obtain ⟨m, ⟨hm, hany⟩, hitem⟩ := hitem
    cases hfind : m.registrations.find? (fun reg => reg.email == e) with
    | none =>
      rw [List.find?_eq_none] at hfind
      rw [List.any_eq_true] at hany
      obtain ⟨reg, hreg, hmatch⟩ := hany
      exact absurd hmatch (hfind reg hreg)
    | some reg =>
      have hreg := List.mem_of_find?_eq_some hfind
      have hmatch : reg.email = e := by simpa using List.find?_some hfind
      refine ⟨m, hm, reg, hreg, hmatch, hfind, ?_⟩
      rw [← hitem, hfind]
      rfl
  · intro user0 query0 h0
    unfold getUserRegistrations
    simp [h0]

/-- Bob holds a registration in the sample meeting and none in the other meeting:
he is sent one tuple, for the sample meeting. -/
theorem userRegistrations_by_email_witness :
    getUserRegistrations
      ⟨[sampleMeetingWith [sampleRegistration "Bob" "bob@example.com"], otherMeeting], []⟩
      (some bob) none
      = ⟨200, .userRegistrations
          [⟨sampleId, "Tax planning",
            some (sampleRegistration "Bob" "bob@example.com").registrationDate⟩]⟩ ∧
    ((returnedRegistrations (getUserRegistrations
      ⟨[sampleMeetingWith [sampleRegistration "Bob" "bob@example.com"], otherMeeting], []⟩
      (some bob) none)).map (fun item => item.sessionId)).Nodup :=
  ⟨by decide,
    (userRegistrations_by_email
      ⟨[sampleMeetingWith [sampleRegistration "Bob" "bob@example.com"], otherMeeting], []⟩
      (some bob) none "bob@example.com" (by decide) (by decide)
      (by unfold UniqueIds; decide)).2.2.1⟩

/-! ## The topics of a new meeting -/

theorem splitComma_ne_nil (cs : List Char) : splitComma cs ≠ [] := by
  cases cs with
  | nil => simp [splitComma]
  | cons c cs =>
    unfold splitComma
    split
    · simp
    · split <;> simp

/-- Joining the pieces of `split(',')` by commas gives the text back. -/
theorem joinPieces_splitComma (cs : List Char) : joinPieces (splitComma cs) = cs := by
  induction cs with
  | nil => rfl
  | cons c cs ih =>
    unfold splitComma
    split
    · rename_i hc
      cases hs : splitComma cs with
      | nil => exact absurd hs (splitComma_ne_nil cs)
      | cons p ps =>
        rw [hs] at ih
        simp only [joinPieces, List.nil_append, ih, hc]
    · cases hs : splitComma cs with
      | nil => exact absurd hs (splitComma_ne_nil cs)
      | cons p ps =>
        rw [hs] at ih
        cases ps with
        | nil =>
          simp only [joinPieces] at ih ⊢
          rw [ih]
        | cons q qs =>
          simp only [joinPieces, List.cons_append] at ih ⊢
          rw [ih]

/-- No piece of `split(',')` holds a comma. -/
theorem splitComma_no_comma (cs : List Char) : ∀ p ∈ splitComma cs, ',' ∉ p := by
  induction cs with
  | nil => simp [splitComma]
  | cons c cs ih =>
    unfold splitComma
    split
    · intro p hp
      rcases List.mem_cons.1 hp with h | h
      · rw [h]
        exact List.not_mem_nil _
      · exact ih p h
    · rename_i hc
      cases hs : splitComma cs with
      | nil => exact absurd hs (splitComma_ne_nil cs)
      | cons q qs =>
        rw [hs] at ih
        intro p hp
        rcases List.mem_cons.1 hp with h | h
        · rw [h]
          intro hmem
          rcases List.mem_cons.1 hmem with h1 | h1
          · exact hc h1.symm
          · exact ih q (List.mem_cons_self _ _) h1
        · exact ih p (List.mem_cons_of_mem _ h)

theorem splitComma_cons (c : Char) (cs : List Char) :
    splitComma (c :: cs)
      = if c = ',' then [] :: splitComma cs
        else match splitComma cs with
          | [] => [[c]]
          | p :: ps => (c :: p) :: ps := by
  rw [splitComma]

theorem splitComma_piece {p : List Char} (hp : ',' ∉ p) : splitComma p = [p] := by
  induction p with
  | nil => rfl
  | cons c cs ih =>
    have hc : ¬ c = ',' := fun h => hp (h ▸ List.mem_cons_self _ _)
    have hcs : ',' ∉ cs := fun h => hp (List.mem_cons_of_mem _ h)
    unfold splitComma
    rw [if_neg hc, ih hcs]

theorem splitComma_append {p : List Char} (hp : ',' ∉ p) (rest : List Char) :
    splitComma (p ++ ',' :: rest) = p :: splitComma rest := by
  induction p with
  | nil =>
    rw [List.nil_append, splitComma_cons, if_pos rfl]
  | cons c cs ih =>
    have hc : ¬ c = ',' := fun h => hp (h ▸ List.mem_cons_self _ _)
    have hcs : ',' ∉ cs := fun h => hp (List.mem_cons_of_mem _ h)
    rw [List.cons_append, splitComma_cons, if_neg hc, ih hcs]

/-- Splitting at commas undoes joining comma-free pieces by commas. -/
theorem splitComma_joinPieces {ps : List (List Char)} (hne : ps ≠ [])
    (hps : ∀ p ∈ ps, ',' ∉ p) : splitComma (joinPieces ps) = ps := by
  induction ps with
  | nil => exact absurd rfl hne
  | cons p qs ih =>
    cases qs with
    | nil => exact splitComma_piece (hps p (List.mem_cons_self _ _))
    | cons q qs =>
      unfold joinPieces
      rw [splitComma_append (hps p (List.mem_cons_self _ _)),
        ih (List.cons_ne_nil _ _) (fun x hx => hps x (List.mem_cons_of_mem _ hx))]

/-- The list `trimStart cs` is `cs` without a prefix of white space. -/
theorem trimStart_prefix (cs : List Char) :
    ∃ pre, cs = pre ++ trimStart cs ∧ ∀ c ∈ pre, isJsSpace c = true := by
  induction cs with
  | nil => exact ⟨[], rfl, fun c hc => absurd hc (List.not_mem_nil _)⟩
  | cons x xs ih =>
    unfold trimStart
    split
    · rename_i hx
      obtain ⟨pre, hpre, hall⟩ := ih
      refine ⟨x :: pre, by rw [List.cons_append, ← hpre], ?_⟩
      intro c hc
      rcases List.mem_cons.1 hc with h | h
      · rw [h]
        exact hx
      · exact hall c h
    · exact ⟨[], rfl, fun c hc => absurd hc (List.not_mem_nil _)⟩

theorem trimStart_head (cs : List Char) (c : Char) (h : (trimStart cs).head? = some c) :
    isJsSpace c = false := by
  induction cs with
  | nil => simp [trimStart] at h
  | cons x xs ih =>
    unfold trimStart at h
    split at h
    · exact ih h
    · rename_i hx
      simp only [List.head?_cons, Option.some.injEq] at h
      rw [← h]
      simpa using hx

theorem trimStart_id {cs : List Char} (h : ∀ c, cs.head? = some c → isJsSpace c = false) :
    trimStart cs = cs := by
  cases cs with
  | nil => rfl
  | cons x xs =>
    have hx := h x rfl
    unfold trimStart
    rw [hx]
    rfl

/-- The text `trim` returns is the text without a prefix and a suffix of white
space; it neither starts nor ends with white space. -/
theorem jsTrim_spec (cs : List Char) :
    (∃ pre post, cs = pre ++ (jsTrim ⟨cs⟩).data ++ post ∧
      (∀ c ∈ pre, isJsSpace c = true) ∧ (∀ c ∈ post, isJsSpace c = true)) ∧
    (∀ c, (jsTrim ⟨cs⟩).data.head? = some c → isJsSpace c = false) ∧
    (∀ c, (jsTrim ⟨cs⟩).data.getLast? = some c → isJsSpace c = false) := by
  obtain ⟨pre, hpre, hallpre⟩ := trimStart_prefix cs
  obtain ⟨post, hpost, hallpost⟩ := trimStart_prefix (trimStart cs).reverse
  have hdata : (jsTrim ⟨cs⟩).data = (trimStart (trimStart cs).reverse).reverse := rfl
  have hmid : trimStart cs = (trimStart (trimStart cs).reverse).reverse ++ post.reverse := by
    have := congrArg List.reverse hpost
    rw [List.reverse_reverse, List.reverse_append] at this
    exact this
  refine ⟨⟨pre, post.reverse, ?_, hallpre, ?_⟩, ?_, ?_⟩
  · rw [hdata, List.append_assoc, ← hmid]
    exact hpre
  · intro c hc
    exact hallpost c (List.mem_reverse.1 hc)
  · intro c hc
    rw [hdata] at hc
    apply trimStart_head cs c
    rw [hmid]
    cases hb : (trimStart (trimStart cs).reverse).reverse with
    | nil => rw [hb] at hc; cases hc
    | cons y ys =>
      rw [hb] at hc
      rw [List.cons_append]
      exact hc
  · intro c hc
    rw [hdata, List.getLast?_reverse] at hc
    exact trimStart_head _ c hc

/-- The method `trim` returns a text that neither starts nor ends with white space
as it is. -/
theorem jsTrim_id {t : String} (hhead : ∀ c, t.data.head? = some c → isJsSpace c = false)
    (hlast : ∀ c, t.data.getLast? = some c → isJsSpace c = false) : jsTrim t = t := by
  unfold jsTrim
  rw [trimStart_id hhead, trimStart_id (by rw [List.head?_reverse]; exact hlast),
    List.reverse_reverse]

theorem jsTrim_subset (cs : List Char) : ∀ c ∈ (jsTrim ⟨cs⟩).data, c ∈ cs := by
  obtain ⟨⟨pre, post, h, -, -⟩, -, -⟩ := jsTrim_spec cs
  intro c hc
  rw [h]
  exact List.mem_append_left _ (List.mem_append_right _ hc)

/-- Parsing the comma-joined text of a list of topics gives the list back when no
topic is empty, starts or ends with white space, or holds a comma. -/
theorem parseTopics_joinComma {l : List String}
    (h : ∀ t ∈ l, t ≠ "" ∧ ',' ∉ t.data ∧
      (∀ c, t.data.head? = some c → isJsSpace c = false) ∧
      (∀ c, t.data.getLast? = some c → isJsSpace c = false)) :
    parseTopics (some (.text (joinComma l))) = l := by
  cases hl : l with
  | nil => rfl
  | cons x xs =>
    rw [← hl]
    have hne : l.map (fun topic => topic.data) ≠ [] := by
      rw [hl]
      simp
    have hsplit : splitComma (joinComma l).data = l.map (fun topic => topic.data) := by
      apply splitComma_joinPieces hne
      intro p hp
      obtain ⟨t, ht, hpt⟩ := List.mem_map.1 hp
      rw [← hpt]
      exact (h t ht).2.1
    have htrim : (l.map (fun topic => topic.data)).map (fun cs => jsTrim ⟨cs⟩) = l := by
      rw [List.map_map]
      conv_rhs => rw [← List.map_id l]
      apply List.map_congr_left
      intro t ht
      exact jsTrim_id (h t ht).2.2.1 (h t ht).2.2.2
    show (((splitComma (joinComma l).data).map (fun cs => jsTrim ⟨cs⟩)).filter
      (fun topic => topic != "")) = l
    rw [hsplit, htrim, List.filter_eq_self]
    intro t ht
    simpa using (h t ht).1

/-- The topics parsed from a text are not empty, hold no comma and neither start
nor end with white space. -/
theorem parseTopics_text (text : String) :
    ∀ t ∈ parseTopics (some (.text text)), t ≠ "" ∧ ',' ∉ t.data ∧
      (∀ c, t.data.head? = some c → isJsSpace c = false) ∧
      (∀ c, t.data.getLast? = some c → isJsSpace c = false) := by
  intro t ht
  have ht0 : t ∈ (((splitComma text.data).map (fun cs => jsTrim ⟨cs⟩)).filter
      (fun topic => topic != "")) := ht
  rw [List.mem_filter, List.mem_map] at ht0
  obtain ⟨⟨p, hp, hpt⟩, hne⟩ := ht0
  subst hpt
  refine ⟨by simpa using hne, ?_, (jsTrim_spec p).2.1, (jsTrim_spec p).2.2⟩
  intro hcomma
  exact splitComma_no_comma text.data p hp (jsTrim_subset p _ hcomma)

/-- C22: a create request with `topics` given as a text, when it succeeds, stores
as topics the pieces of the text between its commas, in their order, each without
its leading and trailing white space, the empty ones dropped: the pieces joined by
commas are the text and hold no comma, and each piece is its trimmed text between a
prefix and a suffix of white space. No stored topic is empty or starts or ends with
white space, and parsing the stored topics joined by commas gives the stored
topics. -/
theorem create_parses_topics (s : Store) (user : Option User) (body : CreateBody)
    (newId : String) (now : Int) (text : String)
    (htopics : body.topics = some (.text text))
    (hok : (createMeeting s user body newId now).2.status = 201) :
    ∃ m, (createMeeting s user body newId now).1.meetings = s.meetings ++ [m] ∧
      m.topics = ((splitComma text.data).map (fun cs => jsTrim ⟨cs⟩)).filter
        (fun topic => topic != "") ∧
      joinPieces (splitComma text.data) = text.data ∧
      (∀ p ∈ splitComma text.data, ',' ∉ p ∧
        ∃ pre post, p = pre ++ (jsTrim ⟨p⟩).data ++ post ∧
          (∀ c ∈ pre, isJsSpace c = true) ∧ (∀ c ∈ post, isJsSpace c = true)) ∧
      (∀ t ∈ m.topics, t ≠ "" ∧
        (∀ c, t.data.head? = some c → isJsSpace c = false) ∧
        (∀ c, t.data.getLast? = some c → isJsSpace c = false)) ∧
      parseTopics (some (.text (joinComma m.topics))) = m.topics := by
  obtain ⟨creator, -, -, -, -, hcreate⟩ := createMeeting_success hok
  have htop : (newMeeting body creator newId now).topics = parseTopics (some (.text text)) := by
    show (parseTopics body.topics).map jsTrim = _
    rw [htopics]
    have hid : ∀ t ∈ parseTopics (some (.text text)), jsTrim t = t := fun t ht =>
      jsTrim_id (parseTopics_text text t ht).2.2.1 (parseTopics_text text t ht).2.2.2
    rw [List.map_congr_left hid, List.map_id']
  refine ⟨newMeeting body creator newId now, by rw [hcreate], ?_, joinPieces_splitComma _,
    ?_, ?_, ?_⟩
  · rw [htop]
    rfl
  · intro p hp
    exact ⟨splitComma_no_comma _ p hp, (jsTrim_spec p).1⟩
  · intro t ht
    rw [htop] at ht
    have := parseTopics_text text t ht
    exact ⟨this.1, this.2.2.1, this.2.2.2⟩
  · rw [htop]
    exact parseTopics_joinComma (parseTopics_text text)

/-- Alice creates a meeting with the topics text ' tax, ,savings ,, loans ': the
stored topics are tax, savings and loans, and their comma-joined text parses to
them. -/
theorem create_parses_topics_witness :
    (createMeeting sampleStore (some alice)
      { createBody with topics := some (.text " tax, ,savings ,, loans ") } freshId
      1714500000000).2.status = 201 ∧
    ((createMeeting sampleStore (some alice)
      { createBody with topics := some (.text " tax, ,savings ,, loans ") } freshId
      1714500000000).1.meetings.map (fun m => m.topics))
      = [[], ["tax", "savings", "loans"]] ∧
    joinComma ["tax", "savings", "loans"] = "tax,savings,loans" ∧
    ∃ m, (createMeeting sampleStore (some alice)
      { createBody with topics := some (.text " tax, ,savings ,, loans ") } freshId
      1714500000000).1.meetings = sampleStore.meetings ++ [m] ∧
      parseTopics (some (.text (joinComma m.topics))) = m.topics :=
  ⟨by decide, by decide, by decide,
    (create_parses_topics sampleStore (some alice)
      { createBody with topics := some (.text " tax, ,savings ,, loans ") } freshId
      1714500000000 " tax, ,savings ,, loans " rfl (by decide)).imp
      (fun _ h => ⟨h.1, h.2.2.2.2.2⟩)⟩


end MeetingService


namespace VoiceNavigation

open MeetingService (isJsSpace jsTrim truthy)

theorem upper_cases (d : Char) (hu : d.isUpper = true) :
    ∃ n, 65 ≤ n ∧ n ≤ 90 ∧ d = Char.ofNat n := by
  refine ⟨d.toNat, ?_, ?_, ?_⟩
  · simp only [Char.isUpper, Bool.and_eq_true, decide_eq_true_eq] at hu
    exact hu.1
  · simp only [Char.isUpper, Bool.and_eq_true, decide_eq_true_eq] at hu
    exact hu.2
  · exact (Char.ofNat_toNat d).symm

theorem toLower_of_not_upper (d : Char) (hu : ¬ d.isUpper = true) : d.toLower = d := by
  simp only [Char.isUpper, Bool.and_eq_true, decide_eq_true_eq] at hu
  unfold Char.toLower
  rw [if_neg]
  intro h
  exact hu h

/-- Lower-casing a kept character gives a kept character that is not an upper-case
letter. -/
theorem toLower_kept (d : Char) (h : isKept d = true) :
    isKept d.toLower = true ∧ d.toLower.isUpper = false := by
  by_cases hu : d.isUpper = true
  · obtain ⟨n, h1, h2, hd⟩ := upper_cases d hu
    subst hd
    interval_cases n <;> decide
  · rw [toLower_of_not_upper d hu]
    exact ⟨h, by simpa using hu⟩

/-- C24 (the code at the failing input): `sanitizeCommand` replaces the runs of
white space before it removes the other characters, so the spaces on both sides of
a removed character stay: 'Go to Q & A' becomes 'go to q  a', with two spaces, a
second call gives another text, 'go to q a', and '& help' becomes ' help', which
starts with a space. What holds for every command: the output is made of word
characters, white space and the five punctuation marks, and has no upper-case
letter. -/
theorem sanitizeCommand_double_space :
    sanitizeCommand "Go to Q & A" = "go to q  a" ∧
    sanitizeCommand (sanitizeCommand "Go to Q & A") = "go to q a" ∧
    sanitizeCommand "& help" = " help" ∧
    ∀ (command : String) (c : Char), c ∈ (sanitizeCommand command).data →
      isKept c = true ∧ c.isUpper = false := by
  refine ⟨by decide, by decide, by decide, ?_⟩
  intro command c hc
  have hc0 : c ∈ ((collapseFrom false (jsTrim command).data).filter isKept).map Char.toLower :=
    hc
  rw [List.mem_map] at hc0
  obtain ⟨d, hd, hdc⟩ := hc0
  rw [← hdc]
  exact toLower_kept d (List.mem_filter.1 hd).2

/-! ## The confidence of an answer -/

/-- C25 (the code at the failing input): `parseGeminiResponse` tests
`!parsed.action.confidence`, which is true of the number 0 as of an absent value:
the answer that navigates with confidence 0 is returned with confidence 0.8, and
`validateLLMResponse` leaves it a navigation, where the same answer with its
confidence 0 kept would become a clarification. What holds: a valid answer with a
confidence other than 0 is returned as parsed, and one without a confidence gets
0.8. -/
theorem zero_confidence_replaced :
    sampleJson zeroConfidenceText
      = some ⟨some ⟨some "navigate", some 0⟩, some "Opening the calculator", none⟩ ∧
    parseGeminiResponse sampleJson zeroConfidenceText
      = ⟨some ⟨some "navigate", some 0.8⟩, some "Opening the calculator", none⟩ ∧
    validateLLMResponse (parseGeminiResponse sampleJson zeroConfidenceText)
      = ⟨some ⟨some "navigate", some 0.8⟩, some "Opening the calculator", none⟩ ∧
    validateLLMResponse ⟨some ⟨some "navigate", some 0⟩, some "Opening the calculator", none⟩
      = ⟨some ⟨some "clarification", some 0⟩,
          some "I\x27m not quite sure what you mean. Could you please rephrase that?", none⟩ ∧
    (∀ (jsonOf : String → Option LlmResponse) (text : String) (parsed : LlmResponse)
      (action : Action) (c : ℚ),
      jsonOf text = some parsed → parsed.action = some action →
      truthy parsed.response = true →
      action.type.any (fun t => validActionTypes.contains t) = true →
      action.confidence = some c → c ≠ 0 →
      parseGeminiResponse jsonOf text = parsed) ∧
    (∀ (jsonOf : String → Option LlmResponse) (text : String) (parsed : LlmResponse)
      (action : Action),
      jsonOf text = some parsed → parsed.action = some action →
      truthy parsed.response = true →
      action.type.any (fun t => validActionTypes.contains t) = true →
      action.confidence = none →
      parseGeminiResponse jsonOf text
        = { parsed with action := some { action with confidence := some 0.8 } }) := by
  have hparse : parseGeminiResponse sampleJson zeroConfidenceText
      = ⟨some ⟨some "navigate", some 0.8⟩, some "Opening the calculator", none⟩ := by rfl
  refine ⟨by rfl, hparse, ?_, ?_, ?_, ?_⟩
  · rw [hparse]
    simp [validateLLMResponse, truthy]
    norm_num
  · simp [validateLLMResponse, truthy]
    norm_num
  · intro jsonOf text parsed action c hjson haction hresponse htype hconf hc
    have hb : (c != 0) = true := bne_iff_ne.2 hc
    unfold parseGeminiResponse
    simp only [hjson, haction, hresponse, htype, hconf, truthyNumber, hb, Bool.not_true,
      Bool.false_eq_true, if_false]
  · intro jsonOf text parsed action hjson haction hresponse htype hconf
    unfold parseGeminiResponse
    simp only [hjson, haction, hresponse, htype, hconf, truthyNumber, Bool.not_true,
      Bool.not_false, Bool.false_eq_true, if_false, if_true]

end VoiceNavigation

